import Mathlib

/-!
Shallow embedding of src/stageA/lint/contract_lint_validator.py.

A contract document is a parsed JSON tree; the Python code walks it with
dict.get, membership tests, regex matches and set operations, all of which
can raise AttributeError or TypeError on values of the wrong dynamic type.
We model Python values as `JValue` (JSON null maps to Python None), and every
operation that can raise as an `Except PyErr` computation, so the embedded
checks raise exactly where the Python does.

Simplifications, recorded here once:
* Python regex \d is modeled as the ASCII digit class (all inputs used in
  the theorems below are ASCII).
* Finding messages are f-strings in the source; we model a message as its
  template plus interpolated values (inductive `Msg`), and a finding path
  likewise (inductive `Pth`, with `Pth.render` producing the exact source
  string). The source never compares findings, so only claim-level counting
  depends on this, and the structural form identifies the emitting site.
* Python dict preserves insertion order; we model objects as association
  lists with unique keys (json.load keeps one value per key). Python set
  iteration order is unspecified; we iterate sets in insertion order, and no
  theorem below depends on the order of findings that come from set walks.
* Python number/bool equality quirks (True == 1) are not modeled; the checks
  only ever compare document values against string constants or each other
  inside sets, and every theorem below uses string-valued documents there.
-/

/-- A parsed JSON value; also plays the role of a Python value (JSON null
is Python None). -/
inductive JValue where
  | null
  | bool (b : Bool)
  | num (n : Int)
  | str (s : String)
  | arr (elts : List JValue)
  | obj (kvs : List (String × JValue))

/-- Python exceptions the validator body can raise. -/
inductive PyErr where
  | attributeError (m : String)
  | typeError (m : String)
deriving DecidableEq, Repr

namespace JValue

mutual

/-- Structural (Python ==) equality test on values. -/
def beq : JValue → JValue → Bool
  | .null, .null => true
  | .bool a, .bool b => a == b
  | .num a, .num b => a == b
  | .str a, .str b => a == b
  | .arr a, .arr b => beqList a b
  | .obj a, .obj b => beqObj a b
  | _, _ => false

/-- Pointwise equality test on value lists. -/
def beqList : List JValue → List JValue → Bool
  | [], [] => true
  | x :: xs, y :: ys => beq x y && beqList xs ys
  | _, _ => false

/-- Pointwise equality test on key-value lists. -/
def beqObj : List (String × JValue) → List (String × JValue) → Bool
  | [], [] => true
  | (k1, v1) :: xs, (k2, v2) :: ys => k1 == k2 && beq v1 v2 && beqObj xs ys
  | _, _ => false

end

mutual

theorem eq_of_beq : ∀ a b : JValue, beq a b = true → a = b
  | .null, .null, _ => rfl
  | .bool _, .bool _, h => by simpa [beq] using h
  | .num _, .num _, h => by simpa [beq] using h
  | .str _, .str _, h => by simpa [beq] using h
  | .arr a, .arr b, h => by
      simp only [beq] at h
      exact congrArg JValue.arr (eqList_of_beqList a b h)
  | .obj a, .obj b, h => by
      simp only [beq] at h
      exact congrArg JValue.obj (eqObj_of_beqObj a b h)

theorem eqList_of_beqList : ∀ a b : List JValue, beqList a b = true → a = b
  | [], [], _ => rfl
  | x :: xs, y :: ys, h => by
      simp only [beqList, Bool.and_eq_true] at h
      rw [eq_of_beq x y h.1, eqList_of_beqList xs ys h.2]

theorem eqObj_of_beqObj :
    ∀ a b : List (String × JValue), beqObj a b = true → a = b
  | [], [], _ => rfl
  | (k1, v1) :: xs, (k2, v2) :: ys, h => by
      simp only [beqObj, Bool.and_eq_true, beq_iff_eq] at h
      rw [h.1.1, eq_of_beq v1 v2 h.1.2, eqObj_of_beqObj xs ys h.2]

end

mutual

theorem beq_refl : ∀ a : JValue, beq a a = true
  | .null => rfl
  | .bool _ => by simp [beq]
  | .num _ => by simp [beq]
  | .str _ => by simp [beq]
  | .arr a => by simp only [beq]; exact beqList_refl a
  | .obj a => by simp only [beq]; exact beqObj_refl a

theorem beqList_refl : ∀ a : List JValue, beqList a a = true
  | [] => rfl
  | x :: xs => by
      simp only [beqList, Bool.and_eq_true]
      exact ⟨beq_refl x, beqList_refl xs⟩

theorem beqObj_refl : ∀ a : List (String × JValue), beqObj a a = true
  | [] => rfl
  | (k, v) :: xs => by
      simp only [beqObj, Bool.and_eq_true]
      exact ⟨⟨by simp, beq_refl v⟩, beqObj_refl xs⟩

end

instance : DecidableEq JValue := fun a b =>
  if h : beq a b = true then .isTrue (eq_of_beq a b h)
  else .isFalse (fun he => h (he ▸ beq_refl a))

/-- Python truthiness of a value (None, False, 0, empty string, empty list,
empty dict are falsy). -/
def truthy : JValue → Bool
  | .null => false
  | .bool b => b
  | .num n => n != 0
  | .str s => s != ""
  | .arr l => !l.isEmpty
  | .obj l => !l.isEmpty

/-- Python hashability: lists and dicts are unhashable. -/
def hashable : JValue → Bool
  | .arr _ => false
  | .obj _ => false
  | _ => true

end JValue

/-! ### Python operations

Each models one dynamic operation of the source, including the exception it
raises on a value of the wrong type. -/

/-- Python `v.get(k, d)`: AttributeError unless `v` is a dict. -/
def pyGetD (v : JValue) (k : String) (d : JValue) : Except PyErr JValue :=
  match v with
  | .obj kvs => .ok (((kvs.lookup k)).getD d)
  | _ => .error (.attributeError "object has no attribute get")

/-- Python `v.get(k)` (default None). -/
def pyGet (v : JValue) (k : String) : Except PyErr JValue := pyGetD v k .null

/-- Python `v.keys()`: AttributeError unless `v` is a dict. -/
def pyKeys (v : JValue) : Except PyErr (List String) :=
  match v with
  | .obj kvs => .ok (kvs.map Prod.fst)
  | _ => .error (.attributeError "object has no attribute keys")

/-- Python `v.values()`: AttributeError unless `v` is a dict. -/
def pyValues (v : JValue) : Except PyErr (List JValue) :=
  match v with
  | .obj kvs => .ok (kvs.map Prod.snd)
  | _ => .error (.attributeError "object has no attribute values")

/-- Whether the first character list is a prefix of the second. -/
def startsList : List Char → List Char → Bool
  | [], _ => true
  | _ :: _, [] => false
  | a :: as, b :: bs => a == b && startsList as bs

/-- Whether the first character list occurs contiguously in the second. -/
def substrList (n : List Char) (h : List Char) : Bool :=
  match h with
  | [] => n.isEmpty
  | _ :: t => startsList n h || substrList n t

/-- Python `k in v` for a string `k`: key membership in a dict, element
membership in a list, substring test in a string, TypeError otherwise. -/
def pyContains (v : JValue) (k : String) : Except PyErr Bool :=
  match v with
  | .obj kvs => .ok (kvs.any (fun p => p.1 == k))
  | .arr l => .ok (l.any (fun e => e == JValue.str k))
  | .str s => .ok (substrList k.toList s.toList)
  | _ => .error (.typeError "argument is not iterable")

/-- Python `for x in v`: list elements, dict keys, string characters,
TypeError otherwise. -/
def pyIter (v : JValue) : Except PyErr (List JValue) :=
  match v with
  | .arr l => .ok l
  | .obj kvs => .ok (kvs.map (fun p => JValue.str p.1))
  | .str s => .ok (s.toList.map (fun c => JValue.str (String.mk [c])))
  | _ => .error (.typeError "object is not iterable")

/-- Insertion into a Python set modeled as an insertion-ordered
duplicate-free list: the pure part, used once hashability is known. -/
def setAddPure (s : List JValue) (v : JValue) : List JValue :=
  if s.contains v then s else s ++ [v]

/-- Python `s.add(v)` on a set: TypeError on unhashable `v`. -/
def pyAdd (s : List JValue) (v : JValue) : Except PyErr (List JValue) :=
  if v.hashable then .ok (setAddPure s v)
  else .error (.typeError "unhashable type")

/-- Python `v in s` for a set `s`: TypeError on unhashable `v`. -/
def pyMem (v : JValue) (s : List JValue) : Except PyErr Bool :=
  if v.hashable then .ok (s.contains v)
  else .error (.typeError "unhashable type")

/-- Python `v in s` for a set of string constants (the VALID_* sets):
TypeError on unhashable `v`, otherwise false for any non-string. -/
def pyMemStr (v : JValue) (l : List String) : Except PyErr Bool :=
  if v.hashable then
    .ok (match v with | .str s => l.contains s | _ => false)
  else .error (.typeError "unhashable type")

/-- Python `s.update(l)` on a set: adds each element in order. -/
def pyUpdate (s : List JValue) (l : List JValue) : Except PyErr (List JValue) :=
  match l with
  | [] => .ok s
  | x :: xs => do pyUpdate (← pyAdd s x) xs

/-- Python `pattern.match(v)` converted to a Bool: TypeError unless `v` is a
string. -/
def pyMatch (p : String → Bool) (v : JValue) : Except PyErr Bool :=
  match v with
  | .str s => .ok (p s)
  | _ => .error (.typeError "expected string or bytes-like object")

/-- Python `v.startswith(pre)`: AttributeError unless `v` is a string. -/
def pyStartsWith (v : JValue) (pre : String) : Except PyErr Bool :=
  match v with
  | .str s => .ok (startsList pre.toList s.toList)
  | _ => .error (.attributeError "object has no attribute startswith")

/-! ### The regex patterns of the validator

Python re anchors with a dollar also match just before one trailing newline;
`reAnchored` reproduces that. The character class backslash-d is modeled as
the ASCII digits. -/

/-- Runs an anchored pattern the way re.match runs a ^...$ pattern: on the
whole string, or on the string minus one trailing newline. -/
def reAnchored (p : List Char → Bool) (s : String) : Bool :=
  p s.toList ||
    (match s.toList.getLast? with
     | some c => decide (c = '\n') && p s.toList.dropLast
     | none => false)

/-- One letter followed by exactly three digits (the E###, W###, S###
pattern cores). -/
def letterCode (pre : Char) : List Char → Bool
  | [p, a, b, c] => p == pre && a.isDigit && b.isDigit && c.isDigit
  | _ => false

/-- `ERROR_CODE_PATTERN`. -/
def matchErrorCode (s : String) : Bool := reAnchored (letterCode 'E') s

/-- `WARNING_CODE_PATTERN`. -/
def matchWarningCode (s : String) : Bool := reAnchored (letterCode 'W') s

/-- `STEP_ID_PATTERN`. -/
def matchStepId (s : String) : Bool := reAnchored (letterCode 'S') s

/-- A roman-numeral character. -/
def romanChar (c : Char) : Bool := ['I', 'V', 'X', 'L', 'C', 'D', 'M'].contains c

/-- Consumes one or more digits, returning the rest; none if no digit. -/
def chompDigits (l : List Char) : Option (List Char) :=
  if (l.takeWhile Char.isDigit).isEmpty then none
  else some (l.dropWhile Char.isDigit)

/-- `MODULE_ID_PATTERN` core: A-(roman)+-digits(.digits)? . -/
def moduleIdCore (l : List Char) : Bool :=
  match l with
  | 'A' :: '-' :: rest =>
      if (rest.takeWhile romanChar).isEmpty then false
      else
        match rest.dropWhile romanChar with
        | '-' :: rest3 =>
            match chompDigits rest3 with
            | some [] => true
            | some ('.' :: rest4) =>
                (match chompDigits rest4 with | some [] => true | _ => false)
            | _ => false
        | _ => false
  | _ => false

/-- `MODULE_ID_PATTERN`. -/
def matchModuleId (s : String) : Bool := reAnchored moduleIdCore s

/-- `MODULE_ABBR_PATTERN` core: 2 to 8 uppercase ASCII letters or digits. -/
def abbrCore (l : List Char) : Bool :=
  2 ≤ l.length && l.length ≤ 8 && l.all (fun c => c.isUpper || c.isDigit)

/-- `MODULE_ABBR_PATTERN`. -/
def matchModuleAbbr (s : String) : Bool := reAnchored abbrCore s

/-- `SEMVER_PATTERN` core: digits.digits.digits . -/
def semverCore (l : List Char) : Bool :=
  match chompDigits l with
  | some ('.' :: r2) =>
      match chompDigits r2 with
      | some ('.' :: r3) =>
          (match chompDigits r3 with | some [] => true | _ => false)
      | _ => false
  | _ => false

/-- `SEMVER_PATTERN`. -/
def matchSemver (s : String) : Bool := reAnchored semverCore s

/-- `TIMESTAMP_PATTERN` core: an ISO8601 timestamp with a literal +02:00
offset. -/
def timestampCore (l : List Char) : Bool :=
  match l with
  | [y1, y2, y3, y4, h1, m1, m2, h2, d1, d2, t, o1, o2, c1, n1, n2, c2,
     s1, s2, pl, z1, tw, c3, z2, z3] =>
      y1.isDigit && y2.isDigit && y3.isDigit && y4.isDigit && h1 == '-' &&
      m1.isDigit && m2.isDigit && h2 == '-' && d1.isDigit && d2.isDigit &&
      t == 'T' && o1.isDigit && o2.isDigit && c1 == ':' && n1.isDigit &&
      n2.isDigit && c2 == ':' && s1.isDigit && s2.isDigit && pl == '+' &&
      z1 == '0' && tw == '2' && c3 == ':' && z2 == '0' && z3 == '0'
  | _ => false

/-- `TIMESTAMP_PATTERN`. -/
def matchTimestamp (s : String) : Bool := reAnchored timestampCore s


/-! ### Findings

A finding (LintIssue) carries a stable code, a severity, a message and a
path. In the source, message and path are strings built by f-string
templates; here a message is its template plus interpolated values (`Msg`)
and a path likewise (`Pth`, with `Pth.render` producing the exact source
string). The source never compares or deduplicates findings, so this only
changes how the theorems below count them. -/

/-- Finding severity. -/
inductive Severity where
  | error
  | warning
deriving DecidableEq

/-- A finding path: one constructor per path template in the source,
carrying the interpolated parts. -/
inductive Pth where
  | topField (f : String)
  | schemaRoot
  | schemaField (f : String)
  | paramRoot (name : String)
  | paramField (name : String) (f : String)
  | constraintIdx (i : Nat)
  | constraintField (i : Nat) (f : String)
  | valRules
  | valRuleField (i : Nat) (f : String)
  | errorCodeField (i : Nat) (f : String)
  | algoSteps
  | stepField (i : Nat) (f : String)
  | ioDir (d : String)
  | ioField (d : String) (i : Nat) (f : String)
  | algoRegistry
  | testField (i : Nat) (f : String)
  | policyField (f : String)
  | relationField (f : String)
deriving DecidableEq

/-- The dotted-path string of the source for each path value. -/
def Pth.render : Pth → String
  | .topField f => "$." ++ f
  | .schemaRoot => "$._schema"
  | .schemaField f => "$._schema." ++ f
  | .paramRoot name => "$.parameters." ++ name
  | .paramField name f => "$.parameters." ++ name ++ "." ++ f
  | .constraintIdx i => "$.constraints[" ++ toString i ++ "]"
  | .constraintField i f => "$.constraints[" ++ toString i ++ "]." ++ f
  | .valRules => "$.validation.rules"
  | .valRuleField i f => "$.validation.rules[" ++ toString i ++ "]." ++ f
  | .errorCodeField i f => "$.error_codes[" ++ toString i ++ "]." ++ f
  | .algoSteps => "$.algorithm.steps"
  | .stepField i f => "$.algorithm.steps[" ++ toString i ++ "]." ++ f
  | .ioDir d => "$.io_contract." ++ d
  | .ioField d i f => "$.io_contract." ++ d ++ "[" ++ toString i ++ "]." ++ f
  | .algoRegistry => "$.algorithm.artifact_registry"
  | .testField i f => "$.test_cases[" ++ toString i ++ "]." ++ f
  | .policyField f => "$.policies." ++ f
  | .relationField f => "$.relations." ++ f

/-- A finding message: one constructor per message template in the source,
carrying the interpolated values. -/
inductive Msg where
  | missingRequiredField (f : String)
  | schemaMustBeObject
  | missingSchemaField (f : String)
  | schemaNameMust
  | schemaStageMust
  | maturityMust
  | underpaintingMust
  | timestampMust (f : String)
  | invalidModuleId (v : JValue)
  | invalidModuleAbbr (v : JValue)
  | invalidModuleType (v : JValue)
  | invalidVersion (v : JValue)
  | moduleNameI18n
  | parametersNonEmpty
  | paramMustBeObject (name : String)
  | paramMissingField (name : String) (f : String)
  | paramBadType (name : String) (v : JValue)
  | paramEnumNeedsEnum (name : String)
  | paramNotGrouped (name : String)
  | constraintsNonEmpty
  | constraintMustBeObject (i : Nat)
  | constraintMissingExpr (i : Nat)
  | constraintMissingCode (i : Nat)
  | constraintCodeFormat (i : Nat)
  | constraintCodeUndefined (i : Nat) (ec : JValue)
  | rulesMustBeArray
  | ruleMissingField (i : Nat) (f : String)
  | ruleSeverityWarning (i : Nat)
  | ruleCodeFormat (i : Nat)
  | ruleCodeUndefined (i : Nat) (ec : JValue)
  | errorCodesNonEmpty
  | ecMissingField (i : Nat) (f : String)
  | ecCodeFormat (i : Nat)
  | ecLevelMustError (code : JValue)
  | ecLevelMustWarning (code : JValue)
  | ecDuplicate (code : JValue)
  | algoMustBeObject
  | stepsNonEmpty
  | stepMissingField (i : Nat) (f : String)
  | stepIdFormat (i : Nat)
  | stepBadType (i : Nat) (v : JValue)
  | stepUsesUnknown (i : Nat) (artifact : JValue)
  | outputNotProduced (out : JValue)
  | outputNotInRegistry (out : JValue)
  | ioMustBeObject
  | ioDirNonEmpty (d : String)
  | ioMissingField (d : String) (i : Nat) (f : String)
  | outputScopePublic (aid : JValue)
  | testMinThree
  | testMissingField (i : Nat) (f : String)
  | testBadType (i : Nat) (v : JValue)
  | testNeedPositive
  | testNeedNegative
  | testWantWarning
  | policiesMustBeObject
  | policiesMissingField (f : String)
  | unitPolicyStrict
  | relationsMustBeObject
  | relationsMissingField (f : String)
  | relationsFieldArray (f : String)
  | glossaryAbbrMissing (abbr : JValue)

/-- An injective encoding of messages into a product of decidable types,
giving decidable equality without an oversized derived instance. -/
def Msg.enc : Msg → Nat × String × String × Nat × JValue
  | .missingRequiredField f => (0, f, "", 0, .null)
  | .schemaMustBeObject => (1, "", "", 0, .null)
  | .missingSchemaField f => (2, f, "", 0, .null)
  | .schemaNameMust => (3, "", "", 0, .null)
  | .schemaStageMust => (4, "", "", 0, .null)
  | .maturityMust => (5, "", "", 0, .null)
  | .underpaintingMust => (6, "", "", 0, .null)
  | .timestampMust f => (7, f, "", 0, .null)
  | .invalidModuleId v => (8, "", "", 0, v)
  | .invalidModuleAbbr v => (9, "", "", 0, v)
  | .invalidModuleType v => (10, "", "", 0, v)
  | .invalidVersion v => (11, "", "", 0, v)
  | .moduleNameI18n => (12, "", "", 0, .null)
  | .parametersNonEmpty => (13, "", "", 0, .null)
  | .paramMustBeObject name => (14, name, "", 0, .null)
  | .paramMissingField name f => (15, name, f, 0, .null)
  | .paramBadType name v => (16, name, "", 0, v)
  | .paramEnumNeedsEnum name => (17, name, "", 0, .null)
  | .paramNotGrouped name => (18, name, "", 0, .null)
  | .constraintsNonEmpty => (19, "", "", 0, .null)
  | .constraintMustBeObject i => (20, "", "", i, .null)
  | .constraintMissingExpr i => (21, "", "", i, .null)
  | .constraintMissingCode i => (22, "", "", i, .null)
  | .constraintCodeFormat i => (23, "", "", i, .null)
  | .constraintCodeUndefined i ec => (24, "", "", i, ec)
  | .rulesMustBeArray => (25, "", "", 0, .null)
  | .ruleMissingField i f => (26, f, "", i, .null)
  | .ruleSeverityWarning i => (27, "", "", i, .null)
  | .ruleCodeFormat i => (28, "", "", i, .null)
  | .ruleCodeUndefined i ec => (29, "", "", i, ec)
  | .errorCodesNonEmpty => (30, "", "", 0, .null)
  | .ecMissingField i f => (31, f, "", i, .null)
  | .ecCodeFormat i => (32, "", "", i, .null)
  | .ecLevelMustError code => (33, "", "", 0, code)
  | .ecLevelMustWarning code => (34, "", "", 0, code)
  | .ecDuplicate code => (35, "", "", 0, code)
  | .algoMustBeObject => (36, "", "", 0, .null)
  | .stepsNonEmpty => (37, "", "", 0, .null)
  | .stepMissingField i f => (38, f, "", i, .null)
  | .stepIdFormat i => (39, "", "", i, .null)
  | .stepBadType i v => (40, "", "", i, v)
  | .stepUsesUnknown i artifact => (41, "", "", i, artifact)
  | .outputNotProduced out => (42, "", "", 0, out)
  | .outputNotInRegistry out => (43, "", "", 0, out)
  | .ioMustBeObject => (44, "", "", 0, .null)
  | .ioDirNonEmpty d => (45, d, "", 0, .null)
  | .ioMissingField d i f => (46, d, f, i, .null)
  | .outputScopePublic aid => (47, "", "", 0, aid)
  | .testMinThree => (48, "", "", 0, .null)
  | .testMissingField i f => (49, f, "", i, .null)
  | .testBadType i v => (50, "", "", i, v)
  | .testNeedPositive => (51, "", "", 0, .null)
  | .testNeedNegative => (52, "", "", 0, .null)
  | .testWantWarning => (53, "", "", 0, .null)
  | .policiesMustBeObject => (54, "", "", 0, .null)
  | .policiesMissingField f => (55, f, "", 0, .null)
  | .unitPolicyStrict => (56, "", "", 0, .null)
  | .relationsMustBeObject => (57, "", "", 0, .null)
  | .relationsMissingField f => (58, f, "", 0, .null)
  | .relationsFieldArray f => (59, f, "", 0, .null)
  | .glossaryAbbrMissing abbr => (60, "", "", 0, abbr)

/-- The inverse of `Msg.enc` on its image. -/
def Msg.dec : Nat × String × String × Nat × JValue → Msg
  | (0, f, _, _, _) => .missingRequiredField f
  | (1, _, _, _, _) => .schemaMustBeObject
  | (2, f, _, _, _) => .missingSchemaField f
  | (3, _, _, _, _) => .schemaNameMust
  | (4, _, _, _, _) => .schemaStageMust
  | (5, _, _, _, _) => .maturityMust
  | (6, _, _, _, _) => .underpaintingMust
  | (7, f, _, _, _) => .timestampMust f
  | (8, _, _, _, v) => .invalidModuleId v
  | (9, _, _, _, v) => .invalidModuleAbbr v
  | (10, _, _, _, v) => .invalidModuleType v
  | (11, _, _, _, v) => .invalidVersion v
  | (12, _, _, _, _) => .moduleNameI18n
  | (13, _, _, _, _) => .parametersNonEmpty
  | (14, name, _, _, _) => .paramMustBeObject name
  | (15, name, f, _, _) => .paramMissingField name f
  | (16, name, _, _, v) => .paramBadType name v
  | (17, name, _, _, _) => .paramEnumNeedsEnum name
  | (18, name, _, _, _) => .paramNotGrouped name
  | (19, _, _, _, _) => .constraintsNonEmpty
  | (20, _, _, i, _) => .constraintMustBeObject i
  | (21, _, _, i, _) => .constraintMissingExpr i
  | (22, _, _, i, _) => .constraintMissingCode i
  | (23, _, _, i, _) => .constraintCodeFormat i
  | (24, _, _, i, ec) => .constraintCodeUndefined i ec
  | (25, _, _, _, _) => .rulesMustBeArray
  | (26, f, _, i, _) => .ruleMissingField i f
  | (27, _, _, i, _) => .ruleSeverityWarning i
  | (28, _, _, i, _) => .ruleCodeFormat i
  | (29, _, _, i, ec) => .ruleCodeUndefined i ec
  | (30, _, _, _, _) => .errorCodesNonEmpty
  | (31, f, _, i, _) => .ecMissingField i f
  | (32, _, _, i, _) => .ecCodeFormat i
  | (33, _, _, _, code) => .ecLevelMustError code
  | (34, _, _, _, code) => .ecLevelMustWarning code
  | (35, _, _, _, code) => .ecDuplicate code
  | (36, _, _, _, _) => .algoMustBeObject
  | (37, _, _, _, _) => .stepsNonEmpty
  | (38, f, _, i, _) => .stepMissingField i f
  | (39, _, _, i, _) => .stepIdFormat i
  | (40, _, _, i, v) => .stepBadType i v
  | (41, _, _, i, artifact) => .stepUsesUnknown i artifact
  | (42, _, _, _, out) => .outputNotProduced out
  | (43, _, _, _, out) => .outputNotInRegistry out
  | (44, _, _, _, _) => .ioMustBeObject
  | (45, d, _, _, _) => .ioDirNonEmpty d
  | (46, d, f, i, _) => .ioMissingField d i f
  | (47, _, _, _, aid) => .outputScopePublic aid
  | (48, _, _, _, _) => .testMinThree
  | (49, f, _, i, _) => .testMissingField i f
  | (50, _, _, i, v) => .testBadType i v
  | (51, _, _, _, _) => .testNeedPositive
  | (52, _, _, _, _) => .testNeedNegative
  | (53, _, _, _, _) => .testWantWarning
  | (54, _, _, _, _) => .policiesMustBeObject
  | (55, f, _, _, _) => .policiesMissingField f
  | (56, _, _, _, _) => .unitPolicyStrict
  | (57, _, _, _, _) => .relationsMustBeObject
  | (58, f, _, _, _) => .relationsMissingField f
  | (59, f, _, _, _) => .relationsFieldArray f
  | (_, _, _, _, abbr) => .glossaryAbbrMissing abbr

theorem Msg.dec_enc : ∀ m : Msg, Msg.dec (Msg.enc m) = m := by
  intro m
  cases m <;> rfl

instance : DecidableEq Msg := fun a b =>
  if h : Msg.enc a = Msg.enc b then
    .isTrue (by rw [← Msg.dec_enc a, ← Msg.dec_enc b, h])
  else .isFalse (fun he => h (congrArg Msg.enc he))

/-- The check each message template belongs to, numbered in the order the
checks run; used to show a message cannot come from another check. -/
def Msg.family : Msg → Nat
  | .missingRequiredField _ => 0
  | .schemaMustBeObject | .missingSchemaField _ | .schemaNameMust
  | .schemaStageMust | .maturityMust | .underpaintingMust
  | .timestampMust _ => 1
  | .invalidModuleId _ | .invalidModuleAbbr _ | .invalidModuleType _
  | .invalidVersion _ | .moduleNameI18n => 2
  | .parametersNonEmpty | .paramMustBeObject _ | .paramMissingField _ _
  | .paramBadType _ _ | .paramEnumNeedsEnum _ | .paramNotGrouped _ => 3
  | .constraintsNonEmpty | .constraintMustBeObject _
  | .constraintMissingExpr _ | .constraintMissingCode _
  | .constraintCodeFormat _ | .constraintCodeUndefined _ _ => 4
  | .rulesMustBeArray | .ruleMissingField _ _ | .ruleSeverityWarning _
  | .ruleCodeFormat _ | .ruleCodeUndefined _ _ => 5
  | .errorCodesNonEmpty | .ecMissingField _ _ | .ecCodeFormat _
  | .ecLevelMustError _ | .ecLevelMustWarning _ | .ecDuplicate _ => 6
  | .algoMustBeObject | .stepsNonEmpty | .stepMissingField _ _
  | .stepIdFormat _ | .stepBadType _ _ | .stepUsesUnknown _ _
  | .outputNotProduced _ | .outputNotInRegistry _ => 7
  | .ioMustBeObject | .ioDirNonEmpty _ | .ioMissingField _ _ _
  | .outputScopePublic _ => 8
  | .testMinThree | .testMissingField _ _ | .testBadType _ _
  | .testNeedPositive | .testNeedNegative | .testWantWarning => 9
  | .policiesMustBeObject | .policiesMissingField _ | .unitPolicyStrict => 10
  | .relationsMustBeObject | .relationsMissingField _
  | .relationsFieldArray _ => 11
  | .glossaryAbbrMissing _ => 12

/-- A single validation finding (class LintIssue of the source). -/
structure LintIssue where
  code : String
  severity : Severity
  message : Msg
  path : Pth
deriving DecidableEq

/-- The validation result (class LintResult of the source). -/
structure LintResult where
  file_path : String
  passed : Bool
  score : Int
  errors : List LintIssue
  warnings : List LintIssue
deriving DecidableEq

/-! ### Validator constants (`ContractLintValidator` class attributes) -/

/-- `REQUIRED_FIELDS`. -/
def REQUIRED_FIELDS : List String :=
  ["_schema", "module_id", "module_abbr", "module_type", "module_name",
   "version", "description", "io_contract", "parameters", "parameter_groups",
   "constraints", "validation", "error_codes", "algorithm", "relations",
   "test_cases", "policies"]

/-- `REQUIRED_SCHEMA_FIELDS`. -/
def REQUIRED_SCHEMA_FIELDS : List String :=
  ["name", "version", "stage", "maturity_stage",
   "static_frame_only", "underpainting_intent", "created_at", "updated_at"]

/-- `VALID_MODULE_TYPES`. -/
def VALID_MODULE_TYPES : List String := ["RULESET", "PROCESS", "BRIDGE"]

/-- `VALID_MATURITY_STAGES`. -/
def VALID_MATURITY_STAGES : List String := ["pilot", "draft", "stable"]

/-- `VALID_UNDERPAINTING_INTENTS`. -/
def VALID_UNDERPAINTING_INTENTS : List String :=
  ["structure_only", "structure_plus_masks", "structure_plus_metadata"]

/-- `VALID_PARAM_TYPES`. -/
def VALID_PARAM_TYPES : List String := ["float", "int", "boolean", "enum", "string"]

/-- `VALID_STEP_TYPES`. -/
def VALID_STEP_TYPES : List String :=
  ["load", "transform", "filter", "validate", "normalize", "classify",
   "export", "validate_module"]

/-- `VALID_TEST_TYPES`. -/
def VALID_TEST_TYPES : List String := ["positive", "negative", "warning"]

/-- `_calculate_score`: errors give max(0, 50 - 10e), otherwise
max(70, 100 - 5w). -/
def calculate_score (errors warnings : List LintIssue) : Int :=
  if !errors.isEmpty then max 0 (50 - 10 * (errors.length : Int))
  else max 70 (100 - 5 * (warnings.length : Int))

/-! ### The validation checks -/

/-- Key presence in a dict (pure form of `k in d` for a known dict). -/
def hasKey (kvs : List (String × JValue)) (k : String) : Bool :=
  kvs.any (fun p => p.1 == k)

/-- Pure form of `d.get(k, default)` for a known dict. -/
def objGetD (kvs : List (String × JValue)) (k : String) (d : JValue) : JValue :=
  (kvs.lookup k).getD d

/-- The `for field in REQUIRED_FIELDS` loop of `_check_required_fields`. -/
def reqFieldsLoop (data : JValue) : List String → Except PyErr (List LintIssue)
  | [] => .ok []
  | f :: fs => do
      let c ← pyContains data f
      let rest ← reqFieldsLoop data fs
      if c then .ok rest
      else .ok (⟨"E010", .error, .missingRequiredField f, .topField f⟩ :: rest)

/-- `_check_required_fields`. -/
def check_required_fields (data : JValue) : Except PyErr (List LintIssue) :=
  reqFieldsLoop data REQUIRED_FIELDS

/-- The `for field in REQUIRED_SCHEMA_FIELDS` loop of `_check_schema_block`
(schema already known to be a dict). -/
def schemaFieldsLoop (kvs : List (String × JValue)) :
    List String → List LintIssue
  | [] => []
  | f :: fs =>
      if hasKey kvs f then schemaFieldsLoop kvs fs
      else ⟨"E011", .error, .missingSchemaField f, .schemaField f⟩ ::
        schemaFieldsLoop kvs fs

/-- The timestamp format check of one `_schema` field
(`if ts and not TIMESTAMP_PATTERN.match(ts)`). -/
def tsIssues (f : String) (ts : JValue) : Except PyErr (List LintIssue) :=
  if ts.truthy then do
    let k ← pyMatch matchTimestamp ts
    pure (if k then []
      else [⟨"E012", .error, .timestampMust f, .schemaField f⟩])
  else pure []

/-- The `for ts_field in [created_at, updated_at]` loop of
`_check_schema_block`. -/
def schemaTimestampLoop (kvs : List (String × JValue)) :
    List String → Except PyErr (List LintIssue)
  | [] => .ok []
  | f :: fs => do
      let this ← tsIssues f (objGetD kvs f (.str ""))
      let rest ← schemaTimestampLoop kvs fs
      pure (this ++ rest)

/-- `_check_schema_block`. -/
def check_schema_block (data : JValue) : Except PyErr (List LintIssue) := do
  let schema ← pyGetD data "_schema" (.obj [])
  match schema with
  | .obj kvs => do
      let i1 := schemaFieldsLoop kvs REQUIRED_SCHEMA_FIELDS
      let i2 := if objGetD kvs "name" .null = .str "A-PRACTICAL.contract"
        then [] else [⟨"E011", .error, .schemaNameMust, .schemaField "name"⟩]
      let i3 := if objGetD kvs "stage" .null = .str "A.contract_only"
        then [] else [⟨"E011", .error, .schemaStageMust, .schemaField "stage"⟩]
      let mOk ← pyMemStr (objGetD kvs "maturity_stage" .null) VALID_MATURITY_STAGES
      let i4 := if mOk then []
        else [⟨"E011", .error, .maturityMust, .schemaField "maturity_stage"⟩]
      let uOk ← pyMemStr (objGetD kvs "underpainting_intent" .null)
        VALID_UNDERPAINTING_INTENTS
      let i5 := if uOk then []
        else [⟨"E011", .error, .underpaintingMust,
          .schemaField "underpainting_intent"⟩]
      let i6 ← schemaTimestampLoop kvs ["created_at", "updated_at"]
      pure (i1 ++ i2 ++ i3 ++ i4 ++ i5 ++ i6)
  | _ => pure [⟨"E011", .error, .schemaMustBeObject, .schemaRoot⟩]

/-- `_check_module_identity`. -/
def check_module_identity (data : JValue) : Except PyErr (List LintIssue) := do
  let module_id ← pyGetD data "module_id" (.str "")
  let idOk ← pyMatch matchModuleId module_id
  let i1 := if idOk then ([] : List LintIssue)
    else [⟨"E013", .error, .invalidModuleId module_id, .topField "module_id"⟩]
  let abbr ← pyGetD data "module_abbr" (.str "")
  let abOk ← pyMatch matchModuleAbbr abbr
  let i2 := if abOk then ([] : List LintIssue)
    else [⟨"E013", .error, .invalidModuleAbbr abbr, .topField "module_abbr"⟩]
  let mtype ← pyGetD data "module_type" (.str "")
  let tOk ← pyMemStr mtype VALID_MODULE_TYPES
  let i3 := if tOk then ([] : List LintIssue)
    else [⟨"E013", .error, .invalidModuleType mtype, .topField "module_type"⟩]
  let version ← pyGetD data "version" (.str "")
  let vOk ← pyMatch matchSemver version
  let i4 := if vOk then ([] : List LintIssue)
    else [⟨"E013", .error, .invalidVersion version, .topField "version"⟩]
  let mname ← pyGetD data "module_name" (.obj [])
  let nameOk := match mname with
    | .obj nk => hasKey nk "uk" && hasKey nk "en"
    | _ => false
  let i5 := if nameOk then ([] : List LintIssue)
    else [⟨"E014", .error, .moduleNameI18n, .topField "module_name"⟩]
  pure (i1 ++ i2 ++ i3 ++ i4 ++ i5)

/-- The checks of one parameter entry of `_check_parameters`. -/
def paramIssues (name : String) (param : JValue) :
    Except PyErr (List LintIssue) :=
  match param with
  | .obj pkvs => do
      let m1 := if hasKey pkvs "type" then ([] : List LintIssue)
        else [⟨"E020", .error, .paramMissingField name "type",
          .paramField name "type"⟩]
      let m2 := if hasKey pkvs "unit" then ([] : List LintIssue)
        else [⟨"E020", .error, .paramMissingField name "unit",
          .paramField name "unit"⟩]
      let m3 := if hasKey pkvs "description" then ([] : List LintIssue)
        else [⟨"E020", .error, .paramMissingField name "description",
          .paramField name "description"⟩]
      let ptype := objGetD pkvs "type" (.str "")
      let tOk ← pyMemStr ptype VALID_PARAM_TYPES
      let m4 := if tOk then ([] : List LintIssue)
        else [⟨"E021", .error, .paramBadType name ptype,
          .paramField name "type"⟩]
      let m5 := if ptype = .str "enum" && !hasKey pkvs "enum" then
          [⟨"E021", .error, .paramEnumNeedsEnum name,
            .paramField name "enum"⟩]
        else ([] : List LintIssue)
      pure (m1 ++ m2 ++ m3 ++ m4 ++ m5)
  | _ => pure [⟨"E020", .error, .paramMustBeObject name, .paramRoot name⟩]

/-- The per-parameter loop of `_check_parameters`. -/
def paramsLoop : List (String × JValue) → Except PyErr (List LintIssue)
  | [] => .ok []
  | (name, param) :: rest => do
      let this ← paramIssues name param
      let rest' ← paramsLoop rest
      pure (this ++ rest')

/-- The grouped-parameters accumulation of `_check_parameters`: for each
value of parameter_groups, update the set when it is a list. -/
def groupedLoop (acc : List JValue) : List JValue → Except PyErr (List JValue)
  | [] => .ok acc
  | g :: gs => do
      let acc' ← match g with
        | .arr l => pyUpdate acc l
        | _ => pure acc
      groupedLoop acc' gs

/-- `_check_parameters`. -/
def check_parameters (data : JValue) : Except PyErr (List LintIssue) := do
  let params ← pyGetD data "parameters" (.obj [])
  match params with
  | .obj kvs =>
      if kvs.isEmpty then
        pure [⟨"E020", .error, .parametersNonEmpty, .topField "parameters"⟩]
      else do
        let i1 ← paramsLoop kvs
        let groups ← pyGetD data "parameter_groups" (.obj [])
        let gvals ← pyValues groups
        let grouped ← groupedLoop [] gvals
        let i2 := kvs.filterMap (fun p =>
          if grouped.contains (JValue.str p.1) then none
          else some ⟨"W020", .warning, .paramNotGrouped p.1, .paramRoot p.1⟩)
        pure (i1 ++ i2)
  | _ => pure [⟨"E020", .error, .parametersNonEmpty, .topField "parameters"⟩]

/-- The set comprehension over error_codes entries used by
`_check_constraints` and `_check_validation_rules`
(`set of ec.get("code")`). -/
def definedCodesLoop (acc : List JValue) :
    List JValue → Except PyErr (List JValue)
  | [] => .ok acc
  | ec :: rest => do
      let c ← pyGet ec "code"
      let acc' ← pyAdd acc c
      definedCodesLoop acc' rest

/-- The error_code checks of one constraint of `_check_constraints`:
missing, malformed, or undeclared codes each give one issue. -/
def constraintCodeIssues (defined : List JValue) (i : Nat) (ec : JValue) :
    Except PyErr (List LintIssue) :=
  if !ec.truthy then
    pure [⟨"E030", .error, .constraintMissingCode i,
      .constraintField i "error_code"⟩]
  else do
    let fOk ← pyMatch matchErrorCode ec
    if !fOk then
      pure [⟨"E030", .error, .constraintCodeFormat i,
        .constraintField i "error_code"⟩]
    else do
      let mem ← pyMem ec defined
      if !mem then
        pure [⟨"E031", .error, .constraintCodeUndefined i ec,
          .constraintField i "error_code"⟩]
      else pure []

/-- The checks of one constraint entry of `_check_constraints`. -/
def constraintIssues (defined : List JValue) (i : Nat) (c : JValue) :
    Except PyErr (List LintIssue) :=
  match c with
  | .obj ckvs => do
      let m1 := if hasKey ckvs "expr" then ([] : List LintIssue)
        else [⟨"E030", .error, .constraintMissingExpr i,
          .constraintField i "expr"⟩]
      let m2 ← constraintCodeIssues defined i
        (objGetD ckvs "error_code" (.str ""))
      pure (m1 ++ m2)
  | _ => pure [⟨"E030", .error, .constraintMustBeObject i,
      .constraintIdx i⟩]

/-- The per-constraint loop of `_check_constraints`. -/
def constraintsLoop (defined : List JValue) (i : Nat) :
    List JValue → Except PyErr (List LintIssue)
  | [] => .ok []
  | c :: rest => do
      let this ← constraintIssues defined i c
      let rest' ← constraintsLoop defined (i + 1) rest
      pure (this ++ rest')

/-- `_check_constraints`. -/
def check_constraints (data : JValue) : Except PyErr (List LintIssue) := do
  let constraints ← pyGetD data "constraints" (.arr [])
  match constraints with
  | .arr cl =>
      if cl.isEmpty then
        pure [⟨"E030", .error, .constraintsNonEmpty, .topField "constraints"⟩]
      else do
        let ecsRaw ← pyGetD data "error_codes" (.arr [])
        let ecl ← pyIter ecsRaw
        let defined ← definedCodesLoop [] ecl
        constraintsLoop defined 0 cl
  | _ => pure [⟨"E030", .error, .constraintsNonEmpty, .topField "constraints"⟩]

/-- The error_code checks of one rule of `_check_validation_rules`:
a truthy code must match the warning format and be declared. -/
def ruleCodeIssues (defined : List JValue) (i : Nat) (ec : JValue) :
    Except PyErr (List LintIssue) :=
  if ec.truthy then do
    let fOk ← pyMatch matchWarningCode ec
    if !fOk then
      pure [⟨"E040", .error, .ruleCodeFormat i, .valRuleField i "error_code"⟩]
    else do
      let mem ← pyMem ec defined
      if !mem then
        pure [⟨"E041", .error, .ruleCodeUndefined i ec,
          .valRuleField i "error_code"⟩]
      else pure []
  else pure []

/-- The checks of one rule entry of `_check_validation_rules`. -/
def ruleIssues (defined : List JValue) (i : Nat) (rule : JValue) :
    Except PyErr (List LintIssue) :=
  match rule with
  | .obj rkvs => do
      let m1 := (["name", "condition", "severity", "message",
        "error_code"].filterMap (fun f =>
          if hasKey rkvs f then none
          else some (⟨"E040", .error, .ruleMissingField i f,
            .valRuleField i f⟩ : LintIssue)))
      let m2 := if objGetD rkvs "severity" .null = .str "warning" then
          ([] : List LintIssue)
        else [⟨"E040", .error, .ruleSeverityWarning i,
          .valRuleField i "severity"⟩]
      let m3 ← ruleCodeIssues defined i
        (objGetD rkvs "error_code" (.str ""))
      pure (m1 ++ m2 ++ m3)
  | _ => pure []

/-- The per-rule loop of `_check_validation_rules`. -/
def rulesLoop (defined : List JValue) (i : Nat) :
    List JValue → Except PyErr (List LintIssue)
  | [] => .ok []
  | rule :: rest => do
      let this ← ruleIssues defined i rule
      let rest' ← rulesLoop defined (i + 1) rest
      pure (this ++ rest')

/-- `_check_validation_rules`. -/
def check_validation_rules (data : JValue) : Except PyErr (List LintIssue) := do
  let validation ← pyGetD data "validation" (.obj [])
  let rules ← pyGetD validation "rules" (.arr [])
  match rules with
  | .arr rl => do
      let ecsRaw ← pyGetD data "error_codes" (.arr [])
      let ecl ← pyIter ecsRaw
      let defined ← definedCodesLoop [] ecl
      rulesLoop defined 0 rl
  | _ => pure [⟨"E040", .error, .rulesMustBeArray, .valRules⟩]

/-- The code format check of one registry entry of `_check_error_codes`
(`if code and not (E-format or W-format)`). -/
def ecFormatIssues (i : Nat) (code : JValue) :
    Except PyErr (List LintIssue) :=
  if code.truthy then do
    let mE ← pyMatch matchErrorCode code
    if mE then pure []
    else do
      let mW ← pyMatch matchWarningCode code
      if mW then pure []
      else pure [⟨"E050", .error, .ecCodeFormat i, .errorCodeField i "code"⟩]
  else pure []

/-- The per-entry loop of `_check_error_codes`, threading the seen-codes
set. -/
def ecLoop (seen : List JValue) (i : Nat) :
    List JValue → Except PyErr (List LintIssue)
  | [] => .ok []
  | ec :: rest =>
      match ec with
      | .obj kvs => do
          let code := objGetD kvs "code" (.str "")
          let level := objGetD kvs "level" (.str "")
          let m1 := (["code", "level", "title", "message"].filterMap (fun f =>
            if hasKey kvs f then none
            else some (⟨"E050", .error, .ecMissingField i f,
              .errorCodeField i f⟩ : LintIssue)))
          let m2 ← ecFormatIssues i code
          let sE ← pyStartsWith code "E"
          let m3 := if sE && level != .str "error" then
              [(⟨"E050", .error, .ecLevelMustError code,
                .errorCodeField i "level"⟩ : LintIssue)]
            else []
          let sW ← pyStartsWith code "W"
          let m4 := if sW && level != .str "warning" then
              [(⟨"E050", .error, .ecLevelMustWarning code,
                .errorCodeField i "level"⟩ : LintIssue)]
            else []
          let dup ← pyMem code seen
          let m5 := if dup then
              [(⟨"E051", .error, .ecDuplicate code,
                .errorCodeField i "code"⟩ : LintIssue)]
            else []
          let seen' ← pyAdd seen code
          let rest' ← ecLoop seen' (i + 1) rest
          pure (m1 ++ m2 ++ m3 ++ m4 ++ m5 ++ rest')
      | _ => ecLoop seen (i + 1) rest

/-- `_check_error_codes`. -/
def check_error_codes (data : JValue) : Except PyErr (List LintIssue) := do
  let ecs ← pyGetD data "error_codes" (.arr [])
  match ecs with
  | .arr l =>
      if l.isEmpty then
        pure [⟨"E050", .error, .errorCodesNonEmpty, .topField "error_codes"⟩]
      else ecLoop [] 0 l
  | _ => pure [⟨"E050", .error, .errorCodesNonEmpty, .topField "error_codes"⟩]

/-- The artifact-id set comprehensions of `_check_algorithm`
(`set of x.get("artifact_id")`). -/
def artifactIdSet (acc : List JValue) :
    List JValue → Except PyErr (List JValue)
  | [] => .ok acc
  | x :: rest => do
      let c ← pyGet x "artifact_id"
      let acc' ← pyAdd acc c
      artifactIdSet acc' rest

/-- The uses-availability loop of `_check_algorithm` for one step: an E061
finding per artifact in `uses` that is in neither the available set nor the
produced set. -/
def usesLoop (available produced : List JValue) (i : Nat) :
    List JValue → Except PyErr (List LintIssue)
  | [] => .ok []
  | a :: rest => do
      let m1 ← pyMem a available
      let this ←
        if m1 then pure ([] : List LintIssue)
        else do
          let m2 ← pyMem a produced
          pure (if m2 then []
            else [⟨"E061", .error, .stepUsesUnknown i a, .stepField i "uses"⟩])
      let rest' ← usesLoop available produced i rest
      pure (this ++ rest')

/-- The step-id format check of one step of `_check_algorithm`
(`if sid and not STEP_ID_PATTERN.match(sid)`). -/
def stepIdIssues (i : Nat) (sid : JValue) : Except PyErr (List LintIssue) :=
  if sid.truthy then do
    let k ← pyMatch matchStepId sid
    pure (if k then []
      else [⟨"E063", .error, .stepIdFormat i, .stepField i "id"⟩])
  else pure []

/-- The step-type enum check of one step of `_check_algorithm`
(`if stype and stype not in VALID_STEP_TYPES`). -/
def stepTypeIssues (i : Nat) (stype : JValue) :
    Except PyErr (List LintIssue) :=
  if stype.truthy then do
    let k ← pyMemStr stype VALID_STEP_TYPES
    pure (if k then []
      else [⟨"E063", .error, .stepBadType i stype, .stepField i "type"⟩])
  else pure []

/-- The per-step loop of `_check_algorithm`: field checks, id and type
format checks, the uses-availability check, then (after all of these) the
produces accumulation. Returns the issues and the final produced set. -/
def stepsLoop (available : List JValue) (produced : List JValue) (i : Nat) :
    List JValue → Except PyErr (List LintIssue × List JValue)
  | [] => .ok ([], produced)
  | step :: rest =>
      match step with
      | .obj skvs => do
          let m1 := (["id", "name", "type", "uses", "produces",
            "description"].filterMap (fun f =>
              if hasKey skvs f then none
              else some (⟨"E063", .error, .stepMissingField i f,
                .stepField i f⟩ : LintIssue)))
          let m2 ← stepIdIssues i (objGetD skvs "id" (.str ""))
          let m3 ← stepTypeIssues i (objGetD skvs "type" (.str ""))
          let usesL ← pyIter (objGetD skvs "uses" (.arr []))
          let m4 ← usesLoop available produced i usesL
          let prodL ← pyIter (objGetD skvs "produces" (.arr []))
          let produced' ← pyUpdate produced prodL
          let (restIss, prodF) ← stepsLoop available produced' (i + 1) rest
          pure (m1 ++ m2 ++ m3 ++ m4 ++ restIss, prodF)
      | _ => stepsLoop available produced (i + 1) rest

/-- The initial available-artifacts set of `_check_algorithm`: the
io_contract input artifact ids united with the parameter names
(`available = inputs | params`). -/
def dataflow_available (data : JValue) : Except PyErr (List JValue) := do
  let io ← pyGetD data "io_contract" (.obj [])
  let inpRaw ← pyGetD io "inputs" (.arr [])
  let inpL ← pyIter inpRaw
  let inputs ← artifactIdSet [] inpL
  let paramsRaw ← pyGetD data "parameters" (.obj [])
  let pk ← pyKeys paramsRaw
  pure ((pk.map JValue.str).foldl setAddPure inputs)

/-- The declared-outputs id set of `_check_algorithm`
(`set of out.get("artifact_id") over io_contract.outputs`). -/
def io_outputs_ids (data : JValue) : Except PyErr (List JValue) := do
  let io2 ← pyGetD data "io_contract" (.obj [])
  let outRaw ← pyGetD io2 "outputs" (.arr [])
  let outL ← pyIter outRaw
  artifactIdSet [] outL

/-- The registry id set of `_check_algorithm`
(`set of r.get("artifact_id") over algorithm.artifact_registry`). -/
def registry_ids_of (registry : JValue) : Except PyErr (List JValue) := do
  let regL ← pyIter registry
  artifactIdSet [] regL

/-- `_check_algorithm`. -/
def check_algorithm (data : JValue) : Except PyErr (List LintIssue) := do
  let algorithm ← pyGetD data "algorithm" (.obj [])
  match algorithm with
  | .obj akvs => do
      let steps := objGetD akvs "steps" (.arr [])
      let registry := objGetD akvs "artifact_registry" (.arr [])
      if !steps.truthy then
        pure [⟨"E060", .error, .stepsNonEmpty, .algoSteps⟩]
      else do
        let available ← dataflow_available data
        let stepsL ← pyIter steps
        let (i1, produced) ← stepsLoop available [] 0 stepsL
        let outputs ← io_outputs_ids data
        let i2 := outputs.filterMap (fun o =>
          if produced.contains o then none
          else some (⟨"E062", .error, .outputNotProduced o,
            .ioDir "outputs"⟩ : LintIssue))
        let registry_ids ← registry_ids_of registry
        let i3 := outputs.filterMap (fun o =>
          if registry_ids.contains o then none
          else some (⟨"E070", .error, .outputNotInRegistry o,
            .algoRegistry⟩ : LintIssue))
        pure (i1 ++ i2 ++ i3)
  | _ => pure [⟨"E060", .error, .algoMustBeObject, .topField "algorithm"⟩]

/-- The per-artifact loop of `_check_io_contract` for one direction. -/
def ioArtsLoop (d : String) (i : Nat) :
    List JValue → Except PyErr (List LintIssue)
  | [] => .ok []
  | art :: rest => do
      let m1 ← (["artifact_id", "type", "scope"].foldlM
        (fun (acc : List LintIssue) f => do
          let c ← pyContains art f
          pure (if c then acc
            else acc ++ [⟨"E015", .error, .ioMissingField d i f,
              .ioField d i f⟩])) [])
      let m2 ←
        if d == "outputs" then do
          let sc ← pyGet art "scope"
          if sc != .str "public" then do
            let aid ← pyGet art "artifact_id"
            pure [(⟨"E071", .error, .outputScopePublic aid,
              .ioField "outputs" i "scope"⟩ : LintIssue)]
          else pure []
        else pure []
      let rest' ← ioArtsLoop d (i + 1) rest
      pure (m1 ++ m2 ++ rest')

/-- One direction (inputs or outputs) of `_check_io_contract`. -/
def ioDirection (iokvs : List (String × JValue)) (d : String) :
    Except PyErr (List LintIssue) :=
  match objGetD iokvs d (.arr []) with
  | .arr al =>
      if al.isEmpty then
        pure [⟨"E015", .error, .ioDirNonEmpty d, .ioDir d⟩]
      else ioArtsLoop d 0 al
  | _ => pure [⟨"E015", .error, .ioDirNonEmpty d, .ioDir d⟩]

/-- `_check_io_contract`. -/
def check_io_contract (data : JValue) : Except PyErr (List LintIssue) := do
  let io ← pyGetD data "io_contract" (.obj [])
  match io with
  | .obj iokvs => do
      let i1 ← ioDirection iokvs "inputs"
      let i2 ← ioDirection iokvs "outputs"
      pure (i1 ++ i2)
  | _ => pure [⟨"E015", .error, .ioMustBeObject, .topField "io_contract"⟩]

/-- The per-case loop of `_check_test_cases`, threading the found-types
set. -/
def testsLoop (types_found : List JValue) (i : Nat) :
    List JValue → Except PyErr (List LintIssue × List JValue)
  | [] => .ok ([], types_found)
  | tc :: rest =>
      match tc with
      | .obj kvs => do
          let m1 := (["id", "type", "name", "input", "expected"].filterMap
            (fun f =>
              if hasKey kvs f then none
              else some (⟨"E080", .error, .testMissingField i f,
                .testField i f⟩ : LintIssue)))
          let ttype := objGetD kvs "type" (.str "")
          let k ← pyMemStr ttype VALID_TEST_TYPES
          let m2 := if k then ([] : List LintIssue)
            else [⟨"E080", .error, .testBadType i ttype, .testField i "type"⟩]
          let tf' ← pyAdd types_found ttype
          let (rest', tfF) ← testsLoop tf' (i + 1) rest
          pure (m1 ++ m2 ++ rest', tfF)
      | _ => testsLoop types_found (i + 1) rest

/-- `_check_test_cases`. -/
def check_test_cases (data : JValue) : Except PyErr (List LintIssue) := do
  let tests ← pyGetD data "test_cases" (.arr [])
  match tests with
  | .arr tl =>
      if tl.length < 3 then
        pure [⟨"E080", .error, .testMinThree, .topField "test_cases"⟩]
      else do
        let (i1, types_found) ← testsLoop [] 0 tl
        let i2 := if types_found.contains (JValue.str "positive") then
            ([] : List LintIssue)
          else [⟨"E080", .error, .testNeedPositive, .topField "test_cases"⟩]
        let i3 := if types_found.contains (JValue.str "negative") then
            ([] : List LintIssue)
          else [⟨"E080", .error, .testNeedNegative, .topField "test_cases"⟩]
        let i4 := if types_found.contains (JValue.str "warning") then
            ([] : List LintIssue)
          else [⟨"W081", .warning, .testWantWarning, .topField "test_cases"⟩]
        pure (i1 ++ i2 ++ i3 ++ i4)
  | _ => pure [⟨"E080", .error, .testMinThree, .topField "test_cases"⟩]

/-- `_check_policies`. -/
def check_policies (data : JValue) : Except PyErr (List LintIssue) := do
  let policies ← pyGetD data "policies" (.obj [])
  match policies with
  | .obj pkvs => do
      let i1 := (["unit_policy", "constraints_dsl", "glossary_policy",
        "i18n_policy"].filterMap (fun f =>
          if hasKey pkvs f then none
          else some (⟨"E016", .error, .policiesMissingField f,
            .policyField f⟩ : LintIssue)))
      let i2 := if objGetD pkvs "unit_policy" .null = .str "strict" then
          ([] : List LintIssue)
        else [⟨"E016", .error, .unitPolicyStrict, .policyField "unit_policy"⟩]
      pure (i1 ++ i2)
  | _ => pure [⟨"E016", .error, .policiesMustBeObject, .topField "policies"⟩]

/-- `_check_relations`. -/
def check_relations (data : JValue) : Except PyErr (List LintIssue) := do
  let relations ← pyGetD data "relations" (.obj [])
  match relations with
  | .obj rkvs => do
      let i1 := (["depends_on", "influences", "conflicts_with"].filterMap
        (fun f =>
          if !hasKey rkvs f then
            some (⟨"E017", .error, .relationsMissingField f,
              .relationField f⟩ : LintIssue)
          else
            match objGetD rkvs f .null with
            | .arr _ => none
            | _ => some ⟨"E017", .error, .relationsFieldArray f,
                .relationField f⟩))
      pure i1
  | _ => pure [⟨"E017", .error, .relationsMustBeObject, .topField "relations"⟩]

/-- Truthiness of the engine glossary field (Optional in the source: None
when no glossary was loaded). -/
def pyOptTruthy : Option JValue → Bool
  | none => false
  | some v => v.truthy

/-- `_check_glossary_coverage`. -/
def check_glossary_coverage (glossary : Option JValue) (data : JValue) :
    Except PyErr (List LintIssue) := do
  let pol ← pyGetD data "policies" (.obj [])
  let policy ← pyGetD pol "glossary_policy" (.str "off")
  if policy = .str "off" || !pyOptTruthy glossary then pure []
  else do
    let g ← match glossary with
      | some g => pure g
      | none => Except.error (.attributeError "NoneType has no attribute get")
    let termsRaw ← pyGetD g "terms" (.obj [])
    let tk ← pyKeys termsRaw
    let glossary_terms := tk.map JValue.str
    let abbr ← pyGetD data "module_abbr" (.str "")
    if abbr.truthy then do
      let mem ← pyMem abbr glossary_terms
      if !mem then
        if policy = .str "strict" then
          pure [⟨"E100", .error, .glossaryAbbrMissing abbr,
            .topField "module_abbr"⟩]
        else
          pure [⟨"W101", .warning, .glossaryAbbrMissing abbr,
            .topField "module_abbr"⟩]
      else pure []
    else pure []

/-- The issue collection of `validate_contract`: every check in source
order, plus the glossary check when the engine glossary is truthy. -/
def collect_issues (glossary : Option JValue) (data : JValue) :
    Except PyErr (List LintIssue) := do
  let i1 ← check_required_fields data
  let i2 ← check_schema_block data
  let i3 ← check_module_identity data
  let i4 ← check_parameters data
  let i5 ← check_constraints data
  let i6 ← check_validation_rules data
  let i7 ← check_error_codes data
  let i8 ← check_algorithm data
  let i9 ← check_io_contract data
  let i10 ← check_test_cases data
  let i11 ← check_policies data
  let i12 ← check_relations data
  let i13 ← if pyOptTruthy glossary then check_glossary_coverage glossary data
    else pure []
  pure (i1 ++ i2 ++ i3 ++ i4 ++ i5 ++ i6 ++ i7 ++ i8 ++ i9 ++ i10 ++ i11 ++
    i12 ++ i13)

/-- `validate_contract`: runs every check on a successfully loaded document
(the document argument stands for the parsed JSON; a missing file or
malformed JSON raises ContractLintError before this body runs and is not
modeled), splits the findings by severity, computes the score, and builds
the result. -/
def validate_contract (glossary : Option JValue) (path : String)
    (data : JValue) : Except PyErr LintResult := do
  let issues ← collect_issues glossary data
  let errors := issues.filter (fun x => x.severity = Severity.error)
  let warnings := issues.filter (fun x => x.severity = Severity.warning)
  let score := calculate_score errors warnings
  let passed := errors.length == 0
  pure ⟨path, passed, score, errors, warnings⟩

/-! ### Specification-side helpers

Pure functions used to state the theorems: projections of results, finding
counters, document accessors, and pure forms of the loop accumulators
(which agree with the monadic ones on every run that does not raise). -/

/-- The errors of a validation run, empty on a raised exception. -/
def errorsOf : Except PyErr LintResult → List LintIssue
  | .ok r => r.errors
  | .error _ => []

/-- The warnings of a validation run, empty on a raised exception. -/
def warningsOf : Except PyErr LintResult → List LintIssue
  | .ok r => r.warnings
  | .error _ => []

/-- Number of findings with a given message. -/
def countMsg (l : List LintIssue) (m : Msg) : Nat :=
  l.countP (fun x => decide (x.message = m))

/-- Number of findings with a given message and a given path. -/
def countMsgPath (l : List LintIssue) (m : Msg) (p : Pth) : Nat :=
  l.countP (fun x => decide (x.message = m) && decide (x.path = p))

/-- Number of findings at a given path. -/
def countPath (l : List LintIssue) (p : Pth) : Nat :=
  l.countP (fun x => decide (x.path = p))

/-- Number of error-severity findings in a list. -/
def errCount (issues : List LintIssue) : Nat :=
  issues.countP (fun x => decide (x.severity = Severity.error))

/-- Number of warning-severity findings in a list. -/
def warnCount (issues : List LintIssue) : Nat :=
  issues.countP (fun x => decide (x.severity = Severity.warning))

/-- The score the aggregation of `validate_contract` computes from a list
of findings: partition by severity, then `_calculate_score`. -/
def scoreOfIssues (issues : List LintIssue) : Int :=
  calculate_score (issues.filter (fun x => decide (x.severity = Severity.error)))
    (issues.filter (fun x => decide (x.severity = Severity.warning)))

/-- Whether a value is a dict. -/
def JValue.isObj : JValue → Bool
  | .obj _ => true
  | _ => false

/-- Total form of `pyIter`: what a loop over the value visits when it does
not raise (empty for non-iterables, whose runs raise instead). -/
def iterPure : JValue → List JValue
  | .arr l => l
  | .obj kvs => kvs.map (fun p => JValue.str p.1)
  | .str s => s.toList.map (fun c => JValue.str (String.mk [c]))
  | _ => []

/-- The uses list a step contributes to the availability check. -/
def usesOfPure (step : JValue) : List JValue :=
  match step with
  | .obj skvs => iterPure (objGetD skvs "uses" (.arr []))
  | _ => []

/-- Pure form of one produces accumulation: what one step adds to the
produced set (nothing for a non-dict step, which the loop skips). -/
def pureProdStep (produced : List JValue) (step : JValue) : List JValue :=
  match step with
  | .obj skvs =>
      (iterPure (objGetD skvs "produces" (.arr []))).foldl setAddPure produced
  | _ => produced

/-- The produced set after a list of steps, starting from a given set. -/
def producedThrough (produced : List JValue) (steps : List JValue) :
    List JValue :=
  steps.foldl pureProdStep produced

/-- Specification of the number of E061 (uses unknown artifact) findings
for step index `n` and artifact `a` that the step loop emits when started
at index `i` with the given available and produced sets. -/
def e061count (steps : List JValue) (avail produced : List JValue)
    (i n : Nat) (a : JValue) : Nat :=
  match steps with
  | [] => 0
  | step :: rest =>
      (if (n == i) && !avail.contains a && !produced.contains a
       then (usesOfPure step).count a else 0)
      + e061count rest avail (pureProdStep produced step) (i + 1) n a

/-- Whether a message template is one the per-step loop emits (as opposed
to the after-loop output checks of the same family). -/
def Msg.isStepMsg : Msg → Bool
  | .stepMissingField _ _ | .stepIdFormat _ | .stepBadType _ _
  | .stepUsesUnknown _ _ => true
  | _ => false

/-- The algorithm steps list of a document, when the document shape gives
the step loop a list to walk. -/
def algoStepsOf (doc : JValue) : Option (List JValue) :=
  match doc with
  | .obj kvs =>
      match objGetD kvs "algorithm" (.obj []) with
      | .obj akvs =>
          match objGetD akvs "steps" (.arr []) with
          | .arr l => some l
          | _ => none
      | _ => none
  | _ => none

/-- The artifact_registry value of a document, when the algorithm block is
a dict. -/
def algoRegistryVal (doc : JValue) : Option JValue :=
  match doc with
  | .obj kvs =>
      match objGetD kvs "algorithm" (.obj []) with
      | .obj akvs => some (objGetD akvs "artifact_registry" (.arr []))
      | _ => none
  | _ => none

/-- The error_codes list of a document, when it is a list. -/
def errorCodesOf (doc : JValue) : Option (List JValue) :=
  match doc with
  | .obj kvs =>
      match objGetD kvs "error_codes" (.arr []) with
      | .arr l => some l
      | _ => none
  | _ => none

/-- Pure form of one seen-codes accumulation of `_check_error_codes`:
a dict entry adds its code value (default empty string). -/
def ecSeenStep (seen : List JValue) (ec : JValue) : List JValue :=
  match ec with
  | .obj kvs => setAddPure seen (objGetD kvs "code" (.str ""))
  | _ => seen

/-- The seen-codes set after a list of registry entries. -/
def ecSeenThrough (seen : List JValue) (l : List JValue) : List JValue :=
  l.foldl ecSeenStep seen

/-- Specification of the number of E051 (duplicate code) findings
attributed to entry index `n` with code value `c` that the registry loop
emits when started at index `i` with the given seen set. -/
def e051count (entries : List JValue) (seen : List JValue) (i n : Nat)
    (c : JValue) : Nat :=
  match entries with
  | [] => 0
  | ec :: rest =>
      (match ec with
       | .obj kvs =>
           if (n == i) && (objGetD kvs "code" (.str "") == c) &&
               seen.contains (objGetD kvs "code" (.str ""))
           then 1 else 0
       | _ => 0)
      + e051count rest (ecSeenStep seen ec) (i + 1) n c

/-- The issue list of a check run, empty on a raised exception. -/
def issuesOf : Except PyErr (List LintIssue) → List LintIssue
  | .ok l => l
  | .error _ => []

/-- The module_abbr value of a document dict (default empty string). -/
def moduleAbbrOf (doc : JValue) : Option JValue :=
  match doc with
  | .obj kvs => some (objGetD kvs "module_abbr" (.str ""))
  | _ => none

/-- The glossary_policy value of a document, when policies is a dict or
absent (default off). -/
def glossaryPolicyOf (doc : JValue) : Option JValue :=
  match doc with
  | .obj kvs =>
      match objGetD kvs "policies" (.obj []) with
      | .obj pkvs => some (objGetD pkvs "glossary_policy" (.str "off"))
      | _ => none
  | _ => none

/-! ### Concrete documents used by the counterexamples and witnesses -/

/-- A well-formed test case entry. -/
def mkTestCase (id ty : String) : JValue :=
  .obj [("id", .str id), ("type", .str ty), ("name", .str "n"),
    ("input", .obj [("x", .num 1)]), ("expected", .str "ok")]

/-- A well-formed algorithm step entry. -/
def mkStep (id ty : String) (uses produces : List String) : JValue :=
  .obj [("id", .str id), ("name", .str "s"), ("type", .str ty),
    ("uses", .arr (uses.map JValue.str)),
    ("produces", .arr (produces.map JValue.str)),
    ("description", .str "d")]

/-- Replaces the value of a top-level key of a document. -/
def setKey (doc : JValue) (k : String) (v : JValue) : JValue :=
  match doc with
  | .obj kvs => .obj (kvs.map (fun q => if q.1 == k then (q.1, v) else q))
  | d => d

/-- A fully well-formed contract document: one input in1, one output out1,
one parameter p, one step producing out1, consistent codes and policies.
It validates with no findings at all. -/
def docClean : JValue := .obj [
  ("_schema", .obj [("name", .str "A-PRACTICAL.contract"),
    ("version", .str "4.0.0"), ("stage", .str "A.contract_only"),
    ("maturity_stage", .str "stable"), ("static_frame_only", .bool true),
    ("underpainting_intent", .str "structure_only"),
    ("created_at", .str "2024-01-02T03:04:05+02:00"),
    ("updated_at", .str "2024-01-02T03:04:05+02:00")]),
  ("module_id", .str "A-IV-12"),
  ("module_abbr", .str "AB"),
  ("module_type", .str "RULESET"),
  ("module_name", .obj [("uk", .str "m"), ("en", .str "m")]),
  ("version", .str "1.0.0"),
  ("description", .str "d"),
  ("io_contract", .obj [
    ("inputs", .arr [.obj [("artifact_id", .str "in1"), ("type", .str "t"),
      ("scope", .str "public")]]),
    ("outputs", .arr [.obj [("artifact_id", .str "out1"), ("type", .str "t"),
      ("scope", .str "public")]])]),
  ("parameters", .obj [("p", .obj [("type", .str "float"),
    ("unit", .str "u"), ("description", .str "d")])]),
  ("parameter_groups", .obj [("g", .arr [.str "p"])]),
  ("constraints", .arr [.obj [("expr", .str "p > 0"),
    ("error_code", .str "E001")]]),
  ("validation", .obj [("rules", .arr [.obj [("name", .str "r"),
    ("condition", .str "c"), ("severity", .str "warning"),
    ("message", .str "m"), ("error_code", .str "W001")]])]),
  ("error_codes", .arr [
    .obj [("code", .str "E001"), ("level", .str "error"),
      ("title", .str "t"), ("message", .str "m")],
    .obj [("code", .str "W001"), ("level", .str "warning"),
      ("title", .str "t"), ("message", .str "m")]]),
  ("algorithm", .obj [
    ("steps", .arr [mkStep "S001" "load" ["in1", "p"] ["out1"]]),
    ("artifact_registry", .arr [.obj [("artifact_id", .str "out1")]])]),
  ("relations", .obj [("depends_on", .arr []), ("influences", .arr []),
    ("conflicts_with", .arr [])]),
  ("test_cases", .arr [mkTestCase "T1" "positive", mkTestCase "T2" "negative",
    mkTestCase "T3" "warning"]),
  ("policies", .obj [("unit_policy", .str "strict"),
    ("constraints_dsl", .str "v1"), ("glossary_policy", .str "off"),
    ("i18n_policy", .str "uk_en")])]

/-- The single step of `docDupUses`: it uses the unavailable artifact x
twice. -/
def dupStep : JValue := mkStep "S001" "load" ["x", "x"] ["out1"]

/-- The clean document with the step list replaced so that step 0 uses the
undeclared artifact x twice. -/
def docDupUses : JValue := setKey docClean "algorithm"
  (.obj [("steps", .arr [dupStep]),
    ("artifact_registry", .arr [.obj [("artifact_id", .str "out1")]])])

/-- A step that consumes its own output y. -/
def selfStep : JValue := mkStep "S001" "load" ["y"] ["y", "out1"]

/-- The clean document with a step that consumes its own output y. -/
def docSelfUse : JValue := setKey docClean "algorithm"
  (.obj [("steps", .arr [selfStep]),
    ("artifact_registry", .arr [.obj [("artifact_id", .str "out1")]])])

/-- A well-formed JSON document on which the validator raises: its
validation section is a list, and list.get is an AttributeError. -/
def docCrash : JValue := .obj [("validation", .arr [])]

/-- The clean document with an empty algorithm step list: the data-flow
walk and the output checks are skipped entirely. -/
def docEmptySteps : JValue := setKey docClean "algorithm"
  (.obj [("steps", .arr []), ("artifact_registry", .arr [])])

/-- The clean document with a second declared output o2 that no step
produces and that is absent from the artifact registry. -/
def docMissingOutput : JValue := setKey docClean "io_contract"
  (.obj [
    ("inputs", .arr [.obj [("artifact_id", .str "in1"), ("type", .str "t"),
      ("scope", .str "public")]]),
    ("outputs", .arr [
      .obj [("artifact_id", .str "out1"), ("type", .str "t"),
        ("scope", .str "public")],
      .obj [("artifact_id", .str "o2"), ("type", .str "t"),
        ("scope", .str "public")]])])

/-- The clean document with a duplicated E001 registry entry at index 2. -/
def docDupCode : JValue := setKey docClean "error_codes"
  (.arr [
    .obj [("code", .str "E001"), ("level", .str "error"),
      ("title", .str "t"), ("message", .str "m")],
    .obj [("code", .str "W001"), ("level", .str "warning"),
      ("title", .str "t"), ("message", .str "m")],
    .obj [("code", .str "E001"), ("level", .str "error"),
      ("title", .str "t2"), ("message", .str "m2")]])

/-- A glossary whose term set contains only XX. -/
def glossaryXX : JValue := .obj [("terms", .obj [("XX", .num 1)])]

/-- The clean document with the strict glossary policy. -/
def docStrict : JValue := setKey docClean "policies"
  (.obj [("unit_policy", .str "strict"), ("constraints_dsl", .str "v1"),
    ("glossary_policy", .str "strict"), ("i18n_policy", .str "uk_en")])

/-- The clean document with an enabled non-strict glossary policy. -/
def docWarnPolicy : JValue := setKey docClean "policies"
  (.obj [("unit_policy", .str "strict"), ("constraints_dsl", .str "v1"),
    ("glossary_policy", .str "warn"), ("i18n_policy", .str "uk_en")])

/-- The strict-policy document with an empty module_abbr. -/
def docAbbrEmptyStrict : JValue := setKey docStrict "module_abbr" (.str "")

/-- A document whose only content is an empty _schema block. -/
def docSchemaEmpty : JValue := .obj [("_schema", .obj [])]

/-- The result of a validation run, with an empty stand-in on a raised
exception (used only to state closed facts about runs known to succeed). -/
def runResult (g : Option JValue) (p : String) (d : JValue) : LintResult :=
  ((validate_contract g p d).toOption).getD ⟨"", false, 0, [], []⟩

/-- A sample error-severity finding, for concrete score computations. -/
def errIssue : LintIssue :=
  ⟨"E050", .error, .errorCodesNonEmpty, .topField "error_codes"⟩

/-- A sample warning-severity finding, for concrete score computations. -/
def warnIssue : LintIssue :=
  ⟨"W101", .warning, .glossaryAbbrMissing (.str "AB"),
    .topField "module_abbr"⟩
/-! ### Basic inversion lemmas for the Except computations -/

/-- Inversion of a successful bind. -/
theorem bind_eq_ok {ε α β : Type} {x : Except ε α} {f : α → Except ε β}
    {r : β} : x >>= f = .ok r ↔ ∃ a, x = .ok a ∧ f a = .ok r := by
  cases x <;> simp [Bind.bind, Except.bind]

/-- A successful pure. -/
theorem pure_eq_ok {ε α : Type} {a r : α} :
    (pure a : Except ε α) = .ok r ↔ a = r := by
  simp [pure, Except.pure]

/-- Inversion of a successful set-membership test. -/
theorem pyMem_ok {v : JValue} {s : List JValue} {b : Bool}
    (h : pyMem v s = .ok b) : v.hashable = true ∧ s.contains v = b := by
  unfold pyMem at h
  split at h
  · exact ⟨by assumption, by simpa using h⟩
  · exact absurd h (by simp)

/-- Inversion of a successful set insertion. -/
theorem pyAdd_ok {s : List JValue} {v : JValue} {s' : List JValue}
    (h : pyAdd s v = .ok s') : v.hashable = true ∧ s' = setAddPure s v := by
  unfold pyAdd at h
  split at h
  · exact ⟨by assumption, by simpa using h.symm⟩
  · exact absurd h (by simp)

/-- Inversion of a successful set update. -/
theorem pyUpdate_ok : ∀ {l : List JValue} {s s' : List JValue},
    pyUpdate s l = .ok s' → s' = l.foldl setAddPure s := by
  intro l
  induction l with
  | nil => intro s s' h; simpa [pyUpdate] using h.symm
  | cons x xs ih =>
      intro s s' h
      unfold pyUpdate at h
      rw [bind_eq_ok] at h
      obtain ⟨s1, hs1, h⟩ := h
      obtain ⟨-, rfl⟩ := pyAdd_ok hs1
      simpa using ih h

/-- A successful iteration visits `iterPure` of the value. -/
theorem pyIter_ok {v : JValue} {l : List JValue} (h : pyIter v = .ok l) :
    l = iterPure v := by
  cases v <;> simp_all [pyIter, iterPure]

/-- Inversion of a successful regex match. -/
theorem pyMatch_ok {p : String → Bool} {v : JValue} {b : Bool}
    (h : pyMatch p v = .ok b) : ∃ s, v = .str s ∧ b = p s := by
  cases v <;> simp_all [pyMatch]

/-- Counting over an append splits. -/
theorem countMsg_append (l1 l2 : List LintIssue) (m : Msg) :
    countMsg (l1 ++ l2) m = countMsg l1 m + countMsg l2 m :=
  List.countP_append _ _ _

/-- The count of plain singleton findings. -/
theorem countMsg_singleton (x : LintIssue) (m : Msg) :
    countMsg [x] m = if x.message = m then 1 else 0 := by
  simp [countMsg, List.countP_cons]

/-- The E061 count of one uses loop: for the loop at step index `i`, the
target (n, a) is counted once per occurrence of `a` when `n = i` and `a`
is in neither set, and never otherwise. -/
theorem usesLoop_count {avail produced : List JValue} {i : Nat} :
    ∀ {us : List JValue} {iss : List LintIssue},
    usesLoop avail produced i us = .ok iss →
    ∀ (n : Nat) (a : JValue),
    countMsg iss (.stepUsesUnknown n a) =
      if (n == i) && !avail.contains a && !produced.contains a
      then us.count a else 0 := by
  intro us
  induction us with
  | nil =>
      intro iss h n a
      simp only [usesLoop] at h
      cases h
      simp [countMsg]
  | cons u rest ih =>
      intro iss h n a
      simp only [usesLoop] at h
      rw [bind_eq_ok] at h
      obtain ⟨m1, hm1, h⟩ := h
      obtain ⟨hhash, hcont⟩ := pyMem_ok hm1
      cases m1 with
      | true =>
          rw [if_pos rfl] at h
          rw [bind_eq_ok] at h
          obtain ⟨y, hy, h⟩ := h
          rw [pure_eq_ok] at hy
          subst hy
          rw [bind_eq_ok] at h
          obtain ⟨rest', hrest, h⟩ := h
          rw [pure_eq_ok] at h
          subst h
          rw [countMsg_append, ih hrest n a]
          by_cases hua : u = a
          · subst hua
            have hmem : u ∈ avail := by simpa using hcont
            simp [countMsg, hmem]
          · simp [countMsg, List.count_cons, hua, Ne.symm hua]
      | false =>
          rw [if_neg (by simp)] at h
          rw [bind_eq_ok] at h
          obtain ⟨m2, hm2, h⟩ := h
          obtain ⟨-, hcont2⟩ := pyMem_ok hm2
          rw [bind_eq_ok] at h
          obtain ⟨y, hy, h⟩ := h
          rw [pure_eq_ok] at hy
          subst hy
          rw [bind_eq_ok] at h
          obtain ⟨rest', hrest, h⟩ := h
          rw [pure_eq_ok] at h
          subst h
          rw [countMsg_append, ih hrest n a]
          cases m2 with
          | true =>
              by_cases hua : u = a
              · subst hua
                have hmem : u ∈ produced := by simpa using hcont2
                simp [countMsg, hmem]
              · simp [countMsg, List.count_cons, hua, Ne.symm hua]
          | false =>
              have hna : u ∉ avail := by simpa using hcont
              have hnp : u ∉ produced := by simpa using hcont2
              rw [if_neg (by simp)]
              by_cases hua : u = a
              · subst hua
                rw [countMsg_singleton]
                by_cases hni : n = i
                · subst hni
                  simp [hna, hnp, List.count_cons]
                  omega
                · simp [hni, Ne.symm hni, List.count_cons]
              · rw [countMsg_singleton]
                simp [hua, Ne.symm hua, List.count_cons]

/-- A count is zero when no element carries the message. -/
theorem countMsg_eq_zero {l : List LintIssue} {m : Msg}
    (h : ∀ x ∈ l, x.message ≠ m) : countMsg l m = 0 :=
  List.countP_eq_zero.mpr (by intro x hx; simpa using h x hx)

/-- A successful step-id check emits nothing or one E063 format finding. -/
theorem stepIdIssues_ok {i : Nat} {sid : JValue} {l : List LintIssue}
    (h : stepIdIssues i sid = .ok l) :
    l = [] ∨ l = [⟨"E063", .error, .stepIdFormat i, .stepField i "id"⟩] := by
  unfold stepIdIssues at h
  split at h
  · rw [bind_eq_ok] at h
    obtain ⟨k, hk, h⟩ := h
    rw [pure_eq_ok] at h
    cases k <;> simp_all
  · rw [pure_eq_ok] at h
    exact Or.inl h.symm

/-- A successful step-type check emits nothing or one E063 type finding. -/
theorem stepTypeIssues_ok {i : Nat} {stype : JValue} {l : List LintIssue}
    (h : stepTypeIssues i stype = .ok l) :
    l = [] ∨
      l = [⟨"E063", .error, .stepBadType i stype, .stepField i "type"⟩] := by
  unfold stepTypeIssues at h
  split at h
  · rw [bind_eq_ok] at h
    obtain ⟨k, hk, h⟩ := h
    rw [pure_eq_ok] at h
    cases k <;> simp_all
  · rw [pure_eq_ok] at h
    exact Or.inl h.symm

/-- The E061 count of the whole step loop matches its specification
`e061count`. -/
theorem stepsLoop_count {avail : List JValue} :
    ∀ {steps : List JValue} {produced : List JValue} {i : Nat}
      {iss : List LintIssue} {prodF : List JValue},
    stepsLoop avail produced i steps = .ok (iss, prodF) →
    ∀ (n : Nat) (a : JValue),
    countMsg iss (.stepUsesUnknown n a) = e061count steps avail produced i n a := by
  intro steps
  induction steps with
  | nil =>
      intro produced i iss prodF h n a
      simp only [stepsLoop] at h
      cases h
      simp [countMsg, e061count]
  | cons step rest ih =>
      intro produced i iss prodF h n a
      cases step with
      | obj skvs =>
          simp only [stepsLoop] at h
          rw [bind_eq_ok] at h
          obtain ⟨m2, hm2, h⟩ := h
          rw [bind_eq_ok] at h
          obtain ⟨m3, hm3, h⟩ := h
          rw [bind_eq_ok] at h
          obtain ⟨usesL, husesL, h⟩ := h
          rw [bind_eq_ok] at h
          obtain ⟨m4, hm4, h⟩ := h
          rw [bind_eq_ok] at h
          obtain ⟨prodL, hprodL, h⟩ := h
          rw [bind_eq_ok] at h
          obtain ⟨produced', hprod, h⟩ := h
          rw [bind_eq_ok] at h
          obtain ⟨x, hx, h⟩ := h
          obtain ⟨restIss, prodF'⟩ := x
          rw [pure_eq_ok] at h
          have hiss := congrArg Prod.fst h
          have hpf := congrArg Prod.snd h
          simp only at hiss hpf
          subst hiss hpf
          have huses := pyIter_ok husesL
          have hprodP := pyIter_ok hprodL
          have hupd := pyUpdate_ok hprod
          subst huses hprodP hupd
          simp only [e061count]
          rw [countMsg_append, countMsg_append, countMsg_append,
            countMsg_append]
          have h1 : countMsg ((["id", "name", "type", "uses", "produces",
              "description"].filterMap (fun f =>
              if hasKey skvs f then none
              else some (⟨"E063", .error, .stepMissingField i f,
                .stepField i f⟩ : LintIssue)))) (.stepUsesUnknown n a) = 0 := by
            apply countMsg_eq_zero
            intro x hx
            obtain ⟨f, -, hf⟩ := List.mem_filterMap.mp hx
            split at hf
            · exact absurd hf (by simp)
            · cases Option.some.inj hf
              simp
          have h2 : countMsg m2 (.stepUsesUnknown n a) = 0 := by
            rcases stepIdIssues_ok hm2 with rfl | rfl <;> simp [countMsg]
          have h3 : countMsg m3 (.stepUsesUnknown n a) = 0 := by
            rcases stepTypeIssues_ok hm3 with rfl | rfl <;> simp [countMsg]
          rw [h1, h2, h3, usesLoop_count hm4 n a, ih hx n a]
          simp only [usesOfPure, pureProdStep]
          omega
      | null =>
          simp only [stepsLoop] at h
          simpa [e061count, usesOfPure, pureProdStep, countMsg] using ih h n a
      | bool b =>
          simp only [stepsLoop] at h
          simpa [e061count, usesOfPure, pureProdStep, countMsg] using ih h n a
      | num v =>
          simp only [stepsLoop] at h
          simpa [e061count, usesOfPure, pureProdStep, countMsg] using ih h n a
      | str sv =>
          simp only [stepsLoop] at h
          simpa [e061count, usesOfPure, pureProdStep, countMsg] using ih h n a
      | arr l =>
          simp only [stepsLoop] at h
          simpa [e061count, usesOfPure, pureProdStep, countMsg] using ih h n a

/-- No E061 finding targets an index below the loop start. -/
theorem e061count_lt : ∀ (steps : List JValue) (avail produced : List JValue)
    (i n : Nat) (a : JValue), n < i →
    e061count steps avail produced i n a = 0 := by
  intro steps
  induction steps with
  | nil => intro _ _ _ _ _ _; rfl
  | cons s rest ih =>
      intro avail produced i n a hlt
      simp only [e061count]
      rw [ih avail _ (i + 1) n a (by omega)]
      have : (n == i) = false := by simp; omega
      simp [this]

/-- `e061count` at index `i + k` reads off the step at position `k` and the
produced set accumulated over the earlier steps. -/
theorem e061count_get : ∀ (steps : List JValue) (avail produced : List JValue)
    (i k : Nat) (a : JValue),
    e061count steps avail produced i (i + k) a =
      match steps.get? k with
      | some step =>
          if !avail.contains a &&
              !(producedThrough produced (steps.take k)).contains a
          then (usesOfPure step).count a else 0
      | none => 0 := by
  intro steps
  induction steps with
  | nil => intro _ _ _ _ _; rfl
  | cons s rest ih =>
      intro avail produced i k a
      cases k with
      | zero =>
          simp only [e061count, List.get?, List.take, producedThrough,
            List.foldl]
          rw [e061count_lt rest avail _ (i + 1) (i + 0) a (by omega)]
          simp
      | succ k =>
          simp only [e061count, List.get?, List.take]
          have hidx : i + (k + 1) = (i + 1) + k := by omega
          rw [hidx, ih avail (pureProdStep produced s) (i + 1) k a]
          have hbeq : ((i + 1) + k == i) = false := by simp; omega
          simp only [hbeq, Bool.false_and, if_false]
          have hpt : producedThrough produced (s :: rest.take k) =
              producedThrough (pureProdStep produced s) (rest.take k) := rfl
          simp only [hpt]
          simp

/-- The final produced set of the step loop is its pure accumulation. -/
theorem stepsLoop_prod {avail : List JValue} :
    ∀ {steps : List JValue} {produced : List JValue} {i : Nat}
      {iss : List LintIssue} {prodF : List JValue},
    stepsLoop avail produced i steps = .ok (iss, prodF) →
    prodF = producedThrough produced steps := by
  intro steps
  induction steps with
  | nil =>
      intro produced i iss prodF h
      simp only [stepsLoop] at h
      cases h
      rfl
  | cons step rest ih =>
      intro produced i iss prodF h
      cases step with
      | obj skvs =>
          simp only [stepsLoop] at h
          rw [bind_eq_ok] at h
          obtain ⟨m2, hm2, h⟩ := h
          rw [bind_eq_ok] at h
          obtain ⟨m3, hm3, h⟩ := h
          rw [bind_eq_ok] at h
          obtain ⟨usesL, husesL, h⟩ := h
          rw [bind_eq_ok] at h
          obtain ⟨m4, hm4, h⟩ := h
          rw [bind_eq_ok] at h
          obtain ⟨prodL, hprodL, h⟩ := h
          rw [bind_eq_ok] at h
          obtain ⟨produced', hprod, h⟩ := h
          rw [bind_eq_ok] at h
          obtain ⟨x, hx, h⟩ := h
          obtain ⟨restIss, prodF'⟩ := x
          rw [pure_eq_ok] at h
          have hpf := congrArg Prod.snd h
          simp only at hpf
          subst hpf
          have hprodP := pyIter_ok hprodL
          have hupd := pyUpdate_ok hprod
          subst hprodP hupd
          exact ih hx
      | null => simp only [stepsLoop] at h; exact ih h
      | bool b => simp only [stepsLoop] at h; exact ih h
      | num v => simp only [stepsLoop] at h; exact ih h
      | str sv => simp only [stepsLoop] at h; exact ih h
      | arr l => simp only [stepsLoop] at h; exact ih h

/-- Path-qualified counting splits over appends. -/
theorem countMsgPath_append (l1 l2 : List LintIssue) (m : Msg) (p : Pth) :
    countMsgPath (l1 ++ l2) m p = countMsgPath l1 m p + countMsgPath l2 m p :=
  List.countP_append _ _ _

/-- A path-qualified count is zero when no element carries the message. -/
theorem countMsgPath_eq_zero {l : List LintIssue} {m : Msg} {p : Pth}
    (h : ∀ x ∈ l, x.message ≠ m) : countMsgPath l m p = 0 := by
  refine List.countP_eq_zero.mpr ?_
  intro x hx
  simp [h x hx]

/-- Path-qualified count of a singleton. -/
theorem countMsgPath_singleton (x : LintIssue) (m : Msg) (p : Pth) :
    countMsgPath [x] m p = if x.message = m ∧ x.path = p then 1 else 0 := by
  simp only [countMsgPath, List.countP_cons, List.countP_nil, Nat.zero_add]
  by_cases h1 : x.message = m <;> by_cases h2 : x.path = p <;>
    simp [h1, h2]

/-- A successful code-format check emits nothing or one E050 finding. -/
theorem ecFormatIssues_ok {i : Nat} {code : JValue} {l : List LintIssue}
    (h : ecFormatIssues i code = .ok l) :
    l = [] ∨
      l = [⟨"E050", .error, .ecCodeFormat i, .errorCodeField i "code"⟩] := by
  unfold ecFormatIssues at h
  split at h
  · rw [bind_eq_ok] at h
    obtain ⟨mE, hmE, h⟩ := h
    cases mE
    · rw [if_neg (by simp)] at h
      rw [bind_eq_ok] at h
      obtain ⟨mW, hmW, h⟩ := h
      cases mW
      · rw [if_neg (by simp), pure_eq_ok] at h
        exact Or.inr h.symm
      · rw [if_pos rfl, pure_eq_ok] at h
        exact Or.inl h.symm
    · rw [if_pos rfl, pure_eq_ok] at h
      exact Or.inl h.symm
  · rw [pure_eq_ok] at h
    exact Or.inl h.symm

/-- No E051 finding targets an index below the loop start. -/
theorem e051count_lt : ∀ (entries : List JValue) (seen : List JValue)
    (i n : Nat) (c : JValue), n < i →
    e051count entries seen i n c = 0 := by
  intro entries
  induction entries with
  | nil => intro _ _ _ _ _; rfl
  | cons e rest ih =>
      intro seen i n c hlt
      simp only [e051count]
      rw [ih _ (i + 1) n c (by omega)]
      have hbeq : (n == i) = false := by simp; omega
      cases e <;> simp [hbeq]

/-- The E051 count of the registry loop matches its specification. -/
theorem ecLoop_count :
    ∀ {entries : List JValue} {seen : List JValue} {i : Nat}
      {iss : List LintIssue},
    ecLoop seen i entries = .ok iss →
    ∀ (n : Nat) (c : JValue),
    countMsgPath iss (.ecDuplicate c) (.errorCodeField n "code") =
      e051count entries seen i n c := by
  intro entries
  induction entries with
  | nil =>
      intro seen i iss h n c
      simp only [ecLoop] at h
      cases h
      simp [countMsgPath, e051count]
  | cons ec rest ih =>
      intro seen i iss h n c
      cases ec with
      | obj kvs =>
          simp only [ecLoop] at h
          rw [bind_eq_ok] at h
          obtain ⟨m2, hm2, h⟩ := h
          rw [bind_eq_ok] at h
          obtain ⟨sE, hsE, h⟩ := h
          rw [bind_eq_ok] at h
          obtain ⟨sW, hsW, h⟩ := h
          rw [bind_eq_ok] at h
          obtain ⟨dup, hdup, h⟩ := h
          rw [bind_eq_ok] at h
          obtain ⟨seen', hseen, h⟩ := h
          rw [bind_eq_ok] at h
          obtain ⟨rest', hrest, h⟩ := h
          rw [pure_eq_ok] at h
          subst h
          obtain ⟨-, hcont⟩ := pyMem_ok hdup
          obtain ⟨-, hadd⟩ := pyAdd_ok hseen
          subst hadd
          rw [countMsgPath_append, countMsgPath_append, countMsgPath_append,
            countMsgPath_append, countMsgPath_append]
          have h1 : countMsgPath ((["code", "level", "title",
              "message"].filterMap (fun f =>
              if hasKey kvs f then none
              else some (⟨"E050", .error, .ecMissingField i f,
                .errorCodeField i f⟩ : LintIssue))))
              (.ecDuplicate c) (.errorCodeField n "code") = 0 := by
            apply countMsgPath_eq_zero
            intro x hx
            obtain ⟨f, -, hf⟩ := List.mem_filterMap.mp hx
            split at hf
            · exact absurd hf (by simp)
            · cases Option.some.inj hf
              simp
          have h2 : countMsgPath m2 (.ecDuplicate c)
              (.errorCodeField n "code") = 0 := by
            rcases ecFormatIssues_ok hm2 with rfl | rfl <;>
              simp [countMsgPath, List.countP_cons]
          have h3 : countMsgPath (if sE &&
              (objGetD kvs "level" (.str "") != .str "error") then
              [(⟨"E050", .error,
                .ecLevelMustError (objGetD kvs "code" (.str "")),
                .errorCodeField i "level"⟩ : LintIssue)] else [])
              (.ecDuplicate c) (.errorCodeField n "code") = 0 := by
            split <;> apply countMsgPath_eq_zero <;> intro x hx <;>
              simp_all
          have h4 : countMsgPath (if sW &&
              (objGetD kvs "level" (.str "") != .str "warning") then
              [(⟨"E050", .error,
                .ecLevelMustWarning (objGetD kvs "code" (.str "")),
                .errorCodeField i "level"⟩ : LintIssue)] else [])
              (.ecDuplicate c) (.errorCodeField n "code") = 0 := by
            split <;> apply countMsgPath_eq_zero <;> intro x hx <;>
              simp_all
          rw [h1, h2, h3, h4, ih hrest n c]
          simp only [e051count, ecSeenStep]
          cases dup with
          | true =>
              rw [if_pos rfl, countMsgPath_singleton]
              by_cases hc : objGetD kvs "code" (.str "") = c
              · by_cases hn : n = i
                · subst hn hc
                  simp [hcont.symm]
                · simp [hn, Ne.symm hn, hc]
              · simp [hc]
          | false =>
              rw [if_neg (by simp)]
              simp only [countMsgPath, List.countP_nil]
              have hnm : objGetD kvs "code" (.str "") ∉ seen := by
                simpa using hcont
              by_cases hc : objGetD kvs "code" (.str "") = c
              · subst hc
                simp [hnm]
              · simp [hc]
      | null => simp only [ecLoop] at h; simpa [e051count, ecSeenStep] using ih h n c
      | bool b => simp only [ecLoop] at h; simpa [e051count, ecSeenStep] using ih h n c
      | num v => simp only [ecLoop] at h; simpa [e051count, ecSeenStep] using ih h n c
      | str sv => simp only [ecLoop] at h; simpa [e051count, ecSeenStep] using ih h n c
      | arr l => simp only [ecLoop] at h; simpa [e051count, ecSeenStep] using ih h n c

/-- `e051count` at index `i + k` reads off the entry at position `k` and
the seen set accumulated over the earlier entries. -/
theorem e051count_get : ∀ (entries : List JValue) (seen : List JValue)
    (i k : Nat) (c : JValue),
    e051count entries seen i (i + k) c =
      match entries.get? k with
      | some (.obj kvs) =>
          if (objGetD kvs "code" (.str "") == c) &&
              (ecSeenThrough seen (entries.take k)).contains
                (objGetD kvs "code" (.str ""))
          then 1 else 0
      | _ => 0 := by
  intro entries
  induction entries with
  | nil => intro _ _ _ _; rfl
  | cons e rest ih =>
      intro seen i k c
      cases k with
      | zero =>
          simp only [e051count, List.get?, List.take, ecSeenThrough,
            List.foldl]
          rw [e051count_lt rest _ (i + 1) (i + 0) c (by omega)]
          cases e <;> simp
      | succ k =>
          simp only [e051count, List.get?, List.take]
          have hidx : i + (k + 1) = (i + 1) + k := by omega
          rw [hidx, ih (ecSeenStep seen e) (i + 1) k c]
          have hbeq : ((i + 1) + k == i) = false := by simp; omega
          have hst : ecSeenThrough seen (e :: rest.take k) =
              ecSeenThrough (ecSeenStep seen e) (rest.take k) := rfl
          simp only [hst]
          cases e <;> simp [hbeq]

/-- Pure set insertion preserves freedom from duplicates. -/
theorem setAddPure_nodup {s : List JValue} {v : JValue} (h : s.Nodup) :
    (setAddPure s v).Nodup := by
  unfold setAddPure
  split
  · exact h
  · rename_i hc
    have hv : v ∉ s := by simpa using hc
    refine List.Nodup.append h (List.nodup_singleton v) ?_
    intro a ha hb
    rw [List.mem_singleton] at hb
    subst hb
    exact hv ha

/-- A successful artifact-id set build has no duplicates. -/
theorem artifactIdSet_nodup : ∀ {l acc s : List JValue},
    artifactIdSet acc l = .ok s → acc.Nodup → s.Nodup := by
  intro l
  induction l with
  | nil =>
      intro acc s h hnd
      simp only [artifactIdSet] at h
      cases h
      exact hnd
  | cons x rest ih =>
      intro acc s h hnd
      simp only [artifactIdSet] at h
      rw [bind_eq_ok] at h
      obtain ⟨c, hc, h⟩ := h
      rw [bind_eq_ok] at h
      obtain ⟨acc', hacc, h⟩ := h
      obtain ⟨-, rfl⟩ := pyAdd_ok hacc
      exact ih h (setAddPure_nodup hnd)

/-- Counting one kind of finding in a set-walk filterMap: one finding when
the target is a member outside the excluded set, none otherwise. -/
theorem filterMapSet_count (mk : JValue → LintIssue) (mf : JValue → Msg)
    (hmk : ∀ x, (mk x).message = mf x)
    (hinj : ∀ x y, mf x = mf y → x = y) :
    ∀ (outs : List JValue), outs.Nodup → ∀ (S : List JValue) (o : JValue),
    countMsg (outs.filterMap (fun x =>
      if S.contains x then none else some (mk x))) (mf o) =
      if o ∈ outs && !S.contains o then 1 else 0 := by
  intro outs
  induction outs with
  | nil => intro _ _ _; simp [countMsg]
  | cons x rest ih =>
      intro hnd S o
      obtain ⟨hx, hrest⟩ := List.nodup_cons.mp hnd
      rw [List.filterMap_cons]
      by_cases hS : S.contains x
      · rw [if_pos hS]
        rw [ih hrest S o]
        by_cases ho : o = x
        · subst ho
          have hoS : o ∈ S := by simpa using hS
          simp [hoS, hx]
        · simp [ho, Ne.symm ho]
      · rw [if_neg hS]
        have hcount : countMsg (mk x :: rest.filterMap (fun y =>
            if S.contains y then none else some (mk y))) (mf o) =
            (if (mk x).message = mf o then 1 else 0) +
            countMsg (rest.filterMap (fun y =>
              if S.contains y then none else some (mk y))) (mf o) := by
          simp only [countMsg, List.countP_cons]
          by_cases hm : (mk x).message = mf o <;> simp [hm] <;> omega
        rw [hcount, ih hrest S o]
        by_cases ho : o = x
        · subst ho
          have hoS : o ∉ S := by simpa using hS
          simp [hmk, hx, hoS]
        · have hne : (mk x).message ≠ mf o := by
            rw [hmk]
            intro he
            exact ho ((hinj x o he).symm)
          simp [hne, ho, Ne.symm ho]

/-! ### Message provenance: each check only emits its own templates -/

/-- Required-fields loop messages. -/
theorem reqFieldsLoop_family {data : JValue} : ∀ {fs : List String}
    {l : List LintIssue}, reqFieldsLoop data fs = .ok l →
    ∀ x ∈ l, x.message.family = 0 := by
  intro fs
  induction fs with
  | nil =>
      intro l h x hx
      simp only [reqFieldsLoop] at h
      cases h
      simp at hx
  | cons f fs ih =>
      intro l h x hx
      simp only [reqFieldsLoop] at h
      rw [bind_eq_ok] at h
      obtain ⟨c, hc, h⟩ := h
      rw [bind_eq_ok] at h
      obtain ⟨rest, hrest, h⟩ := h
      cases c
      · rw [if_neg (by simp)] at h
        cases h
        rcases List.mem_cons.mp hx with rfl | hx'
        · rfl
        · exact ih hrest x hx'
      · rw [if_pos rfl] at h
        cases h
        exact ih hrest x hx

/-- `_check_required_fields` messages. -/
theorem check_required_fields_family {data : JValue} {l : List LintIssue}
    (h : check_required_fields data = .ok l) :
    ∀ x ∈ l, x.message.family = 0 :=
  reqFieldsLoop_family h

/-- Schema required-fields loop messages. -/
theorem schemaFieldsLoop_family {kvs : List (String × JValue)} :
    ∀ {fs : List String}, ∀ x ∈ schemaFieldsLoop kvs fs,
    x.message.family = 1 := by
  intro fs
  induction fs with
  | nil => intro x hx; simp [schemaFieldsLoop] at hx
  | cons f fs ih =>
      intro x hx
      simp only [schemaFieldsLoop] at hx
      split at hx
      · exact ih x hx
      · rcases List.mem_cons.mp hx with rfl | hx'
        · rfl
        · exact ih x hx'

/-- A successful timestamp check emits nothing or one E012 finding. -/
theorem tsIssues_ok {f : String} {ts : JValue} {l : List LintIssue}
    (h : tsIssues f ts = .ok l) :
    l = [] ∨ l = [⟨"E012", .error, .timestampMust f, .schemaField f⟩] := by
  unfold tsIssues at h
  split at h
  · rw [bind_eq_ok] at h
    obtain ⟨k, hk, h⟩ := h
    rw [pure_eq_ok] at h
    cases k <;> simp_all
  · rw [pure_eq_ok] at h
    exact Or.inl h.symm

/-- Timestamp loop messages. -/
theorem schemaTimestampLoop_family {kvs : List (String × JValue)} :
    ∀ {fs : List String} {l : List LintIssue},
    schemaTimestampLoop kvs fs = .ok l → ∀ x ∈ l, x.message.family = 1 := by
  intro fs
  induction fs with
  | nil =>
      intro l h x hx
      simp only [schemaTimestampLoop] at h
      cases h
      simp at hx
  | cons f fs ih =>
      intro l h x hx
      simp only [schemaTimestampLoop] at h
      rw [bind_eq_ok] at h
      obtain ⟨this, hthis, h⟩ := h
      rw [bind_eq_ok] at h
      obtain ⟨rest, hrest, h⟩ := h
      rw [pure_eq_ok] at h
      subst h
      rcases List.mem_append.mp hx with hx' | hx'
      · rcases tsIssues_ok hthis with rfl | rfl
        · simp at hx'
        · rw [List.mem_singleton.mp hx']; rfl
      · exact ih hrest x hx'

/-- `_check_schema_block` messages. -/
theorem check_schema_block_family {data : JValue} {l : List LintIssue}
    (h : check_schema_block data = .ok l) :
    ∀ x ∈ l, x.message.family = 1 := by
  intro x hx
  unfold check_schema_block at h
  rw [bind_eq_ok] at h
  obtain ⟨schema, hschema, h⟩ := h
  cases schema with
  | obj kvs =>
      rw [bind_eq_ok] at h
      obtain ⟨mOk, hmOk, h⟩ := h
      rw [bind_eq_ok] at h
      obtain ⟨uOk, huOk, h⟩ := h
      rw [bind_eq_ok] at h
      obtain ⟨i6, hi6, h⟩ := h
      rw [pure_eq_ok] at h
      subst h
      simp only [List.mem_append] at hx
      rcases hx with ((((hx | hx) | hx) | hx) | hx) | hx
      · exact schemaFieldsLoop_family x hx
      · split at hx
        · simp at hx
        · rw [List.mem_singleton.mp hx]; rfl
      · split at hx
        · simp at hx
        · rw [List.mem_singleton.mp hx]; rfl
      · split at hx
        · simp at hx
        · rw [List.mem_singleton.mp hx]; rfl
      · split at hx
        · simp at hx
        · rw [List.mem_singleton.mp hx]; rfl
      · exact schemaTimestampLoop_family hi6 x hx
  | null =>
      rw [pure_eq_ok] at h; subst h
      rw [List.mem_singleton.mp hx]; rfl
  | bool b =>
      rw [pure_eq_ok] at h; subst h
      rw [List.mem_singleton.mp hx]; rfl
  | num n =>
      rw [pure_eq_ok] at h; subst h
      rw [List.mem_singleton.mp hx]; rfl
  | str s =>
      rw [pure_eq_ok] at h; subst h
      rw [List.mem_singleton.mp hx]; rfl
  | arr a =>
      rw [pure_eq_ok] at h; subst h
      rw [List.mem_singleton.mp hx]; rfl

/-- `_check_module_identity` messages. -/
theorem check_module_identity_family {data : JValue} {l : List LintIssue}
    (h : check_module_identity data = .ok l) :
    ∀ x ∈ l, x.message.family = 2 := by
  intro x hx
  unfold check_module_identity at h
  rw [bind_eq_ok] at h
  obtain ⟨mid, hmid, h⟩ := h
  rw [bind_eq_ok] at h
  obtain ⟨idOk, hidOk, h⟩ := h
  rw [bind_eq_ok] at h
  obtain ⟨abbr, habbr, h⟩ := h
  rw [bind_eq_ok] at h
  obtain ⟨abOk, habOk, h⟩ := h
  rw [bind_eq_ok] at h
  obtain ⟨mtype, hmtype, h⟩ := h
  rw [bind_eq_ok] at h
  obtain ⟨tOk, htOk, h⟩ := h
  rw [bind_eq_ok] at h
  obtain ⟨version, hversion, h⟩ := h
  rw [bind_eq_ok] at h
  obtain ⟨vOk, hvOk, h⟩ := h
  rw [bind_eq_ok] at h
  obtain ⟨mname, hmname, h⟩ := h
  rw [pure_eq_ok] at h
  subst h
  simp only [List.mem_append] at hx
  rcases hx with (((hx | hx) | hx) | hx) | hx <;>
    · split at hx
      · simp at hx
      · rw [List.mem_singleton.mp hx]; rfl

/-- One parameter entry only emits parameter messages. -/
theorem paramIssues_family {name : String} {param : JValue}
    {l : List LintIssue} (h : paramIssues name param = .ok l) :
    ∀ x ∈ l, x.message.family = 3 := by
  intro x hx
  cases param
  case obj pkvs =>
    unfold paramIssues at h
    rw [bind_eq_ok] at h
    obtain ⟨tOk, htOk, h⟩ := h
    rw [pure_eq_ok] at h
    subst h
    simp only [List.mem_append] at hx
    rcases hx with (((hy | hy) | hy) | hy) | hy
    · split at hy
      · simp at hy
      · rw [List.mem_singleton.mp hy]; rfl
    · split at hy
      · simp at hy
      · rw [List.mem_singleton.mp hy]; rfl
    · split at hy
      · simp at hy
      · rw [List.mem_singleton.mp hy]; rfl
    · split at hy
      · simp at hy
      · rw [List.mem_singleton.mp hy]; rfl
    · split at hy
      · rw [List.mem_singleton.mp hy]; rfl
      · simp at hy
  all_goals
    unfold paramIssues at h
    rw [pure_eq_ok] at h
    subst h
    rw [List.mem_singleton.mp hx]; rfl

/-- Parameter loop messages. -/
theorem paramsLoop_family : ∀ {ps : List (String × JValue)}
    {l : List LintIssue}, paramsLoop ps = .ok l →
    ∀ x ∈ l, x.message.family = 3 := by
  intro ps
  induction ps with
  | nil =>
      intro l h x hx
      simp only [paramsLoop] at h
      cases h
      simp at hx
  | cons p rest ih =>
      intro l h x hx
      obtain ⟨name, param⟩ := p
      simp only [paramsLoop] at h
      rw [bind_eq_ok] at h
      obtain ⟨this, hthis, h⟩ := h
      rw [bind_eq_ok] at h
      obtain ⟨rest', hrest, h⟩ := h
      rw [pure_eq_ok] at h
      subst h
      rcases List.mem_append.mp hx with hx' | hx'
      · exact paramIssues_family hthis x hx'
      · exact ih hrest x hx'

/-- `_check_parameters` messages. -/
theorem check_parameters_family {data : JValue} {l : List LintIssue}
    (h : check_parameters data = .ok l) :
    ∀ x ∈ l, x.message.family = 3 := by
  intro x hx
  unfold check_parameters at h
  rw [bind_eq_ok] at h
  obtain ⟨params, hparams, h⟩ := h
  cases params with
  | obj kvs =>
      dsimp only at h
      split at h
      · rw [pure_eq_ok] at h; subst h
        rw [List.mem_singleton.mp hx]; rfl
      · rw [bind_eq_ok] at h
        obtain ⟨i1, hi1, h⟩ := h
        rw [bind_eq_ok] at h
        obtain ⟨groups, hgroups, h⟩ := h
        rw [bind_eq_ok] at h
        obtain ⟨gvals, hgvals, h⟩ := h
        rw [bind_eq_ok] at h
        obtain ⟨grouped, hgrouped, h⟩ := h
        rw [pure_eq_ok] at h
        subst h
        rcases List.mem_append.mp hx with hx' | hx'
        · exact paramsLoop_family hi1 x hx'
        · obtain ⟨p, -, hp⟩ := List.mem_filterMap.mp hx'
          split at hp
          · exact absurd hp (by simp)
          · cases Option.some.inj hp
            rfl
  | null =>
      rw [pure_eq_ok] at h; subst h
      rw [List.mem_singleton.mp hx]; rfl
  | bool b =>
      rw [pure_eq_ok] at h; subst h
      rw [List.mem_singleton.mp hx]; rfl
  | num n =>
      rw [pure_eq_ok] at h; subst h
      rw [List.mem_singleton.mp hx]; rfl
  | str s =>
      rw [pure_eq_ok] at h; subst h
      rw [List.mem_singleton.mp hx]; rfl
  | arr a =>
      rw [pure_eq_ok] at h; subst h
      rw [List.mem_singleton.mp hx]; rfl

/-- The constraint code checks only emit constraint messages. -/
theorem constraintCodeIssues_family {defined : List JValue} {i : Nat}
    {ec : JValue} {l : List LintIssue}
    (h : constraintCodeIssues defined i ec = .ok l) :
    ∀ x ∈ l, x.message.family = 4 := by
  intro x hx
  unfold constraintCodeIssues at h
  split at h
  · rw [pure_eq_ok] at h
    subst h
    rw [List.mem_singleton.mp hx]; rfl
  · rw [bind_eq_ok] at h
    obtain ⟨fOk, hfOk, h⟩ := h
    cases fOk
    · rw [if_pos (by simp), pure_eq_ok] at h
      subst h
      rw [List.mem_singleton.mp hx]; rfl
    · rw [if_neg (by simp)] at h
      rw [bind_eq_ok] at h
      obtain ⟨mem, hmem, h⟩ := h
      cases mem
      · rw [if_pos (by simp), pure_eq_ok] at h
        subst h
        rw [List.mem_singleton.mp hx]; rfl
      · rw [if_neg (by simp), pure_eq_ok] at h
        subst h
        simp at hx

/-- One constraint entry only emits constraint messages. -/
theorem constraintIssues_family {defined : List JValue} {i : Nat}
    {c : JValue} {l : List LintIssue}
    (h : constraintIssues defined i c = .ok l) :
    ∀ x ∈ l, x.message.family = 4 := by
  intro x hx
  cases c
  case obj ckvs =>
    unfold constraintIssues at h
    rw [bind_eq_ok] at h
    obtain ⟨m2, hm2, h⟩ := h
    rw [pure_eq_ok] at h
    subst h
    rcases List.mem_append.mp hx with hy | hy
    · split at hy
      · simp at hy
      · rw [List.mem_singleton.mp hy]; rfl
    · exact constraintCodeIssues_family hm2 x hy
  all_goals
    unfold constraintIssues at h
    rw [pure_eq_ok] at h
    subst h
    rw [List.mem_singleton.mp hx]; rfl

/-- Constraint loop messages. -/
theorem constraintsLoop_family {defined : List JValue} :
    ∀ {cl : List JValue} {i : Nat} {l : List LintIssue},
    constraintsLoop defined i cl = .ok l → ∀ x ∈ l, x.message.family = 4 := by
  intro cl
  induction cl with
  | nil =>
      intro i l h x hx
      simp only [constraintsLoop] at h
      cases h
      simp at hx
  | cons c rest ih =>
      intro i l h x hx
      simp only [constraintsLoop] at h
      rw [bind_eq_ok] at h
      obtain ⟨this, hthis, h⟩ := h
      rw [bind_eq_ok] at h
      obtain ⟨rest', hrest, h⟩ := h
      rw [pure_eq_ok] at h
      subst h
      rcases List.mem_append.mp hx with hx' | hx'
      · exact constraintIssues_family hthis x hx'
      · exact ih hrest x hx'

/-- `_check_constraints` messages. -/
theorem check_constraints_family {data : JValue} {l : List LintIssue}
    (h : check_constraints data = .ok l) :
    ∀ x ∈ l, x.message.family = 4 := by
  intro x hx
  unfold check_constraints at h
  rw [bind_eq_ok] at h
  obtain ⟨constraints, hc, h⟩ := h
  cases constraints
  case arr cl =>
    dsimp only at h
    split at h
    · rw [pure_eq_ok] at h
      subst h
      rw [List.mem_singleton.mp hx]; rfl
    · rw [bind_eq_ok] at h
      obtain ⟨ecsRaw, h1, h⟩ := h
      rw [bind_eq_ok] at h
      obtain ⟨ecl, h2, h⟩ := h
      rw [bind_eq_ok] at h
      obtain ⟨defined, h3, h⟩ := h
      exact constraintsLoop_family h x hx
  all_goals
    dsimp only at h
    rw [pure_eq_ok] at h
    subst h
    rw [List.mem_singleton.mp hx]; rfl

/-- The rule code checks only emit validation-rule messages. -/
theorem ruleCodeIssues_family {defined : List JValue} {i : Nat}
    {ec : JValue} {l : List LintIssue}
    (h : ruleCodeIssues defined i ec = .ok l) :
    ∀ x ∈ l, x.message.family = 5 := by
  intro x hx
  unfold ruleCodeIssues at h
  split at h
  · rw [bind_eq_ok] at h
    obtain ⟨fOk, hfOk, h⟩ := h
    cases fOk
    · rw [if_pos (by simp), pure_eq_ok] at h
      subst h
      rw [List.mem_singleton.mp hx]; rfl
    · rw [if_neg (by simp)] at h
      rw [bind_eq_ok] at h
      obtain ⟨mem, hmem, h⟩ := h
      cases mem
      · rw [if_pos (by simp), pure_eq_ok] at h
        subst h
        rw [List.mem_singleton.mp hx]; rfl
      · rw [if_neg (by simp), pure_eq_ok] at h
        subst h
        simp at hx
  · rw [pure_eq_ok] at h
    subst h
    simp at hx

/-- One rule entry only emits validation-rule messages. -/
theorem ruleIssues_family {defined : List JValue} {i : Nat}
    {rule : JValue} {l : List LintIssue}
    (h : ruleIssues defined i rule = .ok l) :
    ∀ x ∈ l, x.message.family = 5 := by
  intro x hx
  cases rule
  case obj rkvs =>
    unfold ruleIssues at h
    rw [bind_eq_ok] at h
    obtain ⟨m3, hm3, h⟩ := h
    rw [pure_eq_ok] at h
    subst h
    simp only [List.mem_append] at hx
    rcases hx with (hy | hy) | hy
    · obtain ⟨f, -, hf⟩ := List.mem_filterMap.mp hy
      split at hf
      · exact absurd hf (by simp)
      · cases Option.some.inj hf
        rfl
    · split at hy
      · simp at hy
      · rw [List.mem_singleton.mp hy]; rfl
    · exact ruleCodeIssues_family hm3 x hy
  all_goals
    unfold ruleIssues at h
    rw [pure_eq_ok] at h
    subst h
    simp at hx

/-- Rule loop messages. -/
theorem rulesLoop_family {defined : List JValue} :
    ∀ {rl : List JValue} {i : Nat} {l : List LintIssue},
    rulesLoop defined i rl = .ok l → ∀ x ∈ l, x.message.family = 5 := by
  intro rl
  induction rl with
  | nil =>
      intro i l h x hx
      simp only [rulesLoop] at h
      cases h
      simp at hx
  | cons r rest ih =>
      intro i l h x hx
      simp only [rulesLoop] at h
      rw [bind_eq_ok] at h
      obtain ⟨this, hthis, h⟩ := h
      rw [bind_eq_ok] at h
      obtain ⟨rest', hrest, h⟩ := h
      rw [pure_eq_ok] at h
      subst h
      rcases List.mem_append.mp hx with hx' | hx'
      · exact ruleIssues_family hthis x hx'
      · exact ih hrest x hx'

/-- `_check_validation_rules` messages. -/
theorem check_validation_rules_family {data : JValue} {l : List LintIssue}
    (h : check_validation_rules data = .ok l) :
    ∀ x ∈ l, x.message.family = 5 := by
  intro x hx
  unfold check_validation_rules at h
  rw [bind_eq_ok] at h
  obtain ⟨validation, hv, h⟩ := h
  rw [bind_eq_ok] at h
  obtain ⟨rules, hr, h⟩ := h
  cases rules
  case arr rl =>
    dsimp only at h
    rw [bind_eq_ok] at h
    obtain ⟨ecsRaw, h1, h⟩ := h
    rw [bind_eq_ok] at h
    obtain ⟨ecl, h2, h⟩ := h
    rw [bind_eq_ok] at h
    obtain ⟨defined, h3, h⟩ := h
    exact rulesLoop_family h x hx
  all_goals
    dsimp only at h
    rw [pure_eq_ok] at h
    subst h
    rw [List.mem_singleton.mp hx]; rfl

/-- Registry loop messages, all of error severity. -/
theorem ecLoop_family : ∀ {entries : List JValue} {seen : List JValue}
    {i : Nat} {l : List LintIssue}, ecLoop seen i entries = .ok l →
    ∀ x ∈ l, x.message.family = 6 ∧ x.severity = Severity.error := by
  intro entries
  induction entries with
  | nil =>
      intro seen i l h x hx
      simp only [ecLoop] at h
      cases h
      simp at hx
  | cons ec rest ih =>
      intro seen i l h x hx
      cases ec
      case obj kvs =>
        simp only [ecLoop] at h
        rw [bind_eq_ok] at h
        obtain ⟨m2, hm2, h⟩ := h
        rw [bind_eq_ok] at h
        obtain ⟨sE, hsE, h⟩ := h
        rw [bind_eq_ok] at h
        obtain ⟨sW, hsW, h⟩ := h
        rw [bind_eq_ok] at h
        obtain ⟨dup, hdup, h⟩ := h
        rw [bind_eq_ok] at h
        obtain ⟨seen', hseen, h⟩ := h
        rw [bind_eq_ok] at h
        obtain ⟨rest', hrest, h⟩ := h
        rw [pure_eq_ok] at h
        subst h
        simp only [List.mem_append] at hx
        rcases hx with ((((hy | hy) | hy) | hy) | hy) | hy
        · obtain ⟨f, -, hf⟩ := List.mem_filterMap.mp hy
          split at hf
          · exact absurd hf (by simp)
          · cases Option.some.inj hf
            exact ⟨rfl, rfl⟩
        · rcases ecFormatIssues_ok hm2 with rfl | rfl
          · simp at hy
          · rw [List.mem_singleton.mp hy]; exact ⟨rfl, rfl⟩
        · split at hy
          · rw [List.mem_singleton.mp hy]; exact ⟨rfl, rfl⟩
          · simp at hy
        · split at hy
          · rw [List.mem_singleton.mp hy]; exact ⟨rfl, rfl⟩
          · simp at hy
        · split at hy
          · rw [List.mem_singleton.mp hy]; exact ⟨rfl, rfl⟩
          · simp at hy
        · exact ih hrest x hy
      all_goals
        simp only [ecLoop] at h
        exact ih h x hx

/-- `_check_error_codes` messages, all of error severity. -/
theorem check_error_codes_family {data : JValue} {l : List LintIssue}
    (h : check_error_codes data = .ok l) :
    ∀ x ∈ l, x.message.family = 6 ∧ x.severity = Severity.error := by
  intro x hx
  unfold check_error_codes at h
  rw [bind_eq_ok] at h
  obtain ⟨ecs, he, h⟩ := h
  cases ecs
  case arr el =>
    dsimp only at h
    split at h
    · rw [pure_eq_ok] at h
      subst h
      rw [List.mem_singleton.mp hx]; exact ⟨rfl, rfl⟩
    · exact ecLoop_family h x hx
  all_goals
    dsimp only at h
    rw [pure_eq_ok] at h
    subst h
    rw [List.mem_singleton.mp hx]; exact ⟨rfl, rfl⟩

/-- Uses-loop messages, all of error severity. -/
theorem usesLoop_family {avail produced : List JValue} {i : Nat} :
    ∀ {us : List JValue} {l : List LintIssue},
    usesLoop avail produced i us = .ok l →
    ∀ x ∈ l, x.message.family = 7 ∧ x.severity = Severity.error ∧
      x.message.isStepMsg = true := by
  intro us
  induction us with
  | nil =>
      intro l h x hx
      simp only [usesLoop] at h
      cases h
      simp at hx
  | cons u rest ih =>
      intro l h x hx
      simp only [usesLoop] at h
      rw [bind_eq_ok] at h
      obtain ⟨m1, hm1, h⟩ := h
      cases m1
      · rw [if_neg (by simp)] at h
        rw [bind_eq_ok] at h
        obtain ⟨m2, hm2, h⟩ := h
        rw [bind_eq_ok] at h
        obtain ⟨y, hy, h⟩ := h
        rw [pure_eq_ok] at hy
        subst hy
        rw [bind_eq_ok] at h
        obtain ⟨rest', hrest, h⟩ := h
        rw [pure_eq_ok] at h
        subst h
        rcases List.mem_append.mp hx with hy | hy
        · cases m2
          · rw [if_neg (by simp)] at hy
            rw [List.mem_singleton.mp hy]; exact ⟨rfl, rfl, rfl⟩
          · rw [if_pos rfl] at hy
            simp at hy
        · exact ih hrest x hy
      · rw [if_pos rfl] at h
        rw [bind_eq_ok] at h
        obtain ⟨y, hy, h⟩ := h
        rw [pure_eq_ok] at hy
        subst hy
        rw [bind_eq_ok] at h
        obtain ⟨rest', hrest, h⟩ := h
        rw [pure_eq_ok] at h
        subst h
        rcases List.mem_append.mp hx with hy | hy
        · simp at hy
        · exact ih hrest x hy

/-- Step loop messages, all of error severity. -/
theorem stepsLoop_family {avail : List JValue} :
    ∀ {steps : List JValue} {produced : List JValue} {i : Nat}
      {iss : List LintIssue} {prodF : List JValue},
    stepsLoop avail produced i steps = .ok (iss, prodF) →
    ∀ x ∈ iss, x.message.family = 7 ∧ x.severity = Severity.error ∧
      x.message.isStepMsg = true := by
  intro steps
  induction steps with
  | nil =>
      intro produced i iss prodF h x hx
      simp only [stepsLoop] at h
      cases h
      simp at hx
  | cons step rest ih =>
      intro produced i iss prodF h x hx
      cases step
      case obj skvs =>
        simp only [stepsLoop] at h
        rw [bind_eq_ok] at h
        obtain ⟨m2, hm2, h⟩ := h
        rw [bind_eq_ok] at h
        obtain ⟨m3, hm3, h⟩ := h
        rw [bind_eq_ok] at h
        obtain ⟨usesL, husesL, h⟩ := h
        rw [bind_eq_ok] at h
        obtain ⟨m4, hm4, h⟩ := h
        rw [bind_eq_ok] at h
        obtain ⟨prodL, hprodL, h⟩ := h
        rw [bind_eq_ok] at h
        obtain ⟨produced', hprod, h⟩ := h
        rw [bind_eq_ok] at h
        obtain ⟨xp, hxp, h⟩ := h
        obtain ⟨restIss, prodF'⟩ := xp
        rw [pure_eq_ok] at h
        have hiss := congrArg Prod.fst h
        simp only at hiss
        subst hiss
        simp only [List.mem_append] at hx
        rcases hx with (((hy | hy) | hy) | hy) | hy
        · obtain ⟨f, -, hf⟩ := List.mem_filterMap.mp hy
          split at hf
          · exact absurd hf (by simp)
          · cases Option.some.inj hf
            exact ⟨rfl, rfl, rfl⟩
        · rcases stepIdIssues_ok hm2 with rfl | rfl
          · simp at hy
          · rw [List.mem_singleton.mp hy]; exact ⟨rfl, rfl, rfl⟩
        · rcases stepTypeIssues_ok hm3 with rfl | rfl
          · simp at hy
          · rw [List.mem_singleton.mp hy]; exact ⟨rfl, rfl, rfl⟩
        · exact usesLoop_family hm4 x hy
        · exact ih hxp x hy
      all_goals
        simp only [stepsLoop] at h
        exact ih h x hx

/-- `_check_algorithm` messages, all of error severity. -/
theorem check_algorithm_family {data : JValue} {l : List LintIssue}
    (h : check_algorithm data = .ok l) :
    ∀ x ∈ l, x.message.family = 7 ∧ x.severity = Severity.error := by
  intro x hx
  unfold check_algorithm at h
  rw [bind_eq_ok] at h
  obtain ⟨algorithm, ha, h⟩ := h
  cases algorithm
  case obj akvs =>
    dsimp only at h
    split at h
    · rw [pure_eq_ok] at h
      subst h
      rw [List.mem_singleton.mp hx]; exact ⟨rfl, rfl⟩
    · rw [bind_eq_ok] at h
      obtain ⟨available, hav, h⟩ := h
      rw [bind_eq_ok] at h
      obtain ⟨stepsL, hsl, h⟩ := h
      rw [bind_eq_ok] at h
      obtain ⟨xp, hxp, h⟩ := h
      obtain ⟨i1, produced⟩ := xp
      rw [bind_eq_ok] at h
      obtain ⟨outputs, hout, h⟩ := h
      rw [bind_eq_ok] at h
      obtain ⟨registry_ids, hreg, h⟩ := h
      rw [pure_eq_ok] at h
      subst h
      simp only [List.mem_append] at hx
      rcases hx with (hy | hy) | hy
      · exact ⟨(stepsLoop_family hxp x hy).1, (stepsLoop_family hxp x hy).2.1⟩
      · obtain ⟨o, -, ho⟩ := List.mem_filterMap.mp hy
        split at ho
        · exact absurd ho (by simp)
        · cases Option.some.inj ho
          exact ⟨rfl, rfl⟩
      · obtain ⟨o, -, ho⟩ := List.mem_filterMap.mp hy
        split at ho
        · exact absurd ho (by simp)
        · cases Option.some.inj ho
          exact ⟨rfl, rfl⟩
  all_goals
    dsimp only at h
    rw [pure_eq_ok] at h
    subst h
    rw [List.mem_singleton.mp hx]; exact ⟨rfl, rfl⟩

/-- The io-contract field fold only emits io messages. -/
theorem ioFieldsFold_family {d : String} {i : Nat} {art : JValue} :
    ∀ {fs : List String} {acc res : List LintIssue},
    (fs.foldlM (fun (acc : List LintIssue) f => do
      let c ← pyContains art f
      pure (if c then acc
        else acc ++ [(⟨"E015", .error, .ioMissingField d i f,
          .ioField d i f⟩ : LintIssue)])) acc) = .ok res →
    (∀ x ∈ acc, x.message.family = 8) → ∀ x ∈ res, x.message.family = 8 := by
  intro fs
  induction fs with
  | nil =>
      intro acc res h hacc x hx
      simp only [List.foldlM] at h
      cases h
      exact hacc x hx
  | cons f fs ih =>
      intro acc res h hacc x hx
      simp only [List.foldlM] at h
      rw [bind_eq_ok] at h
      obtain ⟨acc1, hstep, h⟩ := h
      rw [bind_eq_ok] at hstep
      obtain ⟨c, hc, hstep⟩ := hstep
      rw [pure_eq_ok] at hstep
      refine ih h ?_ x hx
      intro y hy
      subst hstep
      split at hy
      · exact hacc y hy
      · rcases List.mem_append.mp hy with hz | hz
        · exact hacc y hz
        · rw [List.mem_singleton.mp hz]; rfl

/-- Per-artifact io loop messages. -/
theorem ioArtsLoop_family {d : String} :
    ∀ {al : List JValue} {i : Nat} {l : List LintIssue},
    ioArtsLoop d i al = .ok l → ∀ x ∈ l, x.message.family = 8 := by
  intro al
  induction al with
  | nil =>
      intro i l h x hx
      simp only [ioArtsLoop] at h
      cases h
      simp at hx
  | cons art rest ih =>
      intro i l h x hx
      simp only [ioArtsLoop] at h
      rw [bind_eq_ok] at h
      obtain ⟨m1, hm1, h⟩ := h
      by_cases hd : (d == "outputs") = true
      · rw [if_pos hd] at h
        rw [bind_eq_ok] at h
        obtain ⟨sc, hsc, h⟩ := h
        by_cases hp : (sc != JValue.str "public") = true
        · rw [if_pos hp] at h
          rw [bind_eq_ok] at h
          obtain ⟨aid, haid, h⟩ := h
          rw [bind_eq_ok] at h
          obtain ⟨m2, hm2, h⟩ := h
          rw [pure_eq_ok] at hm2
          subst hm2
          rw [bind_eq_ok] at h
          obtain ⟨rest', hrest, h⟩ := h
          rw [pure_eq_ok] at h
          subst h
          simp only [List.mem_append] at hx
          rcases hx with (hy | hy) | hy
          · exact ioFieldsFold_family hm1 (by simp) x hy
          · rw [List.mem_singleton.mp hy]; rfl
          · exact ih hrest x hy
        · rw [if_neg hp] at h
          rw [bind_eq_ok] at h
          obtain ⟨m2, hm2, h⟩ := h
          rw [pure_eq_ok] at hm2
          subst hm2
          rw [bind_eq_ok] at h
          obtain ⟨rest', hrest, h⟩ := h
          rw [pure_eq_ok] at h
          subst h
          simp only [List.mem_append] at hx
          rcases hx with (hy | hy) | hy
          · exact ioFieldsFold_family hm1 (by simp) x hy
          · simp at hy
          · exact ih hrest x hy
      · rw [if_neg hd] at h
        rw [bind_eq_ok] at h
        obtain ⟨m2, hm2, h⟩ := h
        rw [pure_eq_ok] at hm2
        subst hm2
        rw [bind_eq_ok] at h
        obtain ⟨rest', hrest, h⟩ := h
        rw [pure_eq_ok] at h
        subst h
        simp only [List.mem_append] at hx
        rcases hx with (hy | hy) | hy
        · exact ioFieldsFold_family hm1 (by simp) x hy
        · simp at hy
        · exact ih hrest x hy

/-- One io direction only emits io messages. -/
theorem ioDirection_family {iokvs : List (String × JValue)} {d : String}
    {l : List LintIssue} (h : ioDirection iokvs d = .ok l) :
    ∀ x ∈ l, x.message.family = 8 := by
  intro x hx
  unfold ioDirection at h
  split at h
  · split at h
    · rw [pure_eq_ok] at h
      subst h
      rw [List.mem_singleton.mp hx]; rfl
    · exact ioArtsLoop_family h x hx
  · rw [pure_eq_ok] at h
    subst h
    rw [List.mem_singleton.mp hx]; rfl

/-- `_check_io_contract` messages. -/
theorem check_io_contract_family {data : JValue} {l : List LintIssue}
    (h : check_io_contract data = .ok l) :
    ∀ x ∈ l, x.message.family = 8 := by
  intro x hx
  unfold check_io_contract at h
  rw [bind_eq_ok] at h
  obtain ⟨io, hio, h⟩ := h
  cases io
  case obj iokvs =>
    dsimp only at h
    rw [bind_eq_ok] at h
    obtain ⟨i1, h1, h⟩ := h
    rw [bind_eq_ok] at h
    obtain ⟨i2, h2, h⟩ := h
    rw [pure_eq_ok] at h
    subst h
    rcases List.mem_append.mp hx with hy | hy
    · exact ioDirection_family h1 x hy
    · exact ioDirection_family h2 x hy
  all_goals
    dsimp only at h
    rw [pure_eq_ok] at h
    subst h
    rw [List.mem_singleton.mp hx]; rfl

/-- Test-case loop messages. -/
theorem testsLoop_family :
    ∀ {tl : List JValue} {tf : List JValue} {i : Nat}
      {iss : List LintIssue} {tfF : List JValue},
    testsLoop tf i tl = .ok (iss, tfF) →
    ∀ x ∈ iss, x.message.family = 9 := by
  intro tl
  induction tl with
  | nil =>
      intro tf i iss tfF h x hx
      simp only [testsLoop] at h
      cases h
      simp at hx
  | cons tc rest ih =>
      intro tf i iss tfF h x hx
      cases tc
      case obj kvs =>
        simp only [testsLoop] at h
        rw [bind_eq_ok] at h
        obtain ⟨k, hk, h⟩ := h
        rw [bind_eq_ok] at h
        obtain ⟨tf', htf, h⟩ := h
        rw [bind_eq_ok] at h
        obtain ⟨xp, hxp, h⟩ := h
        obtain ⟨rest', tfF'⟩ := xp
        rw [pure_eq_ok] at h
        have hiss := congrArg Prod.fst h
        simp only at hiss
        subst hiss
        simp only [List.mem_append] at hx
        rcases hx with (hy | hy) | hy
        · obtain ⟨f, -, hf⟩ := List.mem_filterMap.mp hy
          split at hf
          · exact absurd hf (by simp)
          · cases Option.some.inj hf
            rfl
        · split at hy
          · simp at hy
          · rw [List.mem_singleton.mp hy]; rfl
        · exact ih hxp x hy
      all_goals
        simp only [testsLoop] at h
        exact ih h x hx

/-- `_check_test_cases` messages. -/
theorem check_test_cases_family {data : JValue} {l : List LintIssue}
    (h : check_test_cases data = .ok l) :
    ∀ x ∈ l, x.message.family = 9 := by
  intro x hx
  unfold check_test_cases at h
  rw [bind_eq_ok] at h
  obtain ⟨tests, ht, h⟩ := h
  cases tests
  case arr tl =>
    dsimp only at h
    split at h
    · rw [pure_eq_ok] at h
      subst h
      rw [List.mem_singleton.mp hx]; rfl
    · rw [bind_eq_ok] at h
      obtain ⟨xp, hxp, h⟩ := h
      obtain ⟨i1, types_found⟩ := xp
      rw [pure_eq_ok] at h
      subst h
      simp only [List.mem_append] at hx
      rcases hx with ((hy | hy) | hy) | hy
      · exact testsLoop_family hxp x hy
      · split at hy
        · simp at hy
        · rw [List.mem_singleton.mp hy]; rfl
      · split at hy
        · simp at hy
        · rw [List.mem_singleton.mp hy]; rfl
      · split at hy
        · simp at hy
        · rw [List.mem_singleton.mp hy]; rfl
  all_goals
    dsimp only at h
    rw [pure_eq_ok] at h
    subst h
    rw [List.mem_singleton.mp hx]; rfl

/-- `_check_policies` messages. -/
theorem check_policies_family {data : JValue} {l : List LintIssue}
    (h : check_policies data = .ok l) :
    ∀ x ∈ l, x.message.family = 10 := by
  intro x hx
  unfold check_policies at h
  rw [bind_eq_ok] at h
  obtain ⟨policies, hp, h⟩ := h
  cases policies
  case obj pkvs =>
    dsimp only at h
    rw [pure_eq_ok] at h
    subst h
    rcases List.mem_append.mp hx with hy | hy
    · obtain ⟨f, -, hf⟩ := List.mem_filterMap.mp hy
      split at hf
      · exact absurd hf (by simp)
      · cases Option.some.inj hf
        rfl
    · split at hy
      · simp at hy
      · rw [List.mem_singleton.mp hy]; rfl
  all_goals
    dsimp only at h
    rw [pure_eq_ok] at h
    subst h
    rw [List.mem_singleton.mp hx]; rfl

/-- `_check_relations` messages. -/
theorem check_relations_family {data : JValue} {l : List LintIssue}
    (h : check_relations data = .ok l) :
    ∀ x ∈ l, x.message.family = 11 := by
  intro x hx
  unfold check_relations at h
  rw [bind_eq_ok] at h
  obtain ⟨relations, hr, h⟩ := h
  cases relations
  case obj rkvs =>
    dsimp only at h
    rw [pure_eq_ok] at h
    subst h
    obtain ⟨f, -, hf⟩ := List.mem_filterMap.mp hx
    split at hf
    · cases Option.some.inj hf
      rfl
    · split at hf
      · exact absurd hf (by simp)
      · cases Option.some.inj hf
        rfl
  all_goals
    dsimp only at h
    rw [pure_eq_ok] at h
    subst h
    rw [List.mem_singleton.mp hx]; rfl

/-- `_check_glossary_coverage` messages. -/
theorem check_glossary_coverage_family {glossary : Option JValue}
    {data : JValue} {l : List LintIssue}
    (h : check_glossary_coverage glossary data = .ok l) :
    ∀ x ∈ l, x.message.family = 12 := by
  intro x hx
  unfold check_glossary_coverage at h
  rw [bind_eq_ok] at h
  obtain ⟨pol, hpol, h⟩ := h
  rw [bind_eq_ok] at h
  obtain ⟨policy, hpolicy, h⟩ := h
  split at h
  · rw [pure_eq_ok] at h
    subst h
    simp at hx
  · cases glossary with
    | none =>
        dsimp only at h
        rw [bind_eq_ok] at h
        obtain ⟨y, hy, -⟩ := h
        exact absurd hy (by simp)
    | some g =>
        dsimp only at h
        rw [bind_eq_ok] at h
        obtain ⟨y, hy, h⟩ := h
        rw [pure_eq_ok] at hy
        subst hy
        rw [bind_eq_ok] at h
        obtain ⟨termsRaw, hterms, h⟩ := h
        rw [bind_eq_ok] at h
        obtain ⟨tk, htk, h⟩ := h
        rw [bind_eq_ok] at h
        obtain ⟨abbr, habbr, h⟩ := h
        split at h
        · rw [bind_eq_ok] at h
          obtain ⟨mem, hmem, h⟩ := h
          cases mem
          · rw [if_pos (by simp)] at h
            split at h
            · rw [pure_eq_ok] at h
              subst h
              rw [List.mem_singleton.mp hx]; rfl
            · rw [pure_eq_ok] at h
              subst h
              rw [List.mem_singleton.mp hx]; rfl
          · rw [if_neg (by simp), pure_eq_ok] at h
            subst h
            simp at hx
        · rw [pure_eq_ok] at h
          subst h
          simp at hx

/-- Decomposition of a successful validation into its issue collection and
the aggregation the source performs on it. -/
theorem validate_contract_ok {g : Option JValue} {p : String} {doc : JValue}
    {r : LintResult} (h : validate_contract g p doc = .ok r) :
    ∃ issues, collect_issues g doc = .ok issues ∧
      r.errors = issues.filter (fun x => x.severity = Severity.error) ∧
      r.warnings = issues.filter (fun x => x.severity = Severity.warning) ∧
      r.passed = (r.errors.length == 0) ∧
      r.score = calculate_score r.errors r.warnings ∧
      r.file_path = p := by
  unfold validate_contract at h
  rw [bind_eq_ok] at h
  obtain ⟨issues, hcol, h⟩ := h
  rw [pure_eq_ok] at h
  subst h
  exact ⟨issues, hcol, rfl, rfl, rfl, rfl, rfl⟩

/-- Decomposition of a successful issue collection into the thirteen check
runs, in source order. -/
theorem collect_issues_parts {g : Option JValue} {doc : JValue}
    {issues : List LintIssue} (h : collect_issues g doc = .ok issues) :
    ∃ i1 i2 i3 i4 i5 i6 i7 i8 i9 i10 i11 i12 i13,
      check_required_fields doc = .ok i1 ∧
      check_schema_block doc = .ok i2 ∧
      check_module_identity doc = .ok i3 ∧
      check_parameters doc = .ok i4 ∧
      check_constraints doc = .ok i5 ∧
      check_validation_rules doc = .ok i6 ∧
      check_error_codes doc = .ok i7 ∧
      check_algorithm doc = .ok i8 ∧
      check_io_contract doc = .ok i9 ∧
      check_test_cases doc = .ok i10 ∧
      check_policies doc = .ok i11 ∧
      check_relations doc = .ok i12 ∧
      (if pyOptTruthy g then check_glossary_coverage g doc
        else pure []) = .ok i13 ∧
      issues = i1 ++ i2 ++ i3 ++ i4 ++ i5 ++ i6 ++ i7 ++ i8 ++ i9 ++ i10 ++
        i11 ++ i12 ++ i13 := by
  unfold collect_issues at h
  rw [bind_eq_ok] at h
  obtain ⟨i1, h1, h⟩ := h
  rw [bind_eq_ok] at h
  obtain ⟨i2, h2, h⟩ := h
  rw [bind_eq_ok] at h
  obtain ⟨i3, h3, h⟩ := h
  rw [bind_eq_ok] at h
  obtain ⟨i4, h4, h⟩ := h
  rw [bind_eq_ok] at h
  obtain ⟨i5, h5, h⟩ := h
  rw [bind_eq_ok] at h
  obtain ⟨i6, h6, h⟩ := h
  rw [bind_eq_ok] at h
  obtain ⟨i7, h7, h⟩ := h
  rw [bind_eq_ok] at h
  obtain ⟨i8, h8, h⟩ := h
  rw [bind_eq_ok] at h
  obtain ⟨i9, h9, h⟩ := h
  rw [bind_eq_ok] at h
  obtain ⟨i10, h10, h⟩ := h
  rw [bind_eq_ok] at h
  obtain ⟨i11, h11, h⟩ := h
  rw [bind_eq_ok] at h
  obtain ⟨i12, h12, h⟩ := h
  dsimp only at h
  by_cases hg : pyOptTruthy g = true
  · rw [if_pos hg] at h
    rw [bind_eq_ok] at h
    obtain ⟨i13, h13, h⟩ := h
    rw [pure_eq_ok] at h
    subst h
    exact ⟨i1, i2, i3, i4, i5, i6, i7, i8, i9, i10, i11, i12, i13,
      h1, h2, h3, h4, h5, h6, h7, h8, h9, h10, h11, h12,
      by rw [if_pos hg]; exact h13, rfl⟩
  · rw [if_neg hg] at h
    rw [bind_eq_ok] at h
    obtain ⟨i13, h13, h⟩ := h
    rw [pure_eq_ok] at h13
    subst h13
    rw [pure_eq_ok] at h
    subst h
    exact ⟨i1, i2, i3, i4, i5, i6, i7, i8, i9, i10, i11, i12, [],
      h1, h2, h3, h4, h5, h6, h7, h8, h9, h10, h11, h12,
      by rw [if_neg hg]; rfl, rfl⟩

/-- A count is zero on issues of a different family. -/
theorem countP_zero_of_family {l : List LintIssue} {q : LintIssue → Bool}
    {K C : Nat} (hfam : ∀ x ∈ l, x.message.family = C)
    (hq : ∀ x, q x = true → x.message.family = K) (hne : C ≠ K) :
    l.countP q = 0 := by
  refine List.countP_eq_zero.mpr ?_
  intro x hx hqx
  exact hne ((hfam x hx).symm.trans (hq x hqx))

/-- On an all-error list, the error-severity conjunct is redundant. -/
theorem countP_and_err {l : List LintIssue}
    (hall : ∀ x ∈ l, x.severity = Severity.error) (q : LintIssue → Bool) :
    l.countP (fun x => q x && decide (x.severity = Severity.error)) =
      l.countP q := by
  refine List.countP_congr ?_
  intro x hx
  simp [hall x hx]

/-- A family-7 (algorithm) count over the error findings of a successful
validation equals its count over the algorithm check alone. -/
theorem errors_countP_alg {g : Option JValue} {p : String} {doc : JValue}
    {r : LintResult} (h : validate_contract g p doc = .ok r)
    {q : LintIssue → Bool} (hq : ∀ x, q x = true → x.message.family = 7) :
    ∃ i8, check_algorithm doc = .ok i8 ∧ r.errors.countP q = i8.countP q := by
  obtain ⟨issues, hcol, herr, -, -, -, -⟩ := validate_contract_ok h
  obtain ⟨i1, i2, i3, i4, i5, i6, i7, i8, i9, i10, i11, i12, i13,
    h1, h2, h3, h4, h5, h6, h7, h8, h9, h10, h11, h12, h13, hsum⟩ :=
    collect_issues_parts hcol
  refine ⟨i8, h8, ?_⟩
  have hq' : ∀ x, (q x && decide (x.severity = Severity.error)) = true →
      x.message.family = 7 := by
    intro x hx
    exact hq x (by simpa using And.left (by simpa using hx : q x = true ∧ decide (x.severity = Severity.error) = true))
  have hfilter : r.errors.countP q =
      issues.countP (fun x => q x && decide (x.severity = Severity.error)) := by
    rw [herr, List.countP_filter]
  rw [hfilter, hsum]
  simp only [List.countP_append]
  rw [countP_zero_of_family (check_required_fields_family h1) hq' (by decide),
    countP_zero_of_family (check_schema_block_family h2) hq' (by decide),
    countP_zero_of_family (check_module_identity_family h3) hq' (by decide),
    countP_zero_of_family (check_parameters_family h4) hq' (by decide),
    countP_zero_of_family (check_constraints_family h5) hq' (by decide),
    countP_zero_of_family (check_validation_rules_family h6) hq' (by decide),
    countP_zero_of_family (fun x hx => (check_error_codes_family h7 x hx).1)
      hq' (by decide),
    countP_zero_of_family (check_io_contract_family h9) hq' (by decide),
    countP_zero_of_family (check_test_cases_family h10) hq' (by decide),
    countP_zero_of_family (check_policies_family h11) hq' (by decide),
    countP_zero_of_family (check_relations_family h12) hq' (by decide)]
  have h13z : i13.countP (fun x => q x && decide
      (x.severity = Severity.error)) = 0 := by
    by_cases hg : pyOptTruthy g = true
    · rw [if_pos hg] at h13
      exact countP_zero_of_family (check_glossary_coverage_family h13) hq'
        (by decide)
    · rw [if_neg hg, pure_eq_ok] at h13
      subst h13
      rfl
  rw [h13z]
  have h8e := countP_and_err
    (fun x hx => (check_algorithm_family h8 x hx).2) q
  omega

/-- A family-6 (error-code registry) count over the error findings of a
successful validation equals its count over the registry check alone. -/
theorem errors_countP_ec {g : Option JValue} {p : String} {doc : JValue}
    {r : LintResult} (h : validate_contract g p doc = .ok r)
    {q : LintIssue → Bool} (hq : ∀ x, q x = true → x.message.family = 6) :
    ∃ i7, check_error_codes doc = .ok i7 ∧ r.errors.countP q = i7.countP q := by
  obtain ⟨issues, hcol, herr, -, -, -, -⟩ := validate_contract_ok h
  obtain ⟨i1, i2, i3, i4, i5, i6, i7, i8, i9, i10, i11, i12, i13,
    h1, h2, h3, h4, h5, h6, h7, h8, h9, h10, h11, h12, h13, hsum⟩ :=
    collect_issues_parts hcol
  refine ⟨i7, h7, ?_⟩
  have hq' : ∀ x, (q x && decide (x.severity = Severity.error)) = true →
      x.message.family = 6 := by
    intro x hx
    exact hq x (by simpa using And.left (by simpa using hx : q x = true ∧ decide (x.severity = Severity.error) = true))
  have hfilter : r.errors.countP q =
      issues.countP (fun x => q x && decide (x.severity = Severity.error)) := by
    rw [herr, List.countP_filter]
  rw [hfilter, hsum]
  simp only [List.countP_append]
  rw [countP_zero_of_family (check_required_fields_family h1) hq' (by decide),
    countP_zero_of_family (check_schema_block_family h2) hq' (by decide),
    countP_zero_of_family (check_module_identity_family h3) hq' (by decide),
    countP_zero_of_family (check_parameters_family h4) hq' (by decide),
    countP_zero_of_family (check_constraints_family h5) hq' (by decide),
    countP_zero_of_family (check_validation_rules_family h6) hq' (by decide),
    countP_zero_of_family (fun x hx => (check_algorithm_family h8 x hx).1)
      hq' (by decide),
    countP_zero_of_family (check_io_contract_family h9) hq' (by decide),
    countP_zero_of_family (check_test_cases_family h10) hq' (by decide),
    countP_zero_of_family (check_policies_family h11) hq' (by decide),
    countP_zero_of_family (check_relations_family h12) hq' (by decide)]
  have h13z : i13.countP (fun x => q x && decide
      (x.severity = Severity.error)) = 0 := by
    by_cases hg : pyOptTruthy g = true
    · rw [if_pos hg] at h13
      exact countP_zero_of_family (check_glossary_coverage_family h13) hq'
        (by decide)
    · rw [if_neg hg, pure_eq_ok] at h13
      subst h13
      rfl
  rw [h13z]
  have h7e := countP_and_err
    (fun x hx => (check_error_codes_family h7 x hx).2) q
  omega

/-- Inversion of a successful algorithm check on a document whose step
list is a non-empty JSON array: the check ran the data-flow loop and the
two output walks, and its issues are exactly their concatenation. -/
theorem check_algorithm_inv {doc : JValue} {i8 : List LintIssue}
    (h8 : check_algorithm doc = .ok i8)
    {steps : List JValue} (hsteps : algoStepsOf doc = some steps)
    (hne : steps ≠ []) :
    ∃ avail iss produced outs rids regv,
      dataflow_available doc = .ok avail ∧
      stepsLoop avail [] 0 steps = .ok (iss, produced) ∧
      io_outputs_ids doc = .ok outs ∧
      algoRegistryVal doc = some regv ∧
      registry_ids_of regv = .ok rids ∧
      i8 = iss ++
        outs.filterMap (fun o => if produced.contains o then none
          else some (⟨"E062", .error, .outputNotProduced o,
            .ioDir "outputs"⟩ : LintIssue)) ++
        outs.filterMap (fun o => if rids.contains o then none
          else some (⟨"E070", .error, .outputNotInRegistry o,
            .algoRegistry⟩ : LintIssue)) := by
  cases doc with
  | obj kvs =>
      simp only [algoStepsOf] at hsteps
      cases halg : objGetD kvs "algorithm" (.obj []) with
      | obj akvs =>
          rw [halg] at hsteps
          dsimp only at hsteps
          cases hst : objGetD akvs "steps" (.arr []) with
          | arr sl =>
              rw [hst] at hsteps
              dsimp only at hsteps
              simp only [Option.some.injEq] at hsteps
              subst hsteps
              unfold check_algorithm at h8
              rw [bind_eq_ok] at h8
              obtain ⟨algv, halgv, h8⟩ := h8
              have hred : pyGetD (JValue.obj kvs) "algorithm" (.obj []) =
                  .ok (objGetD kvs "algorithm" (.obj [])) := rfl
              rw [hred, halg] at halgv
              have halgv' := Except.ok.inj halgv
              subst halgv'
              dsimp only at h8
              rw [hst] at h8
              have htr : (!(JValue.arr sl).truthy) = false := by
                simp [JValue.truthy, hne]
              rw [htr] at h8
              rw [if_neg (by simp)] at h8
              rw [bind_eq_ok] at h8
              obtain ⟨avail, hav, h8⟩ := h8
              rw [bind_eq_ok] at h8
              obtain ⟨stepsL, hsl, h8⟩ := h8
              simp only [pyIter, Except.ok.injEq] at hsl
              subst hsl
              rw [bind_eq_ok] at h8
              obtain ⟨xp, hxp, h8⟩ := h8
              obtain ⟨iss, produced⟩ := xp
              rw [bind_eq_ok] at h8
              obtain ⟨outs, houts, h8⟩ := h8
              rw [bind_eq_ok] at h8
              obtain ⟨rids, hrids, h8⟩ := h8
              rw [pure_eq_ok] at h8
              subst h8
              exact ⟨avail, iss, produced, outs, rids,
                objGetD akvs "artifact_registry" (.arr []), hav, hxp, houts,
                by simp [algoRegistryVal, halg], hrids, rfl⟩
          | null => rw [hst] at hsteps; simp at hsteps
          | bool b => rw [hst] at hsteps; simp at hsteps
          | num n => rw [hst] at hsteps; simp at hsteps
          | str s => rw [hst] at hsteps; simp at hsteps
          | obj o => rw [hst] at hsteps; simp at hsteps
      | null => rw [halg] at hsteps; simp at hsteps
      | bool b => rw [halg] at hsteps; simp at hsteps
      | num n => rw [halg] at hsteps; simp at hsteps
      | str s => rw [halg] at hsteps; simp at hsteps
      | arr a => rw [halg] at hsteps; simp at hsteps
  | null => simp [algoStepsOf] at hsteps
  | bool b => simp [algoStepsOf] at hsteps
  | num n => simp [algoStepsOf] at hsteps
  | str s => simp [algoStepsOf] at hsteps
  | arr a => simp [algoStepsOf] at hsteps

/-- Inversion of a successful registry check on a document whose
error_codes is a non-empty JSON array: the issues are the loop's. -/
theorem check_error_codes_inv {doc : JValue} {i7 : List LintIssue}
    (h7 : check_error_codes doc = .ok i7)
    {l : List JValue} (hl : errorCodesOf doc = some l) (hne : l ≠ []) :
    ecLoop [] 0 l = .ok i7 := by
  cases doc with
  | obj kvs =>
      simp only [errorCodesOf] at hl
      cases hec : objGetD kvs "error_codes" (.arr []) with
      | arr el =>
          rw [hec] at hl
          dsimp only at hl
          simp only [Option.some.injEq] at hl
          subst hl
          unfold check_error_codes at h7
          rw [bind_eq_ok] at h7
          obtain ⟨ecv, hecv, h7⟩ := h7
          have hred : pyGetD (JValue.obj kvs) "error_codes" (.arr []) =
              .ok (objGetD kvs "error_codes" (.arr [])) := rfl
          rw [hred, hec] at hecv
          have hecv' := Except.ok.inj hecv
          subst hecv'
          dsimp only at h7
          rw [if_neg (by simpa using hne)] at h7
          exact h7
      | null => rw [hec] at hl; simp at hl
      | bool b => rw [hec] at hl; simp at hl
      | num n => rw [hec] at hl; simp at hl
      | str s => rw [hec] at hl; simp at hl
      | obj o => rw [hec] at hl; simp at hl
  | null => simp [errorCodesOf] at hl
  | bool b => simp [errorCodesOf] at hl
  | num n => simp [errorCodesOf] at hl
  | str s => simp [errorCodesOf] at hl
  | arr a => simp [errorCodesOf] at hl

/-- The E061 count over a successful validation: with the step list, the
initial available set, and the pure produced-set accumulation in hand, the
error findings contain exactly one uses-unknown finding per occurrence of
the artifact in the step's uses list, when the artifact is unavailable. -/
theorem validate_e061 {g : Option JValue} {p : String} {doc : JValue}
    {r : LintResult} (h : validate_contract g p doc = .ok r)
    {steps : List JValue} (hsteps : algoStepsOf doc = some steps)
    {i : Nat} {step : JValue} (hstep : steps.get? i = some step)
    {avail : List JValue} (havail : dataflow_available doc = .ok avail)
    (a : JValue) (hna : avail.contains a = false)
    (hnp : (producedThrough [] (steps.take i)).contains a = false) :
    countMsg r.errors (.stepUsesUnknown i a) = (usesOfPure step).count a := by
  have hne : steps ≠ [] := by
    intro he
    subst he
    simp at hstep
  have hq : ∀ x : LintIssue,
      (decide (x.message = Msg.stepUsesUnknown i a)) = true →
      x.message.family = 7 := by
    intro x hx
    rw [decide_eq_true_eq] at hx
    rw [hx]; rfl
  obtain ⟨i8, h8, hcnt⟩ := errors_countP_alg h hq
  obtain ⟨avail', iss, produced, outs, rids, regv, hav', hloop, houts, hreg,
    hrid, hi8⟩ := check_algorithm_inv h8 hsteps hne
  have havq : avail' = avail := Except.ok.inj (hav'.symm.trans havail)
  rw [havq] at hloop
  have hc8 : countMsg i8 (.stepUsesUnknown i a) =
      e061count steps avail [] 0 i a := by
    rw [hi8, countMsg_append, countMsg_append, stepsLoop_count hloop i a]
    have z1 : countMsg (outs.filterMap (fun o =>
        if produced.contains o then none
        else some (⟨"E062", .error, .outputNotProduced o,
          .ioDir "outputs"⟩ : LintIssue))) (.stepUsesUnknown i a) = 0 := by
      apply countMsg_eq_zero
      intro x hx
      obtain ⟨o, -, ho⟩ := List.mem_filterMap.mp hx
      split at ho
      · exact absurd ho (by simp)
      · cases Option.some.inj ho
        simp
    have z2 : countMsg (outs.filterMap (fun o =>
        if rids.contains o then none
        else some (⟨"E070", .error, .outputNotInRegistry o,
          .algoRegistry⟩ : LintIssue))) (.stepUsesUnknown i a) = 0 := by
      apply countMsg_eq_zero
      intro x hx
      obtain ⟨o, -, ho⟩ := List.mem_filterMap.mp hx
      split at ho
      · exact absurd ho (by simp)
      · cases Option.some.inj ho
        simp
    rw [z1, z2]
    omega
  have hget := e061count_get steps avail [] 0 i a
  rw [Nat.zero_add] at hget
  have : countMsg r.errors (.stepUsesUnknown i a) = countMsg i8
      (.stepUsesUnknown i a) := hcnt
  rw [this, hc8, hget, hstep]
  have hna2 : a ∉ avail := by simpa using hna
  have hnp2 : a ∉ producedThrough [] (steps.take i) := by simpa using hnp
  simp [hna2, hnp2]

/-- A successful outputs-id computation yields a duplicate-free list. -/
theorem io_outputs_ids_nodup {doc : JValue} {outs : List JValue}
    (h : io_outputs_ids doc = .ok outs) : outs.Nodup := by
  unfold io_outputs_ids at h
  rw [bind_eq_ok] at h
  obtain ⟨io2, h1, h⟩ := h
  rw [bind_eq_ok] at h
  obtain ⟨outRaw, h2, h⟩ := h
  rw [bind_eq_ok] at h
  obtain ⟨outL, h3, h⟩ := h
  exact artifactIdSet_nodup h List.nodup_nil

/-- The E062 and E070 counts over a successful validation: for a declared
output id, exactly one not-produced finding when it is outside the final
produced set, and exactly one not-in-registry finding when it is outside
the registry id set. -/
theorem validate_outputs {g : Option JValue} {p : String} {doc : JValue}
    {r : LintResult} (h : validate_contract g p doc = .ok r)
    {steps : List JValue} (hsteps : algoStepsOf doc = some steps)
    (hne : steps ≠ [])
    {outs : List JValue} (houts : io_outputs_ids doc = .ok outs)
    {regv : JValue} (hreg : algoRegistryVal doc = some regv)
    {rids : List JValue} (hrid : registry_ids_of regv = .ok rids)
    {o : JValue} (ho : o ∈ outs) :
    countMsg r.errors (.outputNotProduced o) =
      (if (producedThrough [] steps).contains o then 0 else 1) ∧
    countMsg r.errors (.outputNotInRegistry o) =
      (if rids.contains o then 0 else 1) := by
  have hq1 : ∀ x : LintIssue,
      (decide (x.message = Msg.outputNotProduced o)) = true →
      x.message.family = 7 := by
    intro x hx
    rw [decide_eq_true_eq] at hx
    rw [hx]; rfl
  have hq2 : ∀ x : LintIssue,
      (decide (x.message = Msg.outputNotInRegistry o)) = true →
      x.message.family = 7 := by
    intro x hx
    rw [decide_eq_true_eq] at hx
    rw [hx]; rfl
  obtain ⟨i8, h8, hcnt1⟩ := errors_countP_alg h hq1
  obtain ⟨i8', h8', hcnt2⟩ := errors_countP_alg h hq2
  have hi8q : i8' = i8 := Except.ok.inj (h8'.symm.trans h8)
  rw [hi8q] at hcnt2
  obtain ⟨avail, iss, produced, outs', rids', regv', hav, hloop, houts',
    hreg', hrid', hi8⟩ := check_algorithm_inv h8 hsteps hne
  have houtq : outs' = outs := Except.ok.inj (houts'.symm.trans houts)
  have hregq : regv' = regv := Option.some.inj (hreg'.symm.trans hreg)
  have hridq : rids' = rids := by
    rw [hregq] at hrid'
    exact Except.ok.inj (hrid'.symm.trans hrid)
  have hprod : produced = producedThrough [] steps := stepsLoop_prod hloop
  rw [houtq, hridq, hprod] at hi8
  have hnd : outs.Nodup := io_outputs_ids_nodup houts
  have hz1 : ∀ m : Msg, m.isStepMsg = false → countMsg iss m = 0 := by
    intro m hm
    apply countMsg_eq_zero
    intro x hx he
    have := (stepsLoop_family hloop x hx).2.2
    rw [he, hm] at this
    exact Bool.false_ne_true this
  constructor
  · have : countMsg r.errors (.outputNotProduced o) =
        countMsg i8 (.outputNotProduced o) := hcnt1
    rw [this, hi8, countMsg_append, countMsg_append,
      hz1 (.outputNotProduced o) rfl]
    have hcA := filterMapSet_count
      (fun x => (⟨"E062", .error, .outputNotProduced x,
        .ioDir "outputs"⟩ : LintIssue)) Msg.outputNotProduced
      (fun x => rfl) (fun x y hxy => by simpa using hxy)
      outs hnd (producedThrough [] steps) o
    have hcB : countMsg (outs.filterMap (fun x =>
        if rids.contains x then none
        else some (⟨"E070", .error, .outputNotInRegistry x,
          .algoRegistry⟩ : LintIssue))) (.outputNotProduced o) = 0 := by
      apply countMsg_eq_zero
      intro x hx
      obtain ⟨o', -, ho'⟩ := List.mem_filterMap.mp hx
      split at ho'
      · exact absurd ho' (by simp)
      · cases Option.some.inj ho'
        simp
    rw [hcA, hcB]
    simp [ho]
  · have : countMsg r.errors (.outputNotInRegistry o) =
        countMsg i8 (.outputNotInRegistry o) := hcnt2
    rw [this, hi8, countMsg_append, countMsg_append,
      hz1 (.outputNotInRegistry o) rfl]
    have hcA := filterMapSet_count
      (fun x => (⟨"E070", .error, .outputNotInRegistry x,
        .algoRegistry⟩ : LintIssue)) Msg.outputNotInRegistry
      (fun x => rfl) (fun x y hxy => by simpa using hxy)
      outs hnd rids o
    have hcB : countMsg (outs.filterMap (fun x =>
        if (producedThrough [] steps).contains x then none
        else some (⟨"E062", .error, .outputNotProduced x,
          .ioDir "outputs"⟩ : LintIssue))) (.outputNotInRegistry o) = 0 := by
      apply countMsg_eq_zero
      intro x hx
      obtain ⟨o', -, ho'⟩ := List.mem_filterMap.mp hx
      split at ho'
      · exact absurd ho' (by simp)
      · cases Option.some.inj ho'
        simp
    rw [hcA, hcB]
    simp [ho]

/-- The E051 count over a successful validation: for the registry entry at
a given index, exactly one duplicate finding at that entry's path when its
code value was already seen earlier, and none when it is the first
occurrence. -/
theorem validate_e051 {g : Option JValue} {p : String} {doc : JValue}
    {r : LintResult} (h : validate_contract g p doc = .ok r)
    {l : List JValue} (hl : errorCodesOf doc = some l)
    {i : Nat} {kvs : List (String × JValue)}
    (hent : l.get? i = some (.obj kvs)) :
    countMsgPath r.errors (.ecDuplicate (objGetD kvs "code" (.str "")))
      (.errorCodeField i "code") =
      if (ecSeenThrough [] (l.take i)).contains
          (objGetD kvs "code" (.str ""))
      then 1 else 0 := by
  have hne : l ≠ [] := by
    intro he
    subst he
    simp at hent
  have hq : ∀ x : LintIssue,
      (decide (x.message = Msg.ecDuplicate (objGetD kvs "code" (.str ""))) &&
        decide (x.path = Pth.errorCodeField i "code")) = true →
      x.message.family = 6 := by
    intro x hx
    simp only [Bool.and_eq_true, decide_eq_true_eq] at hx
    rw [hx.1]; rfl
  obtain ⟨i7, h7, hcnt⟩ := errors_countP_ec h hq
  have hinv := check_error_codes_inv h7 hl hne
  have hloop := ecLoop_count hinv i (objGetD kvs "code" (.str ""))
  have hget := e051count_get l [] 0 i (objGetD kvs "code" (.str ""))
  rw [Nat.zero_add] at hget
  have hfin : countMsgPath r.errors
      (.ecDuplicate (objGetD kvs "code" (.str "")))
      (.errorCodeField i "code") = e051count l [] 0 i
      (objGetD kvs "code" (.str "")) := by
    rw [← hloop]
    exact hcnt
  rw [hfin, hget, hent]
  simp

/-- Reduction of a bind whose scrutinee is a known ok. -/
theorem ok_bind {ε α β : Type} (a : α) (f : α → Except ε β) :
    (Except.ok a : Except ε α) >>= f = f a := rfl

/-- When the policy is off, the glossary check reports nothing. -/
theorem check_glossary_off {g : Option JValue} {doc : JValue}
    (hpol : glossaryPolicyOf doc = some (.str "off")) :
    check_glossary_coverage g doc = .ok [] := by
  cases doc with
  | obj kvs =>
      simp only [glossaryPolicyOf] at hpol
      cases hpk : objGetD kvs "policies" (.obj []) with
      | obj pkvs =>
          rw [hpk] at hpol
          dsimp only at hpol
          simp only [Option.some.injEq] at hpol
          unfold check_glossary_coverage
          rw [show pyGetD (JValue.obj kvs) "policies" (.obj []) =
            .ok (objGetD kvs "policies" (.obj [])) from rfl, hpk, ok_bind]
          rw [show pyGetD (JValue.obj pkvs) "glossary_policy" (.str "off") =
            .ok (objGetD pkvs "glossary_policy" (.str "off")) from rfl, hpol,
            ok_bind]
          rw [if_pos (by simp)]
          rfl
      | null => rw [hpk] at hpol; simp at hpol
      | bool b => rw [hpk] at hpol; simp at hpol
      | num n => rw [hpk] at hpol; simp at hpol
      | str s => rw [hpk] at hpol; simp at hpol
      | arr a => rw [hpk] at hpol; simp at hpol
  | null => simp [glossaryPolicyOf] at hpol
  | bool b => simp [glossaryPolicyOf] at hpol
  | num n => simp [glossaryPolicyOf] at hpol
  | str s => simp [glossaryPolicyOf] at hpol
  | arr a => simp [glossaryPolicyOf] at hpol

/-- The glossary check on a truthy glossary, an enabled policy, and a
non-empty module code absent from the term set: exactly one finding, an
E100 error under strict and a W101 warning under any other policy. -/
theorem check_glossary_exact {gv doc policy : JValue}
    {tkvs : List (String × JValue)} {s : String}
    (hpol : glossaryPolicyOf doc = some policy)
    (hoff : policy ≠ .str "off")
    (htru : gv.truthy = true)
    (hterms : pyGetD gv "terms" (.obj []) = .ok (.obj tkvs))
    (habbr : moduleAbbrOf doc = some (.str s))
    (hs : s ≠ "")
    (hmem : ((tkvs.map Prod.fst).map JValue.str).contains (.str s) = false) :
    check_glossary_coverage (some gv) doc =
      .ok [⟨if policy = .str "strict" then "E100" else "W101",
            if policy = .str "strict" then .error else .warning,
            .glossaryAbbrMissing (.str s), .topField "module_abbr"⟩] := by
  cases doc with
  | obj kvs =>
      simp only [glossaryPolicyOf] at hpol
      simp only [moduleAbbrOf, Option.some.injEq] at habbr
      cases hpk : objGetD kvs "policies" (.obj []) with
      | obj pkvs =>
          rw [hpk] at hpol
          dsimp only at hpol
          simp only [Option.some.injEq] at hpol
          unfold check_glossary_coverage
          rw [show pyGetD (JValue.obj kvs) "policies" (.obj []) =
            .ok (objGetD kvs "policies" (.obj [])) from rfl, hpk, ok_bind]
          rw [show pyGetD (JValue.obj pkvs) "glossary_policy" (.str "off") =
            .ok (objGetD pkvs "glossary_policy" (.str "off")) from rfl, hpol,
            ok_bind]
          rw [if_neg (by simp [pyOptTruthy, htru, hoff])]
          dsimp only
          rw [show (pure gv : Except PyErr JValue) = .ok gv from rfl, ok_bind]
          rw [hterms, ok_bind]
          rw [show pyKeys (JValue.obj tkvs) = .ok (tkvs.map Prod.fst)
            from rfl, ok_bind]
          rw [show pyGetD (JValue.obj kvs) "module_abbr" (.str "") =
            .ok (objGetD kvs "module_abbr" (.str "")) from rfl, habbr,
            ok_bind]
          rw [if_pos (by simp [JValue.truthy, hs])]
          rw [show pyMem (JValue.str s) ((tkvs.map Prod.fst).map JValue.str) =
            .ok (((tkvs.map Prod.fst).map JValue.str).contains (.str s))
            from rfl, hmem, ok_bind]
          rw [if_pos (by simp)]
          by_cases hstrict : policy = JValue.str "strict"
          · rw [if_pos hstrict, if_pos hstrict, if_pos hstrict]
            rfl
          · rw [if_neg hstrict, if_neg hstrict, if_neg hstrict]
            rfl
      | null => rw [hpk] at hpol; simp at hpol
      | bool b => rw [hpk] at hpol; simp at hpol
      | num n => rw [hpk] at hpol; simp at hpol
      | str s => rw [hpk] at hpol; simp at hpol
      | arr a => rw [hpk] at hpol; simp at hpol
  | null => simp [glossaryPolicyOf] at hpol
  | bool b => simp [glossaryPolicyOf] at hpol
  | num n => simp [glossaryPolicyOf] at hpol
  | str s => simp [glossaryPolicyOf] at hpol
  | arr a => simp [glossaryPolicyOf] at hpol

/-- A family-12 (glossary) count over the findings of a successful
validation: zero when the engine glossary is falsy, and otherwise equal to
its count over the glossary check alone, split by severity. -/
theorem glossary_countP {g : Option JValue} {p : String} {doc : JValue}
    {r : LintResult} (h : validate_contract g p doc = .ok r)
    {q : LintIssue → Bool} (hq : ∀ x, q x = true → x.message.family = 12) :
    (pyOptTruthy g = false →
      r.errors.countP q = 0 ∧ r.warnings.countP q = 0) ∧
    (pyOptTruthy g = true → ∃ i13,
      check_glossary_coverage g doc = .ok i13 ∧
      r.errors.countP q =
        i13.countP (fun x => q x && decide (x.severity = Severity.error)) ∧
      r.warnings.countP q =
        i13.countP (fun x => q x && decide (x.severity = Severity.warning))) := by
  obtain ⟨issues, hcol, herr, hwarn, -, -, -⟩ := validate_contract_ok h
  obtain ⟨i1, i2, i3, i4, i5, i6, i7, i8, i9, i10, i11, i12, i13,
    h1, h2, h3, h4, h5, h6, h7, h8, h9, h10, h11, h12, h13, hsum⟩ :=
    collect_issues_parts hcol
  have hqe : ∀ x, (q x && decide (x.severity = Severity.error)) = true →
      x.message.family = 12 := by
    intro x hx
    simp only [Bool.and_eq_true] at hx
    exact hq x hx.1
  have hqw : ∀ x, (q x && decide (x.severity = Severity.warning)) = true →
      x.message.family = 12 := by
    intro x hx
    simp only [Bool.and_eq_true] at hx
    exact hq x hx.1
  have herrC : r.errors.countP q =
      i13.countP (fun x => q x && decide (x.severity = Severity.error)) := by
    rw [herr, List.countP_filter, hsum]
    simp only [List.countP_append]
    rw [countP_zero_of_family (check_required_fields_family h1) hqe (by decide),
      countP_zero_of_family (check_schema_block_family h2) hqe (by decide),
      countP_zero_of_family (check_module_identity_family h3) hqe (by decide),
      countP_zero_of_family (check_parameters_family h4) hqe (by decide),
      countP_zero_of_family (check_constraints_family h5) hqe (by decide),
      countP_zero_of_family (check_validation_rules_family h6) hqe (by decide),
      countP_zero_of_family (fun x hx => (check_error_codes_family h7 x hx).1)
        hqe (by decide),
      countP_zero_of_family (fun x hx => (check_algorithm_family h8 x hx).1)
        hqe (by decide),
      countP_zero_of_family (check_io_contract_family h9) hqe (by decide),
      countP_zero_of_family (check_test_cases_family h10) hqe (by decide),
      countP_zero_of_family (check_policies_family h11) hqe (by decide),
      countP_zero_of_family (check_relations_family h12) hqe (by decide)]
    omega
  have hwarnC : r.warnings.countP q =
      i13.countP (fun x => q x && decide (x.severity = Severity.warning)) := by
    rw [hwarn, List.countP_filter, hsum]
    simp only [List.countP_append]
    rw [countP_zero_of_family (check_required_fields_family h1) hqw (by decide),
      countP_zero_of_family (check_schema_block_family h2) hqw (by decide),
      countP_zero_of_family (check_module_identity_family h3) hqw (by decide),
      countP_zero_of_family (check_parameters_family h4) hqw (by decide),
      countP_zero_of_family (check_constraints_family h5) hqw (by decide),
      countP_zero_of_family (check_validation_rules_family h6) hqw (by decide),
      countP_zero_of_family (fun x hx => (check_error_codes_family h7 x hx).1)
        hqw (by decide),
      countP_zero_of_family (fun x hx => (check_algorithm_family h8 x hx).1)
        hqw (by decide),
      countP_zero_of_family (check_io_contract_family h9) hqw (by decide),
      countP_zero_of_family (check_test_cases_family h10) hqw (by decide),
      countP_zero_of_family (check_policies_family h11) hqw (by decide),
      countP_zero_of_family (check_relations_family h12) hqw (by decide)]
    omega
  constructor
  · intro hg
    rw [hg] at h13
    rw [if_neg (by simp), pure_eq_ok] at h13
    subst h13
    exact ⟨by rw [herrC]; rfl, by rw [hwarnC]; rfl⟩
  · intro hg
    rw [if_pos hg] at h13
    exact ⟨i13, h13, herrC, hwarnC⟩

/-- Path counting splits over appends. -/
theorem countPath_append (l1 l2 : List LintIssue) (p : Pth) :
    countPath (l1 ++ l2) p = countPath l1 p + countPath l2 p :=
  List.countP_append _ _ _

/-- Path count of a singleton. -/
theorem countPath_singleton (x : LintIssue) (p : Pth) :
    countPath [x] p = if x.path = p then 1 else 0 := by
  simp only [countPath, List.countP_cons, List.countP_nil, Nat.zero_add]
  by_cases hx : x.path = p <;> simp [hx]

/-- A path count is zero when no element carries the path. -/
theorem countPath_eq_zero {l : List LintIssue} {p : Pth}
    (h : ∀ x ∈ l, x.path ≠ p) : countPath l p = 0 := by
  refine List.countP_eq_zero.mpr ?_
  intro x hx
  simp [h x hx]

/-- The required-fields loop reports one finding at the field path for
each missing field of its (duplicate-free) field list. -/
theorem reqFieldsLoop_countPath {kvs : List (String × JValue)} :
    ∀ {fs : List String} {l : List LintIssue},
    reqFieldsLoop (.obj kvs) fs = .ok l → fs.Nodup → ∀ f : String,
    countPath l (.topField f) =
      if f ∈ fs ∧ hasKey kvs f = false then 1 else 0 := by
  intro fs
  induction fs with
  | nil =>
      intro l h hnd f
      simp only [reqFieldsLoop] at h
      cases h
      simp [countPath]
  | cons f' fs ih =>
      intro l h hnd f
      obtain ⟨hf', hnd'⟩ := List.nodup_cons.mp hnd
      simp only [reqFieldsLoop] at h
      rw [bind_eq_ok] at h
      obtain ⟨c, hc, h⟩ := h
      have hck : c = hasKey kvs f' := (Except.ok.inj hc).symm
      rw [bind_eq_ok] at h
      obtain ⟨rest, hrest, h⟩ := h
      cases c with
      | true =>
          rw [if_pos rfl] at h
          cases h
          rw [ih hrest hnd' f]
          by_cases hf : f = f'
          · subst hf
            simp [hf', ← hck]
          · simp [hf, Ne.symm hf]
      | false =>
          rw [if_neg (by simp)] at h
          cases h
          simp only [countPath, List.countP_cons]
          rw [show (List.countP (fun x => decide (x.path = Pth.topField f))
            rest) = countPath rest (.topField f) from rfl, ih hrest hnd' f]
          by_cases hf : f = f'
          · subst hf
            simp [hf', ← hck]
          · simp [hf, Ne.symm hf]

/-- The module-identity check reports exactly one finding at the
module_id path iff the (string) module id fails the format. -/
theorem check_module_identity_countPath {kvs : List (String × JValue)}
    {s : String} {l : List LintIssue}
    (hmid : objGetD kvs "module_id" (.str "") = .str s)
    (h : check_module_identity (.obj kvs) = .ok l) :
    countPath l (.topField "module_id") =
      if matchModuleId s then 0 else 1 := by
  unfold check_module_identity at h
  rw [bind_eq_ok] at h
  obtain ⟨mid, hmid0, h⟩ := h
  rw [show pyGetD (JValue.obj kvs) "module_id" (.str "") =
    .ok (objGetD kvs "module_id" (.str "")) from rfl, hmid] at hmid0
  have hmid1 := Except.ok.inj hmid0
  subst hmid1
  rw [bind_eq_ok] at h
  obtain ⟨idOk, hidOk, h⟩ := h
  have hid1 : idOk = matchModuleId s :=
    (Except.ok.inj (show Except.ok (matchModuleId s) = .ok idOk
      from hidOk)).symm
  rw [bind_eq_ok] at h
  obtain ⟨abbr, habbr, h⟩ := h
  rw [bind_eq_ok] at h
  obtain ⟨abOk, habOk, h⟩ := h
  rw [bind_eq_ok] at h
  obtain ⟨mtype, hmtype, h⟩ := h
  rw [bind_eq_ok] at h
  obtain ⟨tOk, htOk, h⟩ := h
  rw [bind_eq_ok] at h
  obtain ⟨version, hversion, h⟩ := h
  rw [bind_eq_ok] at h
  obtain ⟨vOk, hvOk, h⟩ := h
  rw [bind_eq_ok] at h
  obtain ⟨mname, hmname, h⟩ := h
  rw [pure_eq_ok] at h
  subst h
  rw [countPath_append, countPath_append, countPath_append, countPath_append]
  have z2 : countPath (if abOk then ([] : List LintIssue)
      else [⟨"E013", .error, .invalidModuleAbbr abbr,
        .topField "module_abbr"⟩]) (.topField "module_id") = 0 := by
    split
    · rfl
    · rw [countPath_singleton]
      simp
  have z3 : countPath (if tOk then ([] : List LintIssue)
      else [⟨"E013", .error, .invalidModuleType mtype,
        .topField "module_type"⟩]) (.topField "module_id") = 0 := by
    split
    · rfl
    · rw [countPath_singleton]
      simp
  have z4 : countPath (if vOk then ([] : List LintIssue)
      else [⟨"E013", .error, .invalidVersion version,
        .topField "version"⟩]) (.topField "module_id") = 0 := by
    split
    · rfl
    · rw [countPath_singleton]
      simp
  have z5 : countPath (if (match mname with
      | JValue.obj nk => hasKey nk "uk" && hasKey nk "en"
      | _ => false) then ([] : List LintIssue)
      else [⟨"E014", .error, .moduleNameI18n, .topField "module_name"⟩])
      (.topField "module_id") = 0 := by
    split
    · rfl
    · rw [countPath_singleton]
      simp
  rw [z2, z3, z4, z5]
  subst hid1
  split
  · simp [countPath]
  · rw [countPath_singleton]
    simp

/-- A missing schema field contributes its finding to the schema
fields loop. -/
theorem schemaFieldsLoop_mem {kvs : List (String × JValue)} :
    ∀ {fs : List String} {f : String}, f ∈ fs → hasKey kvs f = false →
    (⟨"E011", .error, .missingSchemaField f, .schemaField f⟩ : LintIssue) ∈
      schemaFieldsLoop kvs fs := by
  intro fs
  induction fs with
  | nil => intro f hf _; simp at hf
  | cons f' fs ih =>
      intro f hf hk
      simp only [schemaFieldsLoop]
      rcases List.mem_cons.mp hf with rfl | hf'
      · rw [if_neg (by simp [hk])]
        exact List.mem_cons_self _ _
      · split
        · exact ih hf' hk
        · exact List.mem_cons_of_mem _ (ih hf' hk)

/-- A missing schema field yields at least one finding at its path. -/
theorem check_schema_block_pathpos {kvs skvs : List (String × JValue)}
    {f : String} {l : List LintIssue}
    (hsch : objGetD kvs "_schema" (.obj []) = .obj skvs)
    (hf : f ∈ REQUIRED_SCHEMA_FIELDS) (hk : hasKey skvs f = false)
    (h : check_schema_block (.obj kvs) = .ok l) :
    1 ≤ countPath l (.schemaField f) := by
  unfold check_schema_block at h
  rw [bind_eq_ok] at h
  obtain ⟨schema, hschema, h⟩ := h
  rw [show pyGetD (JValue.obj kvs) "_schema" (.obj []) =
    .ok (objGetD kvs "_schema" (.obj [])) from rfl, hsch] at hschema
  have hs1 := Except.ok.inj hschema
  subst hs1
  dsimp only at h
  rw [bind_eq_ok] at h
  obtain ⟨mOk, hmOk, h⟩ := h
  rw [bind_eq_ok] at h
  obtain ⟨uOk, huOk, h⟩ := h
  rw [bind_eq_ok] at h
  obtain ⟨i6, hi6, h⟩ := h
  rw [pure_eq_ok] at h
  subst h
  rw [countPath_append, countPath_append, countPath_append, countPath_append,
    countPath_append]
  have hpos : 1 ≤ countPath (schemaFieldsLoop skvs REQUIRED_SCHEMA_FIELDS)
      (.schemaField f) := by
    have hmem := @schemaFieldsLoop_mem skvs _ _ hf hk
    have h01 : 0 < List.countP (fun x => decide (x.path = Pth.schemaField f))
        (schemaFieldsLoop skvs REQUIRED_SCHEMA_FIELDS) :=
      List.countP_pos.mpr ⟨_, hmem, by simp⟩
    simpa [countPath] using h01
  omega

/-- The required-fields loop contains the missing-field finding of each
missing field of its field list. -/
theorem reqFieldsLoop_memE {kvs : List (String × JValue)} :
    ∀ {fs : List String} {l : List LintIssue},
    reqFieldsLoop (.obj kvs) fs = .ok l → ∀ {f : String}, f ∈ fs →
    hasKey kvs f = false →
    (⟨"E010", .error, .missingRequiredField f, .topField f⟩ : LintIssue)
      ∈ l := by
  intro fs
  induction fs with
  | nil =>
      intro l h f hf hk
      simp at hf
  | cons f' fs ih =>
      intro l h f hf hk
      simp only [reqFieldsLoop] at h
      rw [bind_eq_ok] at h
      obtain ⟨c, hc, h⟩ := h
      have hck : c = hasKey kvs f' := (Except.ok.inj hc).symm
      rw [bind_eq_ok] at h
      obtain ⟨rest, hrest, h⟩ := h
      rcases List.mem_cons.mp hf with heq | hf'
      · subst heq
        have hc0 : c = false := by rw [hck, hk]
        subst hc0
        rw [if_neg (by simp)] at h
        cases h
        exact List.mem_cons_self _ _
      · cases c with
        | true =>
            rw [if_pos rfl] at h
            cases h
            exact ih hrest hf' hk
        | false =>
            rw [if_neg (by simp)] at h
            cases h
            exact List.mem_cons_of_mem _ (ih hrest hf' hk)

/-- The schema check contains the missing-field finding of each missing
required schema field. -/
theorem check_schema_block_memE {kvs skvs : List (String × JValue)}
    {f : String} {l : List LintIssue}
    (hsch : objGetD kvs "_schema" (.obj []) = .obj skvs)
    (hf : f ∈ REQUIRED_SCHEMA_FIELDS) (hk : hasKey skvs f = false)
    (h : check_schema_block (.obj kvs) = .ok l) :
    (⟨"E011", .error, .missingSchemaField f, .schemaField f⟩ : LintIssue)
      ∈ l := by
  unfold check_schema_block at h
  rw [bind_eq_ok] at h
  obtain ⟨schema, hschema, h⟩ := h
  rw [show pyGetD (JValue.obj kvs) "_schema" (.obj []) =
    .ok (objGetD kvs "_schema" (.obj [])) from rfl, hsch] at hschema
  have hs1 := Except.ok.inj hschema
  subst hs1
  dsimp only at h
  rw [bind_eq_ok] at h
  obtain ⟨mOk, hmOk, h⟩ := h
  rw [bind_eq_ok] at h
  obtain ⟨uOk, huOk, h⟩ := h
  rw [bind_eq_ok] at h
  obtain ⟨i6, hi6, h⟩ := h
  rw [pure_eq_ok] at h
  subst h
  have hmem := @schemaFieldsLoop_mem skvs _ _ hf hk
  exact List.mem_append_left _ (List.mem_append_left _
    (List.mem_append_left _ (List.mem_append_left _
      (List.mem_append_left _ hmem))))

/-- Over a successful validation of a dict document, a missing top-level
required field puts at least one error finding at that field's path into
the aggregate errors. -/
theorem errors_pathpos_req {g : Option JValue} {p : String}
    {kvs : List (String × JValue)} {r : LintResult}
    (h : validate_contract g p (.obj kvs) = .ok r)
    {f : String} (hf : f ∈ REQUIRED_FIELDS) (hk : hasKey kvs f = false) :
    1 ≤ countPath r.errors (.topField f) := by
  obtain ⟨issues, hcol, herr, -, -, -, -⟩ := validate_contract_ok h
  obtain ⟨i1, i2, i3, i4, i5, i6, i7, i8, i9, i10, i11, i12, i13,
    h1, h2, h3, h4, h5, h6, h7, h8, h9, h10, h11, h12, h13, hsum⟩ :=
    collect_issues_parts hcol
  have h1' : reqFieldsLoop (.obj kvs) REQUIRED_FIELDS = .ok i1 := h1
  have hmem : (⟨"E010", .error, .missingRequiredField f, .topField f⟩ :
      LintIssue) ∈ i1 := reqFieldsLoop_memE h1' hf hk
  have hxi : (⟨"E010", .error, .missingRequiredField f, .topField f⟩ :
      LintIssue) ∈ issues := by
    rw [hsum]
    simp only [List.mem_append]
    tauto
  have hxe : (⟨"E010", .error, .missingRequiredField f, .topField f⟩ :
      LintIssue) ∈ r.errors := by
    rw [herr]
    exact List.mem_filter.mpr ⟨hxi, by simp⟩
  have h01 : 0 < List.countP (fun y => decide (y.path = Pth.topField f))
      r.errors := List.countP_pos.mpr ⟨_, hxe, by simp⟩
  simpa [countPath] using h01

/-- Over a successful validation of a dict document, a missing required
_schema field puts at least one error finding at that field's schema path
into the aggregate errors. -/
theorem errors_pathpos_schema {g : Option JValue} {p : String}
    {kvs skvs : List (String × JValue)} {r : LintResult}
    (h : validate_contract g p (.obj kvs) = .ok r)
    (hsch : objGetD kvs "_schema" (.obj []) = .obj skvs)
    {f : String} (hf : f ∈ REQUIRED_SCHEMA_FIELDS)
    (hk : hasKey skvs f = false) :
    1 ≤ countPath r.errors (.schemaField f) := by
  obtain ⟨issues, hcol, herr, -, -, -, -⟩ := validate_contract_ok h
  obtain ⟨i1, i2, i3, i4, i5, i6, i7, i8, i9, i10, i11, i12, i13,
    h1, h2, h3, h4, h5, h6, h7, h8, h9, h10, h11, h12, h13, hsum⟩ :=
    collect_issues_parts hcol
  have hmem : (⟨"E011", .error, .missingSchemaField f, .schemaField f⟩ :
      LintIssue) ∈ i2 := check_schema_block_memE hsch hf hk h2
  have hxi : (⟨"E011", .error, .missingSchemaField f, .schemaField f⟩ :
      LintIssue) ∈ issues := by
    rw [hsum]
    simp only [List.mem_append]
    tauto
  have hxe : (⟨"E011", .error, .missingSchemaField f, .schemaField f⟩ :
      LintIssue) ∈ r.errors := by
    rw [herr]
    exact List.mem_filter.mpr ⟨hxi, by simp⟩
  have h01 : 0 < List.countP (fun y => decide (y.path = Pth.schemaField f))
      r.errors := List.countP_pos.mpr ⟨_, hxe, by simp⟩
  simpa [countPath] using h01

/-- The score aggregation in closed form: the error branch applies exactly
when the error count is nonzero. -/
theorem scoreOfIssues_spec (l : List LintIssue) :
    scoreOfIssues l =
      if errCount l = 0 then max 70 (100 - 5 * (warnCount l : Int))
      else max 0 (50 - 10 * (errCount l : Int)) := by
  unfold scoreOfIssues calculate_score errCount warnCount
  rw [List.countP_eq_length_filter, List.countP_eq_length_filter]
  cases hE : List.filter (fun x => decide (x.severity = Severity.error)) l with
  | nil => simp
  | cons a as => simp

/-- C1 (amended): for a step whose uses list names an unavailable artifact,
validation reports one data-flow error finding naming that step and that
artifact per occurrence of the artifact in the uses list, not exactly one
per (step, artifact) pair. -/
theorem claim_C1 {g : Option JValue} {p : String} {d : JValue}
    {r : LintResult} (h : validate_contract g p d = .ok r)
    {steps : List JValue} (hsteps : algoStepsOf d = some steps)
    {i : Nat} {step : JValue} (hstep : steps.get? i = some step)
    {avail : List JValue} (havail : dataflow_available d = .ok avail)
    (a : JValue) (hna : avail.contains a = false)
    (hnp : (producedThrough [] (steps.take i)).contains a = false) :
    countMsg r.errors (.stepUsesUnknown i a) = (usesOfPure step).count a :=
  validate_e061 h hsteps hstep havail a hna hnp

/-- C1 witness: in the duplicate-uses document the theorem applies and the
uses list counts the artifact twice. -/
theorem claim_C1_witness :
    countMsg (runResult none "f" docDupUses).errors
      (.stepUsesUnknown 0 (.str "x")) = (usesOfPure dupStep).count (.str "x") ∧
    (usesOfPure dupStep).count (JValue.str "x") = 2 :=
  ⟨@claim_C1 none "f" docDupUses (runResult none "f" docDupUses) rfl
    [dupStep] rfl 0 dupStep rfl [JValue.str "in1", JValue.str "p"] rfl
    (.str "x") rfl rfl, rfl⟩

/-- C1 counterexample: a step using the unavailable artifact x twice gets
two E061 findings, not exactly one. -/
theorem claim_C1_counterexample :
    validate_contract none "f" docDupUses =
      .ok (runResult none "f" docDupUses) ∧
    dataflow_available docDupUses =
      .ok [JValue.str "in1", JValue.str "p"] ∧
    ([JValue.str "in1", JValue.str "p"] : List JValue).contains (.str "x")
      = false ∧
    algoStepsOf docDupUses = some [dupStep] ∧
    (producedThrough [] (([dupStep] : List JValue).take 0)).contains
      (.str "x") = false ∧
    JValue.str "x" ∈ usesOfPure dupStep ∧
    countMsg (runResult none "f" docDupUses).errors
      (.stepUsesUnknown 0 (.str "x")) = 2 :=
  ⟨rfl, rfl, rfl, rfl, rfl, by decide, rfl⟩

/-- C2: the produced set grows only after a step's uses-check, so an
artifact available neither initially nor from earlier steps yields a
data-flow error for the step using it even when that very step (or the
full step list) produces it. -/
theorem claim_C2 {g : Option JValue} {p : String} {d : JValue}
    {r : LintResult} (h : validate_contract g p d = .ok r)
    {steps : List JValue} (hsteps : algoStepsOf d = some steps)
    {i : Nat} {step : JValue} (hstep : steps.get? i = some step)
    {avail : List JValue} (havail : dataflow_available d = .ok avail)
    (a : JValue) (hna : avail.contains a = false)
    (hnp : (producedThrough [] (steps.take i)).contains a = false)
    (hlater : (pureProdStep [] step).contains a = true ∨
      (producedThrough [] steps).contains a = true)
    (huse : a ∈ usesOfPure step) :
    1 ≤ countMsg r.errors (.stepUsesUnknown i a) := by
  have he := validate_e061 h hsteps hstep havail a hna hnp
  rw [he]
  have hpos : 0 < (usesOfPure step).count a := by
    rw [List.count_pos_iff]
    exact huse
  omega

/-- C2 witness: a step consuming its own output y is flagged. -/
theorem claim_C2_witness :
    1 ≤ countMsg (runResult none "f" docSelfUse).errors
      (.stepUsesUnknown 0 (.str "y")) :=
  @claim_C2 none "f" docSelfUse (runResult none "f" docSelfUse) rfl
    [selfStep] rfl 0 selfStep rfl [JValue.str "in1", JValue.str "p"] rfl
    (.str "y") rfl rfl (Or.inl rfl) (by decide)

/-- C3: a well-formed loaded document whose validation section is a list
makes the validator raise an AttributeError (list.get) instead of
returning a result, refuting never-raises-after-load. -/
theorem claim_C3 :
    validate_contract none "contract.json" docCrash =
      .error (.attributeError "object has no attribute get") := rfl

/-- C4: the score formula per branch, its 0..100 bounds, and its
monotonicity in error count and (error-free) in warning count. -/
theorem claim_C4 (issues issues2 : List LintIssue) :
    (errCount issues ≠ 0 →
      scoreOfIssues issues = max 0 (50 - 10 * (errCount issues : Int))) ∧
    (errCount issues = 0 →
      scoreOfIssues issues = max 70 (100 - 5 * (warnCount issues : Int))) ∧
    0 ≤ scoreOfIssues issues ∧ scoreOfIssues issues ≤ 100 ∧
    (errCount issues ≤ errCount issues2 →
      warnCount issues = warnCount issues2 →
      scoreOfIssues issues2 ≤ scoreOfIssues issues) ∧
    (errCount issues = 0 → errCount issues2 = 0 →
      warnCount issues ≤ warnCount issues2 →
      scoreOfIssues issues2 ≤ scoreOfIssues issues) := by
  have h1 := scoreOfIssues_spec issues
  have h2 := scoreOfIssues_spec issues2
  refine ⟨?_, ?_, ?_, ?_, ?_, ?_⟩
  · intro h
    rw [h1, if_neg h]
  · intro h
    rw [h1, if_pos h]
  · rw [h1]
    split_ifs
    · exact le_trans (by norm_num) (le_max_left 70 _)
    · exact le_max_left 0 _
  · rw [h1]
    split_ifs
    · exact max_le (by norm_num) (by omega)
    · exact max_le (by norm_num) (by omega)
  · intro hle heq
    rw [h1, h2]
    rcases Nat.eq_zero_or_pos (errCount issues) with h0 | hpos
    · rcases Nat.eq_zero_or_pos (errCount issues2) with h0' | hpos'
      · rw [if_pos h0, if_pos h0', heq]
      · have hne2 : ¬(errCount issues2 = 0) := by omega
        rw [if_pos h0, if_neg hne2]
        exact le_trans (max_le (by norm_num) (by omega)) (le_max_left _ _)
    · have hne2 : ¬(errCount issues2 = 0) := by omega
      have hne1 : ¬(errCount issues = 0) := by omega
      rw [if_neg hne2, if_neg hne1]
      exact max_le_max (le_refl 0) (by omega)
  · intro h0 h0' hw
    rw [h1, h2, if_pos h0, if_pos h0']
    exact max_le_max (le_refl 70) (by omega)

/-- C4 witness: the branch formulas and both monotonicity parts at
concrete finding lists. -/
theorem claim_C4_witness :
    scoreOfIssues [errIssue] = max 0 (50 - 10 * (errCount [errIssue] : Int)) ∧
    scoreOfIssues [warnIssue] =
      max 70 (100 - 5 * (warnCount [warnIssue] : Int)) ∧
    scoreOfIssues [errIssue, errIssue] ≤ scoreOfIssues [errIssue] ∧
    scoreOfIssues [warnIssue, warnIssue] ≤ scoreOfIssues [warnIssue] := by
  refine ⟨(claim_C4 [errIssue] []).1 (by decide),
    (claim_C4 [warnIssue] []).2.1 (by decide), ?_, ?_⟩
  · exact (claim_C4 [errIssue] [errIssue, errIssue]).2.2.2.2.1
      (by decide) (by decide)
  · exact (claim_C4 [warnIssue] [warnIssue, warnIssue]).2.2.2.2.2
      (by decide) (by decide) (by decide)

/-- C5: the passed flag is true exactly when the error-severity count over
all returned findings is zero, and the warnings list carries no
error-severity finding. -/
theorem claim_C5 {g : Option JValue} {p : String} {d : JValue}
    {r : LintResult} (h : validate_contract g p d = .ok r) :
    (r.passed = true ↔ errCount (r.errors ++ r.warnings) = 0) ∧
    errCount r.warnings = 0 := by
  obtain ⟨issues, hcol, herr, hwarn, hpassed, hscore, hpath⟩ :=
    validate_contract_ok h
  have hw0 : errCount r.warnings = 0 := by
    rw [hwarn]
    refine List.countP_eq_zero.mpr ?_
    intro x hx
    have hxw : x.severity = Severity.warning := by
      have hm := List.mem_filter.mp hx
      simpa using hm.2
    simp [hxw]
  have herrlen : errCount r.errors = r.errors.length := by
    conv_lhs => rw [herr]
    conv_rhs => rw [herr]
    refine List.countP_eq_length.mpr ?_
    intro x hx
    have hm := List.mem_filter.mp hx
    simpa using hm.2
  refine ⟨?_, hw0⟩
  rw [hpassed]
  rw [show errCount (r.errors ++ r.warnings) =
    errCount r.errors + errCount r.warnings from List.countP_append _ _ _,
    hw0, herrlen]
  simp

/-- C5 witness: the clean document passes with no findings at all. -/
theorem claim_C5_witness :
    ((⟨"f", true, 100, [], []⟩ : LintResult).passed = true ↔
      errCount ((⟨"f", true, 100, [], []⟩ : LintResult).errors ++
        (⟨"f", true, 100, [], []⟩ : LintResult).warnings) = 0) ∧
    errCount (⟨"f", true, 100, [], []⟩ : LintResult).warnings = 0 :=
  @claim_C5 none "f" docClean ⟨"f", true, 100, [], []⟩ rfl

/-- C6 (amended): when the step list is non-empty, a declared contract
output produced by no step yields exactly one not-produced error and one
absent from the registry id set yields exactly one not-in-registry error;
with an empty step list the whole walk, these checks included, is skipped. -/
theorem claim_C6 {g : Option JValue} {p : String} {d : JValue}
    {r : LintResult} (h : validate_contract g p d = .ok r)
    {steps : List JValue} (hsteps : algoStepsOf d = some steps)
    (hne : steps ≠ [])
    {outs : List JValue} (houts : io_outputs_ids d = .ok outs)
    {regv : JValue} (hreg : algoRegistryVal d = some regv)
    {rids : List JValue} (hrid : registry_ids_of regv = .ok rids)
    {o : JValue} (ho : o ∈ outs) :
    countMsg r.errors (.outputNotProduced o) =
      (if (producedThrough [] steps).contains o then 0 else 1) ∧
    countMsg r.errors (.outputNotInRegistry o) =
      (if rids.contains o then 0 else 1) :=
  validate_outputs h hsteps hne houts hreg hrid ho

/-- C6 witness: the declared output o2 of the missing-output document is
neither produced nor registered and gets both findings once. -/
theorem claim_C6_witness :
    countMsg (runResult none "f" docMissingOutput).errors
      (.outputNotProduced (.str "o2")) = 1 ∧
    countMsg (runResult none "f" docMissingOutput).errors
      (.outputNotInRegistry (.str "o2")) = 1 := by
  have hw := @claim_C6 none "f" docMissingOutput
    (runResult none "f" docMissingOutput) rfl
    [mkStep "S001" "load" ["in1", "p"] ["out1"]] rfl
    (List.cons_ne_nil _ _)
    [JValue.str "out1", JValue.str "o2"] rfl
    (JValue.arr [.obj [("artifact_id", JValue.str "out1")]]) rfl
    [JValue.str "out1"] rfl (JValue.str "o2") (by decide)
  exact ⟨hw.1.trans rfl, hw.2.trans rfl⟩

/-- C6 counterexample: with an empty step list the declared output out1 is
unproduced and unregistered yet gets neither finding. -/
theorem claim_C6_counterexample :
    validate_contract none "f" docEmptySteps =
      .ok (runResult none "f" docEmptySteps) ∧
    io_outputs_ids docEmptySteps = .ok [JValue.str "out1"] ∧
    algoStepsOf docEmptySteps = some [] ∧
    algoRegistryVal docEmptySteps = some (.arr []) ∧
    registry_ids_of (.arr []) = .ok [] ∧
    (producedThrough [] ([] : List JValue)).contains (JValue.str "out1")
      = false ∧
    countMsg (runResult none "f" docEmptySteps).errors
      (.outputNotProduced (.str "out1")) = 0 ∧
    countMsg (runResult none "f" docEmptySteps).errors
      (.outputNotInRegistry (.str "out1")) = 0 :=
  ⟨rfl, rfl, rfl, rfl, rfl, rfl, rfl, rfl⟩

/-- C7: the registry entry at index i is flagged as a duplicate exactly
once when its code already occurs among the earlier entries, and never
when it is the first occurrence. -/
theorem claim_C7 {g : Option JValue} {p : String} {d : JValue}
    {r : LintResult} (h : validate_contract g p d = .ok r)
    {l : List JValue} (hl : errorCodesOf d = some l)
    {i : Nat} {kvs : List (String × JValue)}
    (hent : l.get? i = some (.obj kvs)) :
    countMsgPath r.errors (.ecDuplicate (objGetD kvs "code" (.str "")))
      (.errorCodeField i "code") =
      if (ecSeenThrough [] (l.take i)).contains
        (objGetD kvs "code" (.str "")) then 1 else 0 :=
  validate_e051 h hl hent

/-- C7 witness: in the duplicated-code document the second E001 entry
(index 2) is flagged once and the first (index 0) is not flagged. -/
theorem claim_C7_witness :
    countMsgPath (runResult none "f" docDupCode).errors
      (.ecDuplicate (.str "E001")) (.errorCodeField 2 "code") = 1 ∧
    countMsgPath (runResult none "f" docDupCode).errors
      (.ecDuplicate (.str "E001")) (.errorCodeField 0 "code") = 0 := by
  refine ⟨?_, ?_⟩
  · exact (@claim_C7 none "f" docDupCode (runResult none "f" docDupCode) rfl
      [JValue.obj [("code", JValue.str "E001"), ("level", JValue.str "error"),
        ("title", JValue.str "t"), ("message", JValue.str "m")],
       JValue.obj [("code", JValue.str "W001"),
        ("level", JValue.str "warning"), ("title", JValue.str "t"),
        ("message", JValue.str "m")],
       JValue.obj [("code", JValue.str "E001"), ("level", JValue.str "error"),
        ("title", JValue.str "t2"), ("message", JValue.str "m2")]] rfl
      2 [("code", JValue.str "E001"), ("level", JValue.str "error"),
        ("title", JValue.str "t2"), ("message", JValue.str "m2")] rfl).trans
      rfl
  · exact (@claim_C7 none "f" docDupCode (runResult none "f" docDupCode) rfl
      [JValue.obj [("code", JValue.str "E001"), ("level", JValue.str "error"),
        ("title", JValue.str "t"), ("message", JValue.str "m")],
       JValue.obj [("code", JValue.str "W001"),
        ("level", JValue.str "warning"), ("title", JValue.str "t"),
        ("message", JValue.str "m")],
       JValue.obj [("code", JValue.str "E001"), ("level", JValue.str "error"),
        ("title", JValue.str "t2"), ("message", JValue.str "m2")]] rfl
      0 [("code", JValue.str "E001"), ("level", JValue.str "error"),
        ("title", JValue.str "t"), ("message", JValue.str "m")] rfl).trans
      rfl

/-- C8 (amended): each structural check on its own emits exactly one
finding at the offending field's path (required-fields per missing
top-level field, module-identity for a malformed module id); the aggregate
validation reports at least one error finding at the field's dotted path
for each missing top-level required field and each missing _schema field,
but not exactly one — overlapping checks stack findings at the same
path. -/
theorem claim_C8 {g : Option JValue} {p : String}
    {kvs : List (String × JValue)} {r : LintResult}
    (h : validate_contract g p (.obj kvs) = .ok r) :
    (∀ f ∈ REQUIRED_FIELDS, hasKey kvs f = false →
      1 ≤ countPath r.errors (.topField f)) ∧
    (∀ skvs f, objGetD kvs "_schema" (.obj []) = .obj skvs →
      f ∈ REQUIRED_SCHEMA_FIELDS → hasKey skvs f = false →
      1 ≤ countPath r.errors (.schemaField f)) ∧
    (∀ f ∈ REQUIRED_FIELDS, ∀ l,
      check_required_fields (.obj kvs) = .ok l →
      countPath l (.topField f) = if hasKey kvs f then 0 else 1) ∧
    (∀ s l, objGetD kvs "module_id" (.str "") = .str s →
      check_module_identity (.obj kvs) = .ok l →
      countPath l (.topField "module_id") =
        if matchModuleId s then 0 else 1) := by
  refine ⟨?_, ?_, ?_, ?_⟩
  · intro f hf hk
    exact errors_pathpos_req h hf hk
  · intro skvs f hsch hf hk
    exact errors_pathpos_schema h hsch hf hk
  · intro f hf l h'
    have h'' : reqFieldsLoop (.obj kvs) REQUIRED_FIELDS = .ok l := h'
    rw [reqFieldsLoop_countPath h'' (by decide) f]
    cases hk : hasKey kvs f <;> simp [hf, hk]
  · intro s l hmid h'
    exact check_module_identity_countPath hmid h'

/-- C8 witness: in the near-empty document the aggregate errors hold at
least one finding at the missing module_id and _schema.name paths, and
the individual checks each report exactly one. -/
theorem claim_C8_witness :
    1 ≤ countPath (runResult none "f" docSchemaEmpty).errors
      (.topField "module_id") ∧
    1 ≤ countPath (runResult none "f" docSchemaEmpty).errors
      (.schemaField "name") ∧
    countPath (issuesOf (check_required_fields docSchemaEmpty))
      (.topField "version") = 1 ∧
    countPath (issuesOf (check_module_identity docSchemaEmpty))
      (.topField "module_id") = 1 := by
  have h := @claim_C8 none "f" [("_schema", JValue.obj [])]
    (runResult none "f" docSchemaEmpty) rfl
  exact ⟨h.1 "module_id" (by decide) rfl,
    h.2.1 [] "name" rfl (by decide) rfl,
    (h.2.2.1 "version" (by decide) _ rfl).trans rfl,
    (h.2.2.2 "" _ rfl rfl).trans rfl⟩

/-- C8 counterexample: the aggregate validation reports two error findings
at $.module_id for a missing module_id (missing-field and id-format) and
two at $._schema.name for a missing _schema.name (missing-field and
name-format), refuting exactly-one per offending field path. -/
theorem claim_C8_counterexample :
    "module_id" ∈ REQUIRED_FIELDS ∧
    hasKey [("_schema", JValue.obj [])] "module_id" = false ∧
    countPath (runResult none "f" docSchemaEmpty).errors
      (.topField "module_id") = 2 ∧
    "name" ∈ REQUIRED_SCHEMA_FIELDS ∧
    hasKey ([] : List (String × JValue)) "name" = false ∧
    countPath (runResult none "f" docSchemaEmpty).errors
      (.schemaField "name") = 2 ∧
    validate_contract none "f" docSchemaEmpty =
      .ok (runResult none "f" docSchemaEmpty) :=
  ⟨by decide, rfl, rfl, by decide, rfl, rfl, rfl⟩

/-- C9 (amended): glossary findings appear only for a truthy supplied
glossary and a policy other than off; when the check runs and the module
code is a non-empty string absent from the term set it yields one error
under strict and one warning otherwise — but a falsy (empty or missing)
module code is skipped without any finding. -/
theorem claim_C9 {g : Option JValue} {p : String} {d : JValue}
    {r : LintResult} (h : validate_contract g p d = .ok r) :
    (pyOptTruthy g = false →
      r.errors.countP (fun x => decide (x.message.family = 12)) = 0 ∧
      r.warnings.countP (fun x => decide (x.message.family = 12)) = 0) ∧
    (glossaryPolicyOf d = some (.str "off") →
      r.errors.countP (fun x => decide (x.message.family = 12)) = 0 ∧
      r.warnings.countP (fun x => decide (x.message.family = 12)) = 0) ∧
    (∀ gv tkvs policy s, g = some gv → gv.truthy = true →
      glossaryPolicyOf d = some policy → policy ≠ .str "off" →
      pyGetD gv "terms" (.obj []) = .ok (.obj tkvs) →
      moduleAbbrOf d = some (.str s) → s ≠ "" →
      ((tkvs.map Prod.fst).map JValue.str).contains (.str s) = false →
      (policy = .str "strict" →
        countMsg r.errors (.glossaryAbbrMissing (.str s)) = 1 ∧
        countMsg r.warnings (.glossaryAbbrMissing (.str s)) = 0) ∧
      (policy ≠ .str "strict" →
        countMsg r.warnings (.glossaryAbbrMissing (.str s)) = 1 ∧
        countMsg r.errors (.glossaryAbbrMissing (.str s)) = 0)) := by
  have hqf : ∀ x : LintIssue,
      (fun x : LintIssue => decide (x.message.family = 12)) x = true →
      x.message.family = 12 := by
    intro x hx
    simpa using hx
  refine ⟨?_, ?_, ?_⟩
  · intro hfalse
    exact (glossary_countP h hqf).1 hfalse
  · intro hpol
    cases hopt : pyOptTruthy g with
    | false => exact (glossary_countP h hqf).1 hopt
    | true =>
        obtain ⟨i13, h13, hec, hwc⟩ := (glossary_countP h hqf).2 hopt
        have h0 : i13 = [] :=
          Except.ok.inj (h13.symm.trans (check_glossary_off hpol))
        subst h0
        exact ⟨hec.trans (List.countP_nil _), hwc.trans (List.countP_nil _)⟩
  · intro gv tkvs policy s hg htru hpol hoff hterms habbr hs hmem
    have hopt : pyOptTruthy g = true := by
      rw [hg]
      simpa [pyOptTruthy] using htru
    have hq : ∀ x : LintIssue,
        (fun x : LintIssue =>
          decide (x.message = Msg.glossaryAbbrMissing (.str s))) x = true →
        x.message.family = 12 := by
      intro x hx
      rw [decide_eq_true_eq] at hx
      rw [hx]; rfl
    obtain ⟨i13, h13, hec, hwc⟩ := (glossary_countP h hq).2 hopt
    rw [hg] at h13
    have hex := check_glossary_exact hpol hoff htru hterms habbr hs hmem
    have h0 : i13 = [⟨if policy = .str "strict" then "E100" else "W101",
        if policy = .str "strict" then .error else .warning,
        .glossaryAbbrMissing (.str s), .topField "module_abbr"⟩] :=
      Except.ok.inj (h13.symm.trans hex)
    subst h0
    constructor
    · intro hstrict
      subst hstrict
      refine ⟨?_, ?_⟩
      · rw [show countMsg r.errors (Msg.glossaryAbbrMissing (.str s)) =
          r.errors.countP (fun x : LintIssue =>
            decide (x.message = Msg.glossaryAbbrMissing (.str s))) from rfl,
          hec]
        simp
      · rw [show countMsg r.warnings (Msg.glossaryAbbrMissing (.str s)) =
          r.warnings.countP (fun x : LintIssue =>
            decide (x.message = Msg.glossaryAbbrMissing (.str s))) from rfl,
          hwc]
        simp
    · intro hnstrict
      refine ⟨?_, ?_⟩
      · rw [show countMsg r.warnings (Msg.glossaryAbbrMissing (.str s)) =
          r.warnings.countP (fun x : LintIssue =>
            decide (x.message = Msg.glossaryAbbrMissing (.str s))) from rfl,
          hwc]
        simp [hnstrict]
      · rw [show countMsg r.errors (Msg.glossaryAbbrMissing (.str s)) =
          r.errors.countP (fun x : LintIssue =>
            decide (x.message = Msg.glossaryAbbrMissing (.str s))) from rfl,
          hec]
        simp [hnstrict]

/-- C9 witness: with the XX-only glossary, the strict document gets one
E100 error and the warn-policy document one W101 warning for the absent
code AB. -/
theorem claim_C9_witness :
    countMsg (runResult (some glossaryXX) "f" docStrict).errors
      (.glossaryAbbrMissing (.str "AB")) = 1 ∧
    countMsg (runResult (some glossaryXX) "f" docStrict).warnings
      (.glossaryAbbrMissing (.str "AB")) = 0 ∧
    countMsg (runResult (some glossaryXX) "f" docWarnPolicy).warnings
      (.glossaryAbbrMissing (.str "AB")) = 1 ∧
    countMsg (runResult (some glossaryXX) "f" docWarnPolicy).errors
      (.glossaryAbbrMissing (.str "AB")) = 0 := by
  have h1 := (@claim_C9 (some glossaryXX) "f" docStrict
    (runResult (some glossaryXX) "f" docStrict) rfl).2.2 glossaryXX
    [("XX", JValue.num 1)] (.str "strict") "AB" rfl rfl rfl (by decide) rfl
    rfl (by decide) rfl
  have h2 := (@claim_C9 (some glossaryXX) "f" docWarnPolicy
    (runResult (some glossaryXX) "f" docWarnPolicy) rfl).2.2 glossaryXX
    [("XX", JValue.num 1)] (.str "warn") "AB" rfl rfl rfl (by decide) rfl
    rfl (by decide) rfl
  exact ⟨(h1.1 rfl).1, (h1.1 rfl).2, (h2.2 (by decide)).1,
    (h2.2 (by decide)).2⟩

/-- C9 counterexample: glossary supplied and truthy, policy strict, module
code (the empty string) absent from the term set, yet the glossary check
emits nothing because the falsy module_abbr is skipped. -/
theorem claim_C9_counterexample :
    pyOptTruthy (some glossaryXX) = true ∧
    glossaryPolicyOf docAbbrEmptyStrict = some (.str "strict") ∧
    moduleAbbrOf docAbbrEmptyStrict = some (.str "") ∧
    pyGetD glossaryXX "terms" (.obj []) = .ok (.obj [("XX", JValue.num 1)]) ∧
    (([("XX", JValue.num 1)].map Prod.fst).map JValue.str).contains
      (JValue.str "") = false ∧
    check_glossary_coverage (some glossaryXX) docAbbrEmptyStrict = .ok [] ∧
    (runResult (some glossaryXX) "f" docAbbrEmptyStrict).errors.countP
      (fun x => decide (x.message.family = 12)) = 0 ∧
    (runResult (some glossaryXX) "f" docAbbrEmptyStrict).warnings.countP
      (fun x => decide (x.message.family = 12)) = 0 ∧
    validate_contract (some glossaryXX) "f" docAbbrEmptyStrict =
      .ok (runResult (some glossaryXX) "f" docAbbrEmptyStrict) :=
  ⟨rfl, rfl, rfl, rfl, rfl, rfl, rfl, rfl, rfl⟩

/-- C10: the score never lands in 41..69 — at most 40 with any error, at
least 70 without — so the score range determines the passed flag. -/
theorem claim_C10 (issues : List LintIssue) :
    (errCount issues ≠ 0 → scoreOfIssues issues ≤ 40) ∧
    (errCount issues = 0 → 70 ≤ scoreOfIssues issues) ∧
    (scoreOfIssues issues ≤ 40 ∨ 70 ≤ scoreOfIssues issues) ∧
    ¬(41 ≤ scoreOfIssues issues ∧ scoreOfIssues issues ≤ 69) ∧
    (70 ≤ scoreOfIssues issues ↔ errCount issues = 0) := by
  have h1 := scoreOfIssues_spec issues
  have ha : errCount issues ≠ 0 → scoreOfIssues issues ≤ 40 := by
    intro h
    rw [h1, if_neg h]
    exact max_le (by norm_num) (by omega)
  have hb : errCount issues = 0 → 70 ≤ scoreOfIssues issues := by
    intro h
    rw [h1, if_pos h]
    exact le_max_left _ _
  have hc : scoreOfIssues issues ≤ 40 ∨ 70 ≤ scoreOfIssues issues := by
    rcases eq_or_ne (errCount issues) 0 with h | h
    · exact Or.inr (hb h)
    · exact Or.inl (ha h)
  refine ⟨ha, hb, hc, ?_, ?_⟩
  · rintro ⟨hx, hy⟩
    rcases hc with h | h <;> omega
  · constructor
    · intro h70
      by_contra hne
      have := ha hne
      omega
    · exact hb

/-- C10 witness: one error scores at most 40, the empty finding list at
least 70. -/
theorem claim_C10_witness :
    scoreOfIssues [errIssue] ≤ 40 ∧ 70 ≤ scoreOfIssues [] :=
  ⟨(claim_C10 [errIssue]).1 (by decide), (claim_C10 []).2.1 rfl⟩
